import Mathlib

/-!
Payment gateway: the dispatch core.

A shallow embedding of `internal/service/payment.go` (the dispatcher
`PaymentService` with its ledger, its shared circuit breaker and its retry
loop), of the data model in `internal/domain/payment.go` and of the
configuration accessors in `internal/config/config.go`.

Conventions of the embedding.

* Go pointers to payments are modelled by value: a `*domain.Payment` is an
  `Option Payment` (`none` is the nil pointer). Providers hand out fresh
  objects, as the HTTP adapter of `internal/providers/provider.go` does. The
  one place where the dispatcher writes through a pointer it stores, the
  success path of `RefundPayment`, is embedded a second time on payment
  objects, in the namespace `reference`.
* The two third-party libraries the dispatcher is built on,
  `github.com/sony/gobreaker` and `github.com/avast/retry-go/v4`, are modelled
  in the namespaces `gobreaker` and `retry` after their published behaviour.
* The outside world (the upstream providers and the clock) is an arbitrary
  type `W`. A provider method is a transition of the world; the clock is read
  from the world.
* `Env.calls` is a ghost log of the provider invocations, in the order they
  are made. It has no counterpart in the Go code and is never read by it.
  The statements about which provider is invoked do not rely on it: there the
  providers themselves write the invocations they receive into a journal kept
  in the world (`PaymentProvider.journaled`).
* `float64` fields are modelled by rationals. The dispatcher copies amounts
  without arithmetic; the only float computation is the failure ratio of
  `ReadyToTrip`, whose quotient is rounded to the nearest binary64 number
  as IEEE 754 division does (namespace `float64`). A configured ratio is the
  number written in the configuration; the `float64` field holds the binary64
  number nearest to it.
-/

namespace PaymentGateway

/-! ## Go errors -/

/-- The error values the dispatcher can see. `errorString` is what
`errors.New` and a `fmt.Errorf` without `%w` build, `wrapError` what a
`fmt.Errorf` ending in `%w` builds (the text before the verb, and the wrapped
error), `retryError` is `retry.Error` (one entry per failed attempt), and the
last two are the sentinel errors of gobreaker. -/
inductive GoError where
  | errorString (msg : String)
  | wrapError (msg : String) (err : GoError)
  | retryError (log : List GoError)
  | ErrOpenState
  | ErrTooManyRequests
deriving Repr

mutual
/-- The method `Error()` of an error value. -/
def GoError.Error : GoError → String
  | .errorString msg => msg
  | .wrapError msg err => msg ++ err.Error
  | .retryError log => "All attempts fail:" ++ GoError.logLines 1 log
  | .ErrOpenState => "circuit breaker is open"
  | .ErrTooManyRequests => "too many requests"
/-- The numbered lines of `retry.Error.Error()`. -/
def GoError.logLines : Nat → List GoError → String
  | _, [] => ""
  | i, err :: rest => "\n#" ++ toString i ++ ": " ++ err.Error ++ GoError.logLines (i + 1) rest
end

/-- The function `errors.Unwrap`: the error wrapped with `%w`, the last entry
of a `retry.Error`, nothing otherwise. -/
def GoError.Unwrap : GoError → Option GoError
  | .wrapError _ err => some err
  | .retryError log => log.getLast?
  | _ => none

/-- How a Go call ends: it returns, it panics, or it does not return. -/
inductive Outcome (α : Type) where
  | returned (val : α)
  | panicked (msg : String)
  | diverged

/-- The conversion `int64(x)` of an integer computed without bound. -/
def wrapInt64 (x : Int) : Int := (x + 2 ^ 63) % 2 ^ 64 - 2 ^ 63

/-- The conversion `uint(x)` of an `int` on a 64-bit platform. -/
def uint (x : Int) : Nat := (x % 2 ^ 64).toNat

/-- The wrap-around of `uint32` arithmetic. -/
def uint32 (n : Nat) : Nat := n % 2 ^ 32

/-! ## float64 -/

namespace float64

/-- The exponent of the leading bit of `n`, found in at most `fuel` halvings. -/
def exponentAux : Nat → Nat → Nat
  | 0, _ => 0
  | fuel + 1, n => if n < 2 then 0 else exponentAux fuel (n / 2) + 1

/-- The exponent of the leading bit of a positive integer: the `e` with
`2 ^ e ≤ n < 2 ^ (e + 1)`. -/
def exponent (n : Nat) : Nat := exponentAux n n

/-- The pair `(n * 2 ^ t, d)` for a shift `t ≥ 0` and `(n, d * 2 ^ (-t))` for a
shift `t < 0`: the fraction `n / d` scaled by `2 ^ t`. -/
def scaled (n d : Nat) (t : Int) : Nat × Nat :=
  if 0 ≤ t then (n * 2 ^ t.toNat, d) else (n, d * 2 ^ (-t).toNat)

/-- The shift that brings the integer quotient of `n / d` into
`[2 ^ 52, 2 ^ 53)`, the 53 significant bits of a binary64 number. -/
def shift (n d : Nat) : Int :=
  let t : Int := 52 + (exponent d : Int) - (exponent n : Int)
  if (scaled n d t).1 / (scaled n d t).2 < 2 ^ 52 then t + 1 else t

/-- The integer nearest to the fraction `a / b`, the even one of the two when
the fraction is half-way between them. -/
def roundHalfEven (a b : Nat) : Nat :=
  if b < 2 * (a % b) ∨ (2 * (a % b) = b ∧ a / b % 2 = 1) then a / b + 1 else a / b

/-- The binary64 number nearest to the fraction `n / d` of two integers
(`d` positive), ties to the even significand: the rounding of IEEE 754
arithmetic and of the conversion of a decimal. The exponent is not bounded;
the quotient of two `uint32` lies in the normal range. -/
def nearest (n d : Nat) : Rat :=
  let t := shift n d
  let m := roundHalfEven (scaled n d t).1 (scaled n d t).2
  if 0 ≤ t then mkRat m (2 ^ t.toNat) else mkRat (m * 2 ^ (-t).toNat) 1

/-- The value of the `float64` that holds the number `x`, as a constant or a
parsed decimal is converted: the nearest binary64 number, which below
`2 ^ (-1022)` (a shift beyond 1074) is a multiple of `2 ^ (-1074)`. A binary64
number is held as it is. The overflow to an infinity is not modelled: a value
beyond the largest binary64 number stays finite, and compares with the
quotients of `uint32` counts as the infinity does. -/
def ofRat (x : Rat) : Rat :=
  let value :=
    if 1074 < shift x.num.natAbs x.den then
      mkRat (roundHalfEven (x.num.natAbs * 2 ^ 1074) x.den) (2 ^ 1074)
    else nearest x.num.natAbs x.den
  if x = 0 then 0 else if 0 < x then value else - value

end float64

/-! ## internal/domain/payment.go -/

abbrev PaymentStatus := String

abbrev StatusAuthorized : PaymentStatus := "authorized"

abbrev StatusFailed : PaymentStatus := "failed"

abbrev StatusRefunded : PaymentStatus := "refunded"

structure Card where
  Number : String
  HolderName : String
  CVV : String
  ExpirationDate : String
  Installments : Int
deriving DecidableEq, Repr

structure PaymentRequest where
  Amount : Rat
  Currency : String
  Description : String
  Card : Card
deriving DecidableEq, Repr

structure Payment where
  ID : String
  CreatedAt : Int
  Status : PaymentStatus
  OriginalAmount : Rat
  CurrentAmount : Rat
  Currency : String
  Description : String
  PaymentMethod : String
  CardID : String
deriving DecidableEq, Repr

structure Transaction where
  Payment : Payment
  ProviderID : String
  ProviderName : String
deriving DecidableEq, Repr

structure RefundRequest where
  Amount : Rat
deriving DecidableEq, Repr

/-- The interface `domain.PaymentProvider`. The three operations act on the
world; each returns the Go pair `(*Payment, error)`. -/
structure PaymentProvider (W : Type) where
  ProcessPayment : PaymentRequest → W → (Option Payment × Option GoError) × W
  RefundPayment : String → RefundRequest → W → (Option Payment × Option GoError) × W
  GetPayment : String → W → (Option Payment × Option GoError) × W
  GetID : String
  GetName : String

/-! ## internal/config/config.go -/

structure HTTPConfig where
  TimeoutSeconds : Int

structure RetryConfig where
  Attempts : Int
  DelaySeconds : Int

/-- The circuit breaker section. `FailureRatio` is the number written in the
configuration; the field, a `float64`, holds `float64.ofRat` of it. -/
structure CircuitBreakerConfig where
  MaxRequests : Nat
  IntervalSeconds : Int
  TimeoutSeconds : Int
  MinRequests : Nat
  FailureRatio : Rat

structure Config where
  HTTP : HTTPConfig
  Retry : RetryConfig
  CircuitBreaker : CircuitBreakerConfig

/-- One `time.Second`, in nanoseconds. -/
def Second : Int := 1000000000

def Config.GetRetryDelay (c : Config) : Int := wrapInt64 (c.Retry.DelaySeconds * Second)

def Config.GetCircuitBreakerInterval (c : Config) : Int :=
  wrapInt64 (c.CircuitBreaker.IntervalSeconds * Second)

def Config.GetCircuitBreakerTimeout (c : Config) : Int :=
  wrapInt64 (c.CircuitBreaker.TimeoutSeconds * Second)

/-! ## The world -/

inductive Method where
  | ProcessPayment
  | RefundPayment
deriving DecidableEq, Repr

/-- One provider invocation: the position of the provider in the configured
list, the method, and whether the invocation returned a nil error. -/
structure Call where
  provider : Nat
  method : Method
  ok : Bool
deriving DecidableEq, Repr

/-- What the closures of the dispatcher act on: the world and the ghost log
of provider invocations. -/
structure Env (W : Type) where
  world : W
  calls : List Call

/-- The runtime services: `time.Now()`, the wait between two attempts of
`retry.Do` (it is given the configured delay), and the number of rounds for
which the model follows the unbounded loop of `retry.Do` with
`Attempts(0)`. -/
structure Runtime (W : Type) where
  now : W → Int
  sleep : Int → W → W
  spin : Nat

/-! ## github.com/sony/gobreaker -/

namespace gobreaker

inductive State where
  | StateClosed
  | StateHalfOpen
  | StateOpen
deriving DecidableEq, Repr

/-- The counters of one generation; the fields are `uint32`. -/
structure Counts where
  Requests : Nat
  TotalSuccesses : Nat
  TotalFailures : Nat
  ConsecutiveSuccesses : Nat
  ConsecutiveFailures : Nat
deriving DecidableEq, Repr

def Counts.onRequest (c : Counts) : Counts :=
  { c with Requests := uint32 (c.Requests + 1) }

def Counts.onSuccess (c : Counts) : Counts :=
  { c with
    TotalSuccesses := uint32 (c.TotalSuccesses + 1)
    ConsecutiveSuccesses := uint32 (c.ConsecutiveSuccesses + 1)
    ConsecutiveFailures := 0 }

def Counts.onFailure (c : Counts) : Counts :=
  { c with
    TotalFailures := uint32 (c.TotalFailures + 1)
    ConsecutiveFailures := uint32 (c.ConsecutiveFailures + 1)
    ConsecutiveSuccesses := 0 }

def Counts.clear : Counts := ⟨0, 0, 0, 0, 0⟩

/-- The fields of `gobreaker.Settings` that influence the state of the
breaker (`Name` and `OnStateChange` only feed the log). -/
structure Settings where
  MaxRequests : Nat
  Interval : Int
  Timeout : Int
  ReadyToTrip : Counts → Bool

/-- The breaker. `expiry = none` is the zero `time.Time`; times are
nanoseconds. Success of a request is the default `err == nil`. -/
structure CircuitBreaker where
  maxRequests : Nat
  interval : Int
  timeout : Int
  readyToTrip : Counts → Bool
  state : State
  generation : Nat
  counts : Counts
  expiry : Option Int

def CircuitBreaker.toNewGeneration (cb : CircuitBreaker) (now : Int) : CircuitBreaker :=
  let cb := { cb with generation := (cb.generation + 1) % 2 ^ 64, counts := Counts.clear }
  match cb.state with
  | .StateClosed =>
    if cb.interval = 0 then { cb with expiry := none }
    else { cb with expiry := some (now + cb.interval) }
  | .StateOpen => { cb with expiry := some (now + cb.timeout) }
  | .StateHalfOpen => { cb with expiry := none }

def CircuitBreaker.setState (cb : CircuitBreaker) (state : State) (now : Int) : CircuitBreaker :=
  if cb.state = state then cb
  else ({ cb with state := state }).toNewGeneration now

/-- The test `cb.expiry.Before(now)`; the zero time is before every reading of
the clock. -/
def expiryBefore (expiry : Option Int) (now : Int) : Bool :=
  match expiry with
  | none => true
  | some e => decide (e < now)

/-- The breaker after `currentState(now)`; the state and the generation the Go
function returns are the fields of the result. -/
def CircuitBreaker.currentState (cb : CircuitBreaker) (now : Int) : CircuitBreaker :=
  match cb.state with
  | .StateClosed =>
    if cb.expiry.isSome && expiryBefore cb.expiry now then cb.toNewGeneration now else cb
  | .StateOpen =>
    if expiryBefore cb.expiry now then cb.setState .StateHalfOpen now else cb
  | .StateHalfOpen => cb

/-- The breaker after `beforeRequest`, the generation and the error it
returns. -/
def CircuitBreaker.beforeRequest (cb : CircuitBreaker) (now : Int) :
    CircuitBreaker × Nat × Option GoError :=
  let cb := cb.currentState now
  if cb.state = .StateOpen then (cb, cb.generation, some .ErrOpenState)
  else if cb.state = .StateHalfOpen ∧ cb.counts.Requests ≥ cb.maxRequests then
    (cb, cb.generation, some .ErrTooManyRequests)
  else ({ cb with counts := cb.counts.onRequest }, cb.generation, none)

def CircuitBreaker.onSuccess (cb : CircuitBreaker) (state : State) (now : Int) : CircuitBreaker :=
  match state with
  | .StateClosed => { cb with counts := cb.counts.onSuccess }
  | .StateHalfOpen =>
    let cb := { cb with counts := cb.counts.onSuccess }
    if cb.counts.ConsecutiveSuccesses ≥ cb.maxRequests then cb.setState .StateClosed now else cb
  | .StateOpen => cb

def CircuitBreaker.onFailure (cb : CircuitBreaker) (state : State) (now : Int) : CircuitBreaker :=
  match state with
  | .StateClosed =>
    let cb := { cb with counts := cb.counts.onFailure }
    if cb.readyToTrip cb.counts then cb.setState .StateOpen now else cb
  | .StateHalfOpen => cb.setState .StateOpen now
  | .StateOpen => cb

def CircuitBreaker.afterRequest (cb : CircuitBreaker) (now : Int) (before : Nat) (success : Bool) :
    CircuitBreaker :=
  let cb := cb.currentState now
  if cb.generation ≠ before then cb
  else if success then cb.onSuccess cb.state now
  else cb.onFailure cb.state now

/-- The method `Execute`. The request acts on a state `σ` from which the clock
is read; `none` says that the request does not return. The first component
of the result is the `interface{}` value (`none` is nil). -/
def CircuitBreaker.Execute {σ α : Type} (cb : CircuitBreaker) (now : σ → Int)
    (req : σ → Option ((Option α × Option GoError) × σ)) (s : σ) :
    Option ((Option α × Option GoError) × CircuitBreaker × σ) :=
  match cb.beforeRequest (now s) with
  | (cb, _, some err) => some ((none, some err), cb, s)
  | (cb, generation, none) =>
    match req s with
    | none => none
    | some (result, s) =>
      some (result, cb.afterRequest (now s) generation result.2.isNone, s)

/-- One minute, the default `Timeout`. -/
def defaultTimeout : Int := 60 * Second

def NewCircuitBreaker (st : Settings) (now : Int) : CircuitBreaker :=
  let cb : CircuitBreaker :=
    { maxRequests := if st.MaxRequests = 0 then 1 else st.MaxRequests
      interval := if st.Interval ≤ 0 then 0 else st.Interval
      timeout := if st.Timeout ≤ 0 then defaultTimeout else st.Timeout
      readyToTrip := st.ReadyToTrip
      state := .StateClosed
      generation := 0
      counts := Counts.clear
      expiry := none }
  cb.toNewGeneration now

end gobreaker

/-! ## github.com/avast/retry-go/v4 -/

namespace retry

/-- The loop of `retry.Do` for a positive number of attempts: `remaining`
attempts are left and `log` holds the errors so far. Every error is retried
(no error of this program is marked unrecoverable); after the last attempt
there is no wait. -/
def loop {σ : Type} (retryableFunc : σ → Option GoError × σ) (wait : σ → σ) :
    Nat → List GoError → σ → Option GoError × σ
  | 0, log, s => (some (.retryError log), s)
  | remaining + 1, log, s =>
    match retryableFunc s with
    | (none, s) => (none, s)
    | (some err, s) =>
      if remaining = 0 then (some (.retryError (log ++ [err])), s)
      else loop retryableFunc wait remaining (log ++ [err]) (wait s)

/-- The loop of `retry.Do` with `Attempts(0)`: retry until the first success.
The model follows it for `spin` rounds. -/
def forever {σ : Type} (retryableFunc : σ → Option GoError × σ) (wait : σ → σ) :
    Nat → σ → Option (Option GoError × σ)
  | 0, _ => none
  | spin + 1, s =>
    match retryableFunc s with
    | (none, s) => some (none, s)
    | (some _, s) => forever retryableFunc wait spin (wait s)

/-- The function `retry.Do` with the options `Attempts` and `Delay`; `none`
says that it does not return. -/
def Do {σ : Type} (retryableFunc : σ → Option GoError × σ) (attempts : Nat) (wait : σ → σ)
    (spin : Nat) (s : σ) : Option (Option GoError × σ) :=
  if attempts = 0 then forever retryableFunc wait spin s
  else some (loop retryableFunc wait attempts [] s)

end retry

/-! ## internal/service/payment.go -/

structure PaymentService (W : Type) where
  providers : List (PaymentProvider W)
  circuitBreaker : gobreaker.CircuitBreaker
  transactions : String → Option Transaction
  config : Config

/-- The closure `ReadyToTrip` installed by `NewPaymentService`. The two
`uint32` counters convert to `float64` exactly and their quotient is the
binary64 number nearest to the fraction `TotalFailures / Requests`; with
`Requests = 0` the quotient is NaN (no failures, every comparison false) or
+Inf. The configured ratio is read as a `float64`. -/
def ReadyToTrip (cfg : Config) (counts : gobreaker.Counts) : Bool :=
  let ratioReached : Bool :=
    if counts.Requests = 0 then decide (counts.TotalFailures ≠ 0)
    else decide (float64.ofRat cfg.CircuitBreaker.FailureRatio
      ≤ float64.nearest counts.TotalFailures counts.Requests)
  decide (counts.Requests ≥ cfg.CircuitBreaker.MinRequests) && ratioReached

/-- The constructor; the clock is read once, by `gobreaker.NewCircuitBreaker`. -/
def NewPaymentService {W : Type} (providers : List (PaymentProvider W)) (cfg : Config)
    (now : Int) : Outcome (PaymentService W) :=
  if providers.length = 0 then .panicked "At least one payment provider is required"
  else
    let settings : gobreaker.Settings :=
      { MaxRequests := cfg.CircuitBreaker.MaxRequests
        Interval := cfg.GetCircuitBreakerInterval
        Timeout := cfg.GetCircuitBreakerTimeout
        ReadyToTrip := ReadyToTrip cfg }
    .returned
      { providers := providers
        circuitBreaker := gobreaker.NewCircuitBreaker settings now
        transactions := fun _ => none
        config := cfg }

/-- The wait of `retry.Do` between two attempts, on the state of a retried
closure (the captured variable `payment` and the environment). -/
def retryWait {W α : Type} (rt : Runtime W) (cfg : Config) :
    Option α × Env W → Option α × Env W
  | (payment, env) => (payment, { env with world := rt.sleep cfg.GetRetryDelay env.world })

/-- The closure retried by `retry.Do`, the same in `ProcessPayment` and in
`RefundPayment` up to the provider method `call`: one invocation of the
provider at position `i`, which assigns the captured variable `payment` and
returns the error. -/
def retried {W α : Type} (call : W → (Option α × Option GoError) × W) (i : Nat)
    (method : Method) : Option α × Env W → Option GoError × (Option α × Env W)
  | (_, env) =>
    match call env.world with
    | ((payment, err), world) => (err, (payment, ⟨world, env.calls ++ [⟨i, method, err.isNone⟩]⟩))

/-- The closure handed to the breaker, the same in `ProcessPayment` and in
`RefundPayment` up to the provider method: the provider call under
`retry.Do`. It returns a nil interface with the wrapped error, or the payment
pointer with a nil error. -/
def guarded {W : Type} (rt : Runtime W) (cfg : Config) (provider : PaymentProvider W)
    (call : W → (Option Payment × Option GoError) × W) (i : Nat) (method : Method) (env : Env W) :
    Option ((Option (Option Payment) × Option GoError) × Env W) :=
  match retry.Do (retried call i method) (uint cfg.Retry.Attempts) (retryWait rt cfg) rt.spin
      (none, env) with
  | none => none
  | some (some err, (_, env)) =>
    some ((none, some (.wrapError
      ("[provider: " ++ provider.GetName ++ "] failed after retries: ") err)), env)
  | some (none, (payment, env)) => some ((some payment, none), env)

/-- The error `ProcessPayment` returns after the loop. With a nil `lastErr`
(an empty provider list) `fmt.Errorf` wraps nothing. -/
def allProvidersFailed (lastErr : Option GoError) : GoError :=
  match lastErr with
  | some err => .wrapError "all providers failed, last error: " err
  | none => .errorString "all providers failed, last error: %!w(<nil>)"

/-- The message of the runtime panic on a nil `*Payment`. -/
def nilDereference : String :=
  "runtime error: invalid memory address or nil pointer dereference"

/-- The `for` loop of `ProcessPayment` over the providers still to try; `i` is
the position of the first of them in the configured list. -/
def ProcessPayment.loop {W : Type} (rt : Runtime W) (request : PaymentRequest) :
    List (PaymentProvider W) → Nat → Option GoError → PaymentService W → Env W →
    Outcome (Option Payment × Option GoError) × PaymentService W × Env W
  | [], _, lastErr, s, env => (.returned (none, some (allProvidersFailed lastErr)), s, env)
  | provider :: rest, i, _, s, env =>
    match s.circuitBreaker.Execute (fun e => rt.now e.world)
        (guarded rt s.config provider (provider.ProcessPayment request) i .ProcessPayment) env with
    | none => (.diverged, s, env)
    | some ((result, err), cb, env) =>
      let s := { s with circuitBreaker := cb }
      let payment : Option Payment := result.join
      let ok : Bool := result.isSome
      match err with
      | some err =>
        let s :=
          match ok, payment with
          | true, some payment =>
            let payment := { payment with Status := StatusFailed }
            let transaction : Transaction := ⟨payment, provider.GetID, provider.GetName⟩
            { s with transactions := Function.update s.transactions payment.ID (some transaction) }
          | _, _ => s
        ProcessPayment.loop rt request rest (i + 1) (some err) s env
      | none =>
        match payment with
        | none => (.panicked nilDereference, s, env)
        | some payment =>
          let transaction : Transaction := ⟨payment, provider.GetID, provider.GetName⟩
          (.returned (some payment, none),
            { s with transactions := Function.update s.transactions payment.ID (some transaction) },
            env)

def ProcessPayment {W : Type} (rt : Runtime W) (s : PaymentService W) (request : PaymentRequest)
    (env : Env W) : Outcome (Option Payment × Option GoError) × PaymentService W × Env W :=
  ProcessPayment.loop rt request s.providers 0 none s env

/-- The lookup loop of `RefundPayment`: the first provider whose `GetID()` is
the wanted one, with its position. -/
def RefundPayment.lookup {W : Type} :
    List (PaymentProvider W) → String → Nat → Option (Nat × PaymentProvider W)
  | [], _, _ => none
  | p :: rest, providerID, i =>
    if p.GetID = providerID then some (i, p) else RefundPayment.lookup rest providerID (i + 1)

/-- The method `RefundPayment`, with payments by value: the assignment
`payment.Status = ...` gives the status to the payment that is returned and
stored. What that write does to an object held by another ledger entry is
seen in `reference.RefundPayment`. -/
def RefundPayment {W : Type} (rt : Runtime W) (s : PaymentService W) (paymentID : String)
    (request : RefundRequest) (env : Env W) :
    Outcome (Option Payment × Option GoError) × PaymentService W × Env W :=
  match s.transactions paymentID with
  | none => (.returned (none, some (.errorString ("payment not found: " ++ paymentID))), s, env)
  | some transaction =>
    if transaction.Payment.Status ≠ StatusAuthorized then
      (.returned (none, some (.errorString
        ("payment cannot be refunded: status is " ++ transaction.Payment.Status))), s, env)
    else
      match RefundPayment.lookup s.providers transaction.ProviderID 0 with
      | none =>
        (.returned (none, some (.errorString
          ("provider not found: " ++ transaction.ProviderID))), s, env)
      | some (i, provider) =>
        match s.circuitBreaker.Execute (fun e => rt.now e.world)
            (guarded rt s.config provider (provider.RefundPayment paymentID request) i
              .RefundPayment) env with
        | none => (.diverged, s, env)
        | some ((result, err), cb, env) =>
          let s := { s with circuitBreaker := cb }
          let payment : Option Payment := result.join
          let ok : Bool := result.isSome
          match err with
          | some err =>
            let s :=
              match ok, payment with
              | true, some payment =>
                let payment := { payment with Status := StatusFailed }
                let transaction := { transaction with Payment := payment }
                { s with transactions := Function.update s.transactions paymentID (some transaction) }
              | _, _ => s
            (.returned (none, some err), s, env)
          | none =>
            match payment with
            | none => (.panicked nilDereference, s, env)
            | some payment =>
              let payment := { payment with Status := StatusRefunded }
              let transaction := { transaction with Payment := payment }
              (.returned (some payment, none),
                { s with transactions := Function.update s.transactions paymentID (some transaction) },
                env)

def GetPayment {W : Type} (s : PaymentService W) (paymentID : String) :
    Option Payment × Option GoError :=
  match s.transactions paymentID with
  | none => (none, some (.errorString ("payment not found: " ++ paymentID)))
  | some transaction => (some transaction.Payment, none)

/-! ## internal/service/payment.go: `RefundPayment` on payment objects

`RefundPayment` writes the status through the pointer the provider returned
and stores that pointer in the ledger entry. With payments by value the write
cannot reach another ledger entry. Here the payments are objects of a heap,
the ledger entries hold pointers, and a provider may return a pointer to an
object it returned before. -/

namespace reference

/-- A pointer to a payment object. -/
abbrev Pointer : Type := Nat

/-- The payment objects: the content of the object behind every pointer. -/
abbrev Heap : Type := Pointer → Payment

/-- The world of the providers together with the payment objects. -/
abbrev Memory (W : Type) : Type := W × Heap

/-- The assignment `payment.Status = status` through a pointer. -/
def setStatus (heap : Heap) (payment : Pointer) (status : PaymentStatus) : Heap :=
  Function.update heap payment { heap payment with Status := status }

/-- The struct `domain.Transaction`, whose field `Payment` is a pointer. -/
structure Transaction where
  Payment : Pointer
  ProviderID : String
  ProviderName : String
deriving DecidableEq, Repr

/-- The interface `domain.PaymentProvider` with pointers: a method acts on the
world and on the payment objects (it may create and write objects) and
returns a pointer, `none` for nil. -/
structure PaymentProvider (W : Type) where
  ProcessPayment : PaymentRequest → Memory W → (Option Pointer × Option GoError) × Memory W
  RefundPayment : String → RefundRequest → Memory W →
    (Option Pointer × Option GoError) × Memory W
  GetPayment : String → Memory W → (Option Pointer × Option GoError) × Memory W
  GetID : String
  GetName : String

structure PaymentService (W : Type) where
  providers : List (PaymentProvider W)
  circuitBreaker : gobreaker.CircuitBreaker
  transactions : String → Option Transaction
  config : Config

/-- The closure handed to the breaker: the provider call under `retry.Do`. -/
def guarded {W : Type} (rt : Runtime (Memory W)) (cfg : Config) (provider : PaymentProvider W)
    (call : Memory W → (Option Pointer × Option GoError) × Memory W) (i : Nat) (method : Method)
    (env : Env (Memory W)) :
    Option ((Option (Option Pointer) × Option GoError) × Env (Memory W)) :=
  match retry.Do (retried call i method) (uint cfg.Retry.Attempts) (retryWait rt cfg) rt.spin
      (none, env) with
  | none => none
  | some (some err, (_, env)) =>
    some ((none, some (.wrapError
      ("[provider: " ++ provider.GetName ++ "] failed after retries: ") err)), env)
  | some (none, (payment, env)) => some ((some payment, none), env)

/-- The lookup loop of `RefundPayment`. -/
def RefundPayment.lookup {W : Type} :
    List (PaymentProvider W) → String → Nat → Option (Nat × PaymentProvider W)
  | [], _, _ => none
  | p :: rest, providerID, i =>
    if p.GetID = providerID then some (i, p) else RefundPayment.lookup rest providerID (i + 1)

/-- The method `RefundPayment` on payment objects: the status of the ledger
entry is read through its pointer, the assignment `payment.Status = ...` is a
write to the object the provider returned, and `transaction.Payment = payment`
stores the pointer. -/
def RefundPayment {W : Type} (rt : Runtime (Memory W)) (s : PaymentService W)
    (paymentID : String) (request : RefundRequest) (env : Env (Memory W)) :
    Outcome (Option Pointer × Option GoError) × PaymentService W × Env (Memory W) :=
  match s.transactions paymentID with
  | none => (.returned (none, some (.errorString ("payment not found: " ++ paymentID))), s, env)
  | some transaction =>
    if (env.world.2 transaction.Payment).Status ≠ StatusAuthorized then
      (.returned (none, some (.errorString
        ("payment cannot be refunded: status is "
          ++ (env.world.2 transaction.Payment).Status))), s, env)
    else
      match RefundPayment.lookup s.providers transaction.ProviderID 0 with
      | none =>
        (.returned (none, some (.errorString
          ("provider not found: " ++ transaction.ProviderID))), s, env)
      | some (i, provider) =>
        match s.circuitBreaker.Execute (fun e => rt.now e.world)
            (guarded rt s.config provider (provider.RefundPayment paymentID request) i
              .RefundPayment) env with
        | none => (.diverged, s, env)
        | some ((result, err), cb, env) =>
          let s := { s with circuitBreaker := cb }
          let payment : Option Pointer := result.join
          let ok : Bool := result.isSome
          match err with
          | some err =>
            match ok, payment with
            | true, some payment =>
              let transaction := { transaction with Payment := payment }
              (.returned (none, some err),
                { s with transactions := Function.update s.transactions paymentID (some transaction) },
                { env with world := (env.world.1, setStatus env.world.2 payment StatusFailed) })
            | _, _ => (.returned (none, some err), s, env)
          | none =>
            match payment with
            | none => (.panicked nilDereference, s, env)
            | some payment =>
              let transaction := { transaction with Payment := payment }
              (.returned (some payment, none),
                { s with transactions := Function.update s.transactions paymentID (some transaction) },
                { env with world := (env.world.1, setStatus env.world.2 payment StatusRefunded) })

end reference

/-! ## internal/providers/mock.go -/

namespace providers

/-- The fields of `providers.Provider` that identify it. -/
structure Provider where
  ID : String
  Name : String

structure MockPaymentResponse where
  ID : String
  CreatedAt : Int
  Status : String
  OriginalAmount : Rat
  CurrentAmount : Rat
  Currency : String
  Description : String
  PaymentMethod : String
  CardID : String
deriving DecidableEq, Repr

/-- The response transformer. The decoder `json.Unmarshal` into a
`MockPaymentResponse` is a parameter; a field that is absent from the body is
left at its zero value (the empty string for `status`). -/
def StandardResponseTransformer (unmarshal : String → Except GoError MockPaymentResponse)
    (_provider : Provider) (data : String) : Option Payment × Option GoError :=
  match unmarshal data with
  | .error err => (none, some (.wrapError "error unmarshaling response: " err))
  | .ok resp =>
    let status : PaymentStatus :=
      if resp.Status = "authorized" ∨ resp.Status = "paid" then StatusAuthorized
      else if resp.Status = "refunded" ∨ resp.Status = "voided" then StatusRefunded
      else StatusFailed
    (some
      { ID := resp.ID
        CreatedAt := resp.CreatedAt
        Status := status
        OriginalAmount := resp.OriginalAmount
        CurrentAmount := resp.CurrentAmount
        Currency := resp.Currency
        Description := resp.Description
        PaymentMethod := resp.PaymentMethod
        CardID := resp.CardID }, none)

end providers

/-! ## api/handlers/payment.go -/

namespace handlers

/-- The interface `handlers.PaymentService`: the three operations, acting on
a state `σ` of the service behind it. -/
structure PaymentService (σ : Type) where
  ProcessPayment : PaymentRequest → σ → (Option Payment × Option GoError) × σ
  RefundPayment : String → RefundRequest → σ → (Option Payment × Option GoError) × σ
  GetPayment : String → σ → (Option Payment × Option GoError) × σ

structure PaymentHandler (σ : Type) where
  service : PaymentService σ

def StatusOK : Nat := 200

def StatusBadRequest : Nat := 400

def StatusInternalServerError : Nat := 500

/-- The value handed to `c.JSON`: the object with the one key "error", or the
payment pointer. -/
inductive Body where
  | error (msg : String)
  | payment (payment : Option Payment)
deriving DecidableEq, Repr

/-- The response written by `c.JSON(code, body)`. -/
structure Response where
  code : Nat
  body : Body
deriving DecidableEq, Repr

/-- The handler of POST /payments. `bind` is the result of
`c.ShouldBindJSON(&request)`: the bound request, or the binding error. -/
def PaymentHandler.ProcessPayment {σ : Type} (h : PaymentHandler σ)
    (bind : Except GoError PaymentRequest) (st : σ) : Response × σ :=
  match bind with
  | .error err => (⟨StatusBadRequest, .error ("invalid request: " ++ err.Error)⟩, st)
  | .ok request =>
    match h.service.ProcessPayment request st with
    | ((_, some err), st) =>
      (⟨StatusInternalServerError, .error ("failed to process payment: " ++ err.Error)⟩, st)
    | ((payment, none), st) => (⟨StatusOK, .payment payment⟩, st)

/-- The handler of POST /refund/:id. `paymentID` is `c.Param("id")`. -/
def PaymentHandler.RefundPayment {σ : Type} (h : PaymentHandler σ) (paymentID : String)
    (bind : Except GoError RefundRequest) (st : σ) : Response × σ :=
  if paymentID = "" then (⟨StatusBadRequest, .error "payment ID is required"⟩, st)
  else
    match bind with
    | .error err => (⟨StatusBadRequest, .error ("invalid request: " ++ err.Error)⟩, st)
    | .ok request =>
      match h.service.RefundPayment paymentID request st with
      | ((_, some err), st) =>
        (⟨StatusInternalServerError, .error ("failed to refund payment: " ++ err.Error)⟩, st)
      | ((payment, none), st) => (⟨StatusOK, .payment payment⟩, st)

/-- The handler of GET /payments/:id. -/
def PaymentHandler.GetPayment {σ : Type} (h : PaymentHandler σ) (paymentID : String) (st : σ) :
    Response × σ :=
  if paymentID = "" then (⟨StatusBadRequest, .error "payment ID is required"⟩, st)
  else
    match h.service.GetPayment paymentID st with
    | ((_, some err), st) =>
      (⟨StatusInternalServerError, .error ("failed to get payment: " ++ err.Error)⟩, st)
    | ((payment, none), st) => (⟨StatusOK, .payment payment⟩, st)

end handlers

/-! ## Vocabulary of the statements -/

/-- A provider method that returns an error on every invocation. -/
def AlwaysFails {W : Type} (call : W → (Option Payment × Option GoError) × W) : Prop :=
  ∀ w, (call w).1.2 ≠ none

/-- A provider method that returns a payment and a nil error on every
invocation. -/
def AlwaysSucceeds {W : Type} (call : W → (Option Payment × Option GoError) × W) : Prop :=
  ∀ w, ∃ payment, (call w).1 = (some payment, none)

/-- The world in which attempt number `k` (counted from 0) of a retried
provider call is made when the attempts before it failed: after each failed
invocation `retry.Do` waits. -/
def attemptWorld {W : Type} (rt : Runtime W) (cfg : Config)
    (call : W → (Option Payment × Option GoError) × W) : Nat → W → W
  | 0, w => w
  | k + 1, w => attemptWorld rt cfg call k (rt.sleep cfg.GetRetryDelay (call w).2)

/-- A provider method that, retried from the world `w`, fails `j` times and
then returns `payment` with a nil error. -/
def SucceedsAfter {W : Type} (rt : Runtime W) (cfg : Config)
    (call : W → (Option Payment × Option GoError) × W) (j : Nat) (w : W)
    (payment : Option Payment) : Prop :=
  (∀ k, k < j → (call (attemptWorld rt cfg call k w)).1.2 ≠ none) ∧
  (call (attemptWorld rt cfg call j w)).1 = (payment, none)

/-- The invocations a `ProcessPayment` loop may log from position `i` on: calls
of `ProcessPayment` on the `n` providers still to try, in list order, none
after a successful one. -/
def LoopCalls (i n : Nat) (cs : List Call) : Prop :=
  (∀ c ∈ cs, c.method = .ProcessPayment ∧ i ≤ c.provider ∧ c.provider < i + n) ∧
  cs.Pairwise (fun a b => a.provider ≤ b.provider) ∧
  ∀ c ∈ cs.dropLast, c.ok = false

/-- What a provider is asked: the method and its arguments. -/
inductive Asked where
  | ProcessPayment (request : PaymentRequest)
  | RefundPayment (paymentID : String) (request : RefundRequest)
  | GetPayment (paymentID : String)

/-- One invocation as the provider receives it: the position of the provider
in the configured list, what it is asked, and what it answers. -/
structure Invocation where
  provider : Nat
  asked : Asked
  answer : Option Payment × Option GoError

/-- A world with a journal, into which the providers write the invocations
they receive. -/
abbrev Journaled (W : Type) : Type := W × List Invocation

/-- The provider `p`, at position `i` of the list, made to write every
invocation it receives into the journal; it answers as `p` does. -/
def PaymentProvider.journaled {W : Type} (p : PaymentProvider W) (i : Nat) :
    PaymentProvider (Journaled W) :=
  { ProcessPayment := fun request w =>
      ((p.ProcessPayment request w.1).1, (p.ProcessPayment request w.1).2,
        w.2 ++ [⟨i, .ProcessPayment request, (p.ProcessPayment request w.1).1⟩])
    RefundPayment := fun paymentID request w =>
      ((p.RefundPayment paymentID request w.1).1, (p.RefundPayment paymentID request w.1).2,
        w.2 ++ [⟨i, .RefundPayment paymentID request, (p.RefundPayment paymentID request w.1).1⟩])
    GetPayment := fun paymentID w =>
      ((p.GetPayment paymentID w.1).1, (p.GetPayment paymentID w.1).2,
        w.2 ++ [⟨i, .GetPayment paymentID, (p.GetPayment paymentID w.1).1⟩])
    GetID := p.GetID
    GetName := p.GetName }

/-- The providers of a list, journaled with their positions, the first of
them at position `i`. -/
def journaledFrom {W : Type} : Nat → List (PaymentProvider W) →
    List (PaymentProvider (Journaled W))
  | _, [] => []
  | i, p :: rest => p.journaled i :: journaledFrom (i + 1) rest

/-- The runtime on a world with a journal: the clock and the wait do not look
at the journal. -/
def Runtime.journaled {W : Type} (rt : Runtime W) : Runtime (Journaled W) :=
  { now := fun w => rt.now w.1
    sleep := fun d w => (rt.sleep d w.1, w.2)
    spin := rt.spin }

/-- The service with its providers journaled. -/
def PaymentService.journaled {W : Type} (s : PaymentService W) : PaymentService (Journaled W) :=
  { providers := journaledFrom 0 s.providers
    circuitBreaker := s.circuitBreaker
    transactions := s.transactions
    config := s.config }

/-- The environment without the journal. -/
def Env.plain {W : Type} (env : Env (Journaled W)) : Env W :=
  ⟨env.world.1, env.calls⟩

/-- A provider method on a world with a journal that answers as `base` does
and writes the invocation into the journal, as one of the provider at
position `i` asked `asked`. -/
def Journals {W : Type} (base : W → (Option Payment × Option GoError) × W) (i : Nat)
    (asked : Asked)
    (call : Journaled W → (Option Payment × Option GoError) × Journaled W) : Prop :=
  ∀ w, call w = ((base w.1).1, (base w.1).2, w.2 ++ [⟨i, asked, (base w.1).1⟩])

/-- The error `e` is the one obtained from the provider `last`, at position
`j` of the list, in a call whose journal is `new`: an error of the breaker,
which rejected the call, and then `last` was not invoked; or the error of
the guarded call, which wraps the `retry.Error` listing the errors `last`
returned in its `attempts` invocations, in their order. -/
def ObtainedFrom {W : Type} (e : GoError) (last : PaymentProvider W) (j attempts : Nat)
    (new : List Invocation) : Prop :=
  ((e = .ErrOpenState ∨ e = .ErrTooManyRequests) ∧ ∀ r ∈ new, r.provider ≠ j) ∨
  (∃ errs,
    e = .wrapError ("[provider: " ++ last.GetName ++ "] failed after retries: ")
      (.retryError errs) ∧
    errs.length = attempts ∧
    (new.filter (fun r => decide (r.provider = j))).map (fun r => r.answer.2) = errs.map some)

/-- One call of the dispatcher. -/
inductive Operation where
  | ProcessPayment (request : PaymentRequest)
  | RefundPayment (paymentID : String) (request : RefundRequest)
  | GetPayment (paymentID : String)

/-- The call `op` on the service `s`. -/
def Operation.apply {W : Type} (rt : Runtime W) (op : Operation) (s : PaymentService W)
    (env : Env W) : Outcome (Option Payment × Option GoError) × PaymentService W × Env W :=
  match op with
  | .ProcessPayment request => PaymentGateway.ProcessPayment rt s request env
  | .RefundPayment paymentID request => PaymentGateway.RefundPayment rt s paymentID request env
  | .GetPayment paymentID => (.returned (PaymentGateway.GetPayment s paymentID), s, env)

/-- The service and the environment after a sequence of calls. -/
def runOperations {W : Type} (rt : Runtime W) :
    List Operation → PaymentService W → Env W → PaymentService W × Env W
  | [], s, env => (s, env)
  | op :: ops, s, env =>
    runOperations rt ops (op.apply rt s env).2.1 (op.apply rt s env).2.2

/-- The status of the ledger entry under an id, if there is one. -/
def statusOf {W : Type} (s : PaymentService W) (paymentID : String) : Option PaymentStatus :=
  (s.transactions paymentID).map (fun tx => tx.Payment.Status)

/-- The id of the payment a call returned, if it returned one. -/
def returnedID : Outcome (Option Payment × Option GoError) → Option String
  | .returned (some payment, _) => some payment.ID
  | _ => none

/-- No `ProcessPayment` of the sequence returns a payment that carries the
id. -/
def NoPaymentWithID {W : Type} (rt : Runtime W) (paymentID : String) :
    List Operation → PaymentService W → Env W → Prop
  | [], _, _ => True
  | op :: ops, s, env =>
    (match op with
      | .ProcessPayment request => returnedID (ProcessPayment rt s request env).1 ≠ some paymentID
      | _ => True) ∧
    NoPaymentWithID rt paymentID ops (op.apply rt s env).2.1 (op.apply rt s env).2.2

/-- Every payment carrying the id that a provider of the list returns with a
nil error comes from a provider with the given `GetID()` and `GetName()`. -/
def IssuedOnlyBy {W : Type} (providers : List (PaymentProvider W))
    (paymentID providerID providerName : String) : Prop :=
  ∀ prov ∈ providers, ∀ (request : PaymentRequest) (w : W) (pay : Payment),
    (prov.ProcessPayment request w).1 = (some pay, none) → pay.ID = paymentID →
    prov.GetID = providerID ∧ prov.GetName = providerName

/-! ## Sample inputs -/

/-- The configuration of `getTestConfig` in
`internal/service/payment_test.go`, which is also the default configuration of
`config.Load`; the ratio 0.6 is written as the fraction 3/5. -/
def getTestConfig : Config :=
  { HTTP := ⟨10⟩
    Retry := ⟨3, 1⟩
    CircuitBreaker := ⟨3, 10, 30, 3, mkRat 3 5⟩ }

/-- A world that is a clock in nanoseconds: a wait advances it by the delay. -/
def clockRuntime : Runtime Nat :=
  { now := fun w => w
    sleep := fun d w => w + d.toNat
    spin := 0 }

def samplePayment (id : String) : Payment :=
  { ID := id
    CreatedAt := 0
    Status := StatusAuthorized
    OriginalAmount := 100
    CurrentAmount := 100
    Currency := "USD"
    Description := "order"
    PaymentMethod := "card"
    CardID := "card-1" }

def sampleRequest : PaymentRequest :=
  { Amount := 100
    Currency := "USD"
    Description := "order"
    Card := ⟨"4111111111111111", "A. Holder", "123", "12/30", 1⟩ }

/-- The error of the HTTP adapter on an upstream status 503. -/
def upstreamError (name : String) : GoError :=
  .errorString ("[provider: " ++ name ++ "] unexpected status code: 503")

/-- An upstream that answers 503 to every request; a request takes one
nanosecond. -/
def downProvider (id name : String) : PaymentProvider Nat :=
  { ProcessPayment := fun _ w => ((none, some (upstreamError name)), w + 1)
    RefundPayment := fun _ _ w => ((none, some (upstreamError name)), w + 1)
    GetPayment := fun _ w => ((none, some (upstreamError name)), w + 1)
    GetID := id
    GetName := name }

/-- An upstream that authorizes every charge with the payment `payment` and
refunds it in full on request. -/
def upProvider (id name : String) (payment : Payment) : PaymentProvider Nat :=
  { ProcessPayment := fun _ w => ((some payment, none), w + 1)
    RefundPayment := fun _ _ w =>
      ((some { payment with Status := "refunded", CurrentAmount := 0 }, none), w + 1)
    GetPayment := fun _ w => ((some payment, none), w + 1)
    GetID := id
    GetName := name }

/-- The service `NewPaymentService` builds at time 0 with the test
configuration. -/
def sampleService (providers : List (PaymentProvider Nat)) : PaymentService Nat :=
  { providers := providers
    circuitBreaker :=
      gobreaker.NewCircuitBreaker
        { MaxRequests := 3
          Interval := 10 * Second
          Timeout := 30 * Second
          ReadyToTrip := ReadyToTrip getTestConfig } 0
    transactions := fun _ => none
    config := getTestConfig }

/-- Three upstreams that are down, followed by one that is up. -/
def threeDownOneUp : List (PaymentProvider Nat) :=
  [downProvider "a" "A", downProvider "b" "B", downProvider "c" "C",
    upProvider "d" "D" (samplePayment "p4")]

/-- The test setup `service.transactions[payment.ID] = &domain.Transaction{...}`
of `payment_test.go`. -/
def withEntry {W : Type} (s : PaymentService W) (tx : Transaction) : PaymentService W :=
  { s with transactions := Function.update s.transactions tx.Payment.ID (some tx) }

/-- The two providers of the refund tests. -/
def stripeAndBraintree : List (PaymentProvider Nat) :=
  [upProvider "stripe" "Stripe" (samplePayment "p1"), downProvider "braintree" "Braintree"]

/-- A service whose ledger holds the AUTHORIZED payment "p1" of the first
provider. -/
def authorizedService : PaymentService Nat :=
  withEntry (sampleService stripeAndBraintree) ⟨samplePayment "p1", "stripe", "Stripe"⟩

/-- A service whose ledger holds the AUTHORIZED payment "p1" of the second
provider, which is down. -/
def braintreeService : PaymentService Nat :=
  withEntry (sampleService stripeAndBraintree) ⟨samplePayment "p1", "braintree", "Braintree"⟩

/-- A service whose ledger holds the FAILED payment "p1". -/
def failedService : PaymentService Nat :=
  withEntry (sampleService stripeAndBraintree)
    ⟨{ samplePayment "p1" with Status := StatusFailed }, "stripe", "Stripe"⟩

/-- A service with one provider, whose upstream issues the payment id "p1" for
every charge. -/
def singleProviderService : PaymentService Nat :=
  sampleService [upProvider "a" "A" (samplePayment "p1")]

/-- A service whose ledger holds the REFUNDED payment "p1"; its provider
issues the payment id "p2". -/
def refundedService : PaymentService Nat :=
  withEntry (sampleService [upProvider "stripe" "Stripe" (samplePayment "p2")])
    ⟨{ samplePayment "p1" with Status := StatusRefunded, CurrentAmount := 0 }, "stripe", "Stripe"⟩

/-- An upstream that answers 503 until the time `recovery` and is up from
then on. -/
def flakyProvider (id name : String) (payment : Payment) (recovery : Nat) :
    PaymentProvider Nat :=
  { ProcessPayment := fun _ w =>
      if w < recovery then ((none, some (upstreamError name)), w + 1)
      else ((some payment, none), w + 1)
    RefundPayment := fun _ _ w =>
      if w < recovery then ((none, some (upstreamError name)), w + 1)
      else ((some { payment with Status := "refunded", CurrentAmount := 0 }, none), w + 1)
    GetPayment := fun _ w => ((some payment, none), w + 1)
    GetID := id
    GetName := name }

/-- A service whose ledger holds the AUTHORIZED payment "p1" of its one
provider. -/
def ownedBy (provider : PaymentProvider Nat) : PaymentService Nat :=
  withEntry (sampleService [provider]) ⟨samplePayment "p1", provider.GetID, provider.GetName⟩

/-- A request through the breaker that takes one second of a clock in
nanoseconds and fails with the error of an upstream that is down. -/
def failingRequest (t : Nat) : Option ((Option Unit × Option GoError) × Nat) :=
  some ((none, some (upstreamError "A")), t + 1000000000)

/-- Two upstreams that are down. -/
def twoDown : List (PaymentProvider Nat) :=
  [downProvider "a" "A", downProvider "b" "B"]

/-- The decoded body of a charge that the upstream answers with the given
status. -/
def sampleResponse (status : String) : providers.MockPaymentResponse :=
  { ID := "p1"
    CreatedAt := 0
    Status := status
    OriginalAmount := 100
    CurrentAmount := 100
    Currency := "USD"
    Description := "order"
    PaymentMethod := "card"
    CardID := "card-1" }

/-- A decoder that reads the status from the body and fills in the other
fields. -/
def sampleUnmarshal (data : String) : Except GoError providers.MockPaymentResponse :=
  .ok (sampleResponse data)

/-- A service whose ledger holds two payments of a provider "paypal" that is
not in the provider list: "p1", AUTHORIZED, and "p2", FAILED. -/
def orphanService : PaymentService Nat :=
  withEntry
    (withEntry (sampleService stripeAndBraintree) ⟨samplePayment "p1", "paypal", "PayPal"⟩)
    ⟨{ samplePayment "p2" with Status := StatusFailed }, "paypal", "PayPal"⟩

/-- A service behind the handlers that gives the same answer to every call and
counts the calls in its state. -/
def countingService (answer : Option Payment × Option GoError) : handlers.PaymentService Nat :=
  { ProcessPayment := fun _ n => (answer, n + 1)
    RefundPayment := fun _ _ n => (answer, n + 1)
    GetPayment := fun _ n => (answer, n + 1) }

/-- The binding error of a body whose amount is a string. -/
def bindError : GoError :=
  .errorString
    "json: cannot unmarshal string into Go struct field PaymentRequest.amount of type float64"

/-- A provider whose every answer is a payment object together with an
error. -/
def partialProvider (id name : String) (payment : Payment) : PaymentProvider Nat :=
  { ProcessPayment := fun _ w => ((some payment, some (upstreamError name)), w + 1)
    RefundPayment := fun _ _ w => ((some payment, some (upstreamError name)), w + 1)
    GetPayment := fun _ w => ((some payment, some (upstreamError name)), w + 1)
    GetID := id
    GetName := name }

/-- An upstream that is up until the time `outage` and answers 503 from then
on. -/
def fadingProvider (id name : String) (payment : Payment) (outage : Nat) :
    PaymentProvider Nat :=
  { ProcessPayment := fun _ w =>
      if w < outage then ((some payment, none), w + 1)
      else ((none, some (upstreamError name)), w + 1)
    RefundPayment := fun _ _ w =>
      if w < outage then
        ((some { payment with Status := "refunded", CurrentAmount := 0 }, none), w + 1)
      else ((none, some (upstreamError name)), w + 1)
    GetPayment := fun _ w => ((some payment, none), w + 1)
    GetID := id
    GetName := name }

/-- A provider built on the standard response transformer, whose upstream
answers every charge with a body of the given status. -/
def transformingProvider (id name status : String) : PaymentProvider Nat :=
  { ProcessPayment := fun _ w =>
      (providers.StandardResponseTransformer sampleUnmarshal ⟨id, name⟩ status, w + 1)
    RefundPayment := fun _ _ w =>
      (providers.StandardResponseTransformer sampleUnmarshal ⟨id, name⟩ status, w + 1)
    GetPayment := fun _ w =>
      (providers.StandardResponseTransformer sampleUnmarshal ⟨id, name⟩ status, w + 1)
    GetID := id
    GetName := name }

/-- The payment objects of the tests by reference: object 0 is the payment
"p0" and every other object `n` the payment "p1", all AUTHORIZED. -/
def sampleHeap : reference.Heap :=
  fun pointer => if pointer = 0 then samplePayment "p0" else samplePayment "p1"

/-- A provider with pointers that answers every refund with a new object, at
the pointer 2, holding the payment with the status "refunded" and the current
amount 0. -/
def freshProvider (id name : String) (payment : Payment) : reference.PaymentProvider Nat :=
  { ProcessPayment := fun _ m =>
      ((some 2, none), (m.1 + 1, Function.update m.2 2 payment))
    RefundPayment := fun _ _ m =>
      ((some 2, none),
        (m.1 + 1, Function.update m.2 2 { payment with Status := "refunded", CurrentAmount := 0 }))
    GetPayment := fun _ m => ((some 2, none), (m.1 + 1, Function.update m.2 2 payment))
    GetID := id
    GetName := name }

/-- A provider with pointers that answers every call with the one object it
keeps, at the pointer 1, as a mock with a fixed return value does. -/
def sharingProvider (id name : String) : reference.PaymentProvider Nat :=
  { ProcessPayment := fun _ m => ((some 1, none), (m.1 + 1, m.2))
    RefundPayment := fun _ _ m => ((some 1, none), (m.1 + 1, m.2))
    GetPayment := fun _ m => ((some 1, none), (m.1 + 1, m.2))
    GetID := id
    GetName := name }

/-- A clock on the world of the providers with pointers. -/
def memoryRuntime : Runtime (reference.Memory Nat) :=
  { now := fun m => m.1
    sleep := fun d m => (m.1 + d.toNat, m.2)
    spin := 0 }

/-- A service by reference with one provider, whose ledger holds the payments
"p0", at the pointer 0, and "p1", at the pointer 1, both of that provider. -/
def twoEntries (provider : reference.PaymentProvider Nat) : reference.PaymentService Nat :=
  { providers := [provider]
    circuitBreaker := (sampleService []).circuitBreaker
    transactions := fun id =>
      if id = "p0" then some ⟨0, provider.GetID, provider.GetName⟩
      else if id = "p1" then some ⟨1, provider.GetID, provider.GetName⟩
      else none
    config := getTestConfig }

open gobreaker

namespace float64

theorem exponentAux_spec : ∀ (fuel n : Nat), n ≤ fuel → n ≠ 0 →
    2 ^ exponentAux fuel n ≤ n ∧ n < 2 ^ (exponentAux fuel n + 1) := by
  intro fuel
  induction fuel with
  | zero => intro n h h0; omega
  | succ fuel ih =>
    intro n h h0
    by_cases h2 : n < 2
    · have : n = 1 := by omega
      subst this
      simp [exponentAux]
    · simp only [exponentAux, h2, if_false]
      obtain ⟨h3, h4⟩ := ih (n / 2) (by omega) (by omega)
      constructor
      · rw [pow_succ]; omega
      · rw [pow_succ] at h4 ⊢; omega

/-- The leading bit of a positive integer. -/
theorem exponent_spec (n : Nat) (h : n ≠ 0) :
    2 ^ exponent n ≤ n ∧ n < 2 ^ (exponent n + 1) :=
  exponentAux_spec n n (le_refl n) h

theorem roundHalfEven_bounds (a b : Nat) :
    a / b ≤ roundHalfEven a b ∧ roundHalfEven a b ≤ a / b + 1 := by
  unfold roundHalfEven
  split <;> omega

/-- The rounding of a quotient of two positive integers whose leading bits
are at most 52 places apart (two `uint32` in particular): the significand is
the rounded integer quotient at a shift `t`, at which the integer quotient has
53 bits. -/
theorem nearest_spec (n d : Nat) (hn : n ≠ 0) (hd : d ≠ 0) (h : exponent n ≤ 52 + exponent d) :
    ∃ t : Nat, nearest n d = mkRat (roundHalfEven (n * 2 ^ t) d) (2 ^ t) ∧
      2 ^ 52 ≤ n * 2 ^ t / d ∧ n * 2 ^ t / d < 2 ^ 53 := by
  obtain ⟨hn1, hn2⟩ := exponent_spec n hn
  obtain ⟨hd1, hd2⟩ := exponent_spec d hd
  have hdpos : 0 < d := Nat.pos_of_ne_zero hd
  obtain ⟨k, hk⟩ : ∃ k : Nat, 52 + exponent d = exponent n + k := ⟨52 + exponent d - exponent n, by omega⟩
  have ht0 : (52 + (exponent d : Int) - (exponent n : Int)) = (k : Int) := by omega
  -- the quotient at the shift `k` lies in `[2 ^ 51, 2 ^ 53)`
  have hlow : 2 ^ 51 * d < n * 2 ^ k := by
    calc 2 ^ 51 * d < 2 ^ 51 * 2 ^ (exponent d + 1) := by
          exact Nat.mul_lt_mul_of_pos_left hd2 (by positivity)
      _ = 2 ^ exponent n * 2 ^ k := by
          rw [← pow_add, ← pow_add]; congr 1; omega
      _ ≤ n * 2 ^ k := Nat.mul_le_mul_right _ hn1
  have hhigh : n * 2 ^ k < 2 ^ 53 * d := by
    calc n * 2 ^ k < 2 ^ (exponent n + 1) * 2 ^ k := by
          exact Nat.mul_lt_mul_of_pos_right hn2 (by positivity)
      _ = 2 ^ 53 * 2 ^ exponent d := by
          rw [← pow_add, ← pow_add]; congr 1; omega
      _ ≤ 2 ^ 53 * d := Nat.mul_le_mul_left _ hd1
  have hq1 : 2 ^ 51 ≤ n * 2 ^ k / d := by
    rw [Nat.le_div_iff_mul_le hdpos]; exact le_of_lt hlow
  have hq2 : n * 2 ^ k / d < 2 ^ 53 := by
    rw [Nat.div_lt_iff_lt_mul hdpos]; exact hhigh
  have hscaled : ∀ j : Nat, scaled n d (j : Int) = (n * 2 ^ j, d) := by
    intro j; simp [scaled]
  by_cases hlt : n * 2 ^ k / d < 2 ^ 52
  · have hshift : shift n d = ((k + 1 : Nat) : Int) := by
      simp only [shift, ht0, hscaled, hlt, if_true]; push_cast; ring
    have hq3 : 2 ^ 52 ≤ n * 2 ^ (k + 1) / d := by
      rw [Nat.le_div_iff_mul_le hdpos]
      have e1 : 2 ^ 52 * d = 2 * (2 ^ 51 * d) := by ring
      have e2 : n * 2 ^ (k + 1) = 2 * (n * 2 ^ k) := by ring
      omega
    have hq4 : n * 2 ^ (k + 1) / d < 2 ^ 53 := by
      rw [Nat.div_lt_iff_lt_mul hdpos]
      have hx : n * 2 ^ k < 2 ^ 52 * d := by
        rw [← Nat.div_lt_iff_lt_mul hdpos]; exact hlt
      have e1 : 2 ^ 53 * d = 2 * (2 ^ 52 * d) := by ring
      have e2 : n * 2 ^ (k + 1) = 2 * (n * 2 ^ k) := by ring
      omega
    refine ⟨k + 1, ?_, hq3, hq4⟩
    simp only [nearest, hshift, hscaled, Int.toNat_ofNat]
    rw [if_pos (Int.ofNat_nonneg _)]
  · have hshift : shift n d = ((k : Nat) : Int) := by
      simp only [shift, ht0, hscaled, hlt, if_false]
    refine ⟨k, ?_, by omega, hq2⟩
    simp only [nearest, hshift, hscaled, Int.toNat_ofNat]
    rw [if_pos (Int.ofNat_nonneg _)]

theorem nearest_zero (d : Nat) : nearest 0 d = 0 := by
  have h1 : ∀ t : Int, (scaled 0 d t).1 = 0 := by
    intro t; unfold scaled; split <;> simp
  have h2 : ∀ b : Nat, roundHalfEven 0 b = 0 := by
    intro b; simp [roundHalfEven]
  simp [nearest, h1, h2]

theorem exponent_lt (n k : Nat) (hn : n ≠ 0) (h : n < 2 ^ k) : exponent n < k := by
  obtain ⟨h1, _⟩ := exponent_spec n hn
  exact (Nat.pow_lt_pow_iff_right (by norm_num)).mp (lt_of_le_of_lt h1 h)

/-- Two fractions with powers of two as denominators, compared. -/
theorem mkRat_pow_le (a b s t : Nat) :
    mkRat (a : Int) (2 ^ s) ≤ mkRat (b : Int) (2 ^ t) ↔ a * 2 ^ t ≤ b * 2 ^ s := by
  rw [Rat.mkRat_eq_div, Rat.mkRat_eq_div]
  have hs : (0 : ℚ) < ((2 ^ s : Nat) : ℚ) := by positivity
  have ht : (0 : ℚ) < ((2 ^ t : Nat) : ℚ) := by positivity
  rw [div_le_div_iff₀ hs ht]
  push_cast
  exact_mod_cast Iff.rfl

/-- The float quotient of two `uint32` counts against the float64 that holds
0.6: the comparison is the exact one, of the fraction against 3/5. -/
theorem nearest_ge_six_tenths (n d : Nat) (hd : d ≠ 0) (hn32 : n < 2 ^ 32) (hd32 : d < 2 ^ 32) :
    mkRat 5404319552844595 (2 ^ 53) ≤ nearest n d ↔ 3 * d ≤ 5 * n := by
  have hdpos : 0 < d := Nat.pos_of_ne_zero hd
  by_cases hn : n = 0
  · subst hn
    rw [nearest_zero]
    constructor
    · intro h
      exact absurd h (by rw [Rat.mkRat_eq_div]; norm_num)
    · intro h; omega
  have hexp : exponent n ≤ 52 + exponent d := by
    have := exponent_lt n 32 hn hn32
    omega
  obtain ⟨t, hval, hq1, hq2⟩ := nearest_spec n d hn hd hexp
  obtain ⟨hm1, hm2⟩ := roundHalfEven_bounds (n * 2 ^ t) d
  have hQ : n * 2 ^ t / d * d ≤ n * 2 ^ t := Nat.div_mul_le_self _ _
  have hQ2 : n * 2 ^ t < (n * 2 ^ t / d + 1) * d := by
    have := Nat.lt_succ_iff.mpr (le_refl (n * 2 ^ t / d))
    exact (Nat.div_lt_iff_lt_mul hdpos).mp this
  rw [hval]
  have hcmp := mkRat_pow_le 5404319552844595 (roundHalfEven (n * 2 ^ t) d) 53 t
  have hcast : mkRat (5404319552844595 : Int) (2 ^ 53) ≤
      mkRat ((roundHalfEven (n * 2 ^ t) d : Nat) : Int) (2 ^ t) ↔
      5404319552844595 * 2 ^ t ≤ roundHalfEven (n * 2 ^ t) d * 2 ^ 53 := by
    exact_mod_cast hcmp
  rw [hcast]
  generalize roundHalfEven (n * 2 ^ t) d = m at hm1 hm2
  generalize hQdef : n * 2 ^ t / d = Q at hm1 hm2 hq1 hq2 hQ hQ2
  constructor
  · -- the float quotient reaches the threshold: the fraction is at least 3/5
    intro h
    by_contra hlt
    have h5 : 5 * n + 1 ≤ 3 * d := by omega
    -- below one, so the shift is at least 53
    have hnd : n < d := by omega
    have ht : 53 ≤ t := by
      by_contra hc
      have hc1 : t ≤ 52 := by omega
      have hp : 2 ^ t ≤ 2 ^ 52 := Nat.pow_le_pow_right (by norm_num) hc1
      have hx : Q * d < 2 ^ t * d := by
        calc Q * d ≤ n * 2 ^ t := hQ
          _ < d * 2 ^ t := Nat.mul_lt_mul_of_pos_right hnd (by positivity)
          _ = 2 ^ t * d := by ring
      have hx2 : Q < 2 ^ t := Nat.lt_of_mul_lt_mul_right hx
      omega
    obtain ⟨k, rfl⟩ : ∃ k, t = 53 + k := ⟨t - 53, by omega⟩
    have hpk : 0 < 2 ^ k := by positivity
    have hpow : 2 ^ (53 + k) = 2 ^ 53 * 2 ^ k := by rw [pow_add]
    rw [hpow] at h hQ
    generalize 2 ^ k = P at hpk h hQ
    -- m is below the threshold scaled to the shift
    have hmP : 5404319552844595 * P ≤ m := by
      have h1 : 5404319552844595 * P * 2 ^ 53 ≤ m * 2 ^ 53 := by
        calc 5404319552844595 * P * 2 ^ 53 = 5404319552844595 * (2 ^ 53 * P) := by ring
          _ ≤ m * 2 ^ 53 := h
      exact Nat.le_of_mul_le_mul_right h1 (by positivity)
    have hQP : 5404319552844595 * P ≤ Q + 1 := le_trans hmP hm2
    have hbound : 5 * (Q * d) + 2 ^ 53 * P ≤ 3 * d * (2 ^ 53 * P) := by
      have h6 : 5 * (n * (2 ^ 53 * P)) + 2 ^ 53 * P ≤ 3 * d * (2 ^ 53 * P) := by
        calc 5 * (n * (2 ^ 53 * P)) + 2 ^ 53 * P = (5 * n + 1) * (2 ^ 53 * P) := by ring
          _ ≤ 3 * d * (2 ^ 53 * P) := Nat.mul_le_mul_right _ h5
      have h7 : 5 * (Q * d) ≤ 5 * (n * (2 ^ 53 * P)) := Nat.mul_le_mul_left _ hQ
      omega
    have hthr : 5 * (5404319552844595 * P * d) ≤ 5 * ((Q + 1) * d) :=
      Nat.mul_le_mul_left _ (Nat.mul_le_mul_right _ hQP)
    have hdP : d ≤ d * P := Nat.le_mul_of_pos_right d hpk
    have hdP2 : d * P < 2 ^ 32 * P := Nat.mul_lt_mul_of_pos_right hd32 hpk
    have e1 : 5 * (5404319552844595 * P * d) = 27021597764222975 * (d * P) := by ring
    have e2 : 5 * ((Q + 1) * d) = 5 * (Q * d) + 5 * d := by ring
    have e3 : 3 * d * (2 ^ 53 * P) = 27021597764222976 * (d * P) := by ring
    have e4 : 2 ^ 53 * P = 9007199254740992 * P := by norm_num
    have e5 : 2 ^ 32 * P = 4294967296 * P := by norm_num
    omega
  · -- the fraction is at least 3/5: the float quotient reaches the threshold
    intro h
    by_cases hnd : d ≤ n
    · have hx : 2 ^ t * d ≤ n * 2 ^ t := by
        calc 2 ^ t * d = d * 2 ^ t := by ring
          _ ≤ n * 2 ^ t := Nat.mul_le_mul_right _ hnd
      have hQt : 2 ^ t ≤ Q := by
        rw [← hQdef]; exact (Nat.le_div_iff_mul_le hdpos).mpr hx
      calc 5404319552844595 * 2 ^ t ≤ 2 ^ 53 * 2 ^ t :=
            Nat.mul_le_mul_right _ (by norm_num)
        _ = 2 ^ t * 2 ^ 53 := by ring
        _ ≤ Q * 2 ^ 53 := Nat.mul_le_mul_right _ hQt
        _ ≤ m * 2 ^ 53 := Nat.mul_le_mul_right _ hm1
    · have hnd1 : n < d := by omega
      have ht : 53 ≤ t := by
        by_contra hc
        have hc1 : t ≤ 52 := by omega
        have hp : 2 ^ t ≤ 2 ^ 52 := Nat.pow_le_pow_right (by norm_num) hc1
        have hx : Q * d < 2 ^ t * d := by
          calc Q * d ≤ n * 2 ^ t := hQ
            _ < d * 2 ^ t := Nat.mul_lt_mul_of_pos_right hnd1 (by positivity)
            _ = 2 ^ t * d := by ring
        have hx2 : Q < 2 ^ t := Nat.lt_of_mul_lt_mul_right hx
        omega
      obtain ⟨k, rfl⟩ : ∃ k, t = 53 + k := ⟨t - 53, by omega⟩
      have hpow : 2 ^ (53 + k) = 2 ^ 53 * 2 ^ k := by rw [pow_add]
      rw [hpow] at hQdef ⊢
      generalize 2 ^ k = P at hQdef ⊢
      have hle : 5404319552844595 * P * d ≤ n * (2 ^ 53 * P) := by
        have h8 : 5 * (5404319552844595 * P * d) ≤ 5 * (n * (2 ^ 53 * P)) := by
          calc 5 * (5404319552844595 * P * d) ≤ 3 * d * (2 ^ 53 * P) := by
                have e1 : 5 * (5404319552844595 * P * d) = 27021597764222975 * (d * P) := by ring
                have e3 : 3 * d * (2 ^ 53 * P) = 27021597764222976 * (d * P) := by ring
                omega
            _ ≤ 5 * n * (2 ^ 53 * P) := Nat.mul_le_mul_right _ h
            _ = 5 * (n * (2 ^ 53 * P)) := by ring
        omega
      have hQP : 5404319552844595 * P ≤ Q := by
        rw [← hQdef]; exact (Nat.le_div_iff_mul_le hdpos).mpr hle
      calc 5404319552844595 * (2 ^ 53 * P) = 5404319552844595 * P * 2 ^ 53 := by ring
        _ ≤ Q * 2 ^ 53 := Nat.mul_le_mul_right _ hQP
        _ ≤ m * 2 ^ 53 := Nat.mul_le_mul_right _ hm1

theorem roundHalfEven_near (a b : Nat) (hb : 0 < b) :
    2 * (roundHalfEven a b * b) ≤ 2 * a + b ∧ 2 * a ≤ 2 * (roundHalfEven a b * b) + b := by
  have h1 : b * (a / b) + a % b = a := Nat.div_add_mod a b
  have h2 : a % b < b := Nat.mod_lt a hb
  unfold roundHalfEven
  split
  · rename_i hc
    have e : (a / b + 1) * b = b * (a / b) + b := by ring
    rw [e]
    rcases hc with hc | ⟨hc, _⟩ <;> omega
  · rename_i hc
    have e : a / b * b = b * (a / b) := by ring
    rw [e]
    have : ¬ b < 2 * (a % b) := fun h => hc (Or.inl h)
    omega

/-- The float quotient of two positive integers (leading bits at most 52
places apart) is within the relative error `2 ^ (-53)` of the exact
fraction. -/
theorem nearest_accuracy (n d : Nat) (hn : n ≠ 0) (hd : d ≠ 0)
    (h : exponent n ≤ 52 + exponent d) :
    |nearest n d - (n : ℚ) / (d : ℚ)| ≤ (n : ℚ) / (d : ℚ) / 2 ^ 53 := by
  have hdpos : 0 < d := Nat.pos_of_ne_zero hd
  obtain ⟨t, hval, hq1, _⟩ := nearest_spec n d hn hd h
  obtain ⟨hr1, hr2⟩ := roundHalfEven_near (n * 2 ^ t) d hdpos
  have hQ : n * 2 ^ t / d * d ≤ n * 2 ^ t := Nat.div_mul_le_self _ _
  have hbig : 2 ^ 52 * d ≤ n * 2 ^ t := le_trans (Nat.mul_le_mul_right _ hq1) hQ
  rw [hval, Rat.mkRat_eq_div]
  generalize roundHalfEven (n * 2 ^ t) d = m at hr1 hr2
  have hD : (0 : ℚ) < (d : ℚ) := by exact_mod_cast hdpos
  have hT : (0 : ℚ) < ((2 ^ t : Nat) : ℚ) := by positivity
  have c1 : 2 * ((m : ℚ) * d) ≤ 2 * ((n : ℚ) * ((2 ^ t : Nat) : ℚ)) + d := by exact_mod_cast hr1
  have c2 : 2 * ((n : ℚ) * ((2 ^ t : Nat) : ℚ)) ≤ 2 * ((m : ℚ) * d) + d := by exact_mod_cast hr2
  have c3 : (2 : ℚ) ^ 52 * d ≤ (n : ℚ) * ((2 ^ t : Nat) : ℚ) := by exact_mod_cast hbig
  generalize ((2 ^ t : Nat) : ℚ) = T at hT c1 c2 c3
  have e1 : ((m : Int) : ℚ) / T - (n : ℚ) / d = ((m : ℚ) * d - n * T) / (T * d) := by
    push_cast
    field_simp
    ring
  have e2 : (n : ℚ) / d / 2 ^ 53 = ((n : ℚ) * T / 2 ^ 53) / (T * d) := by
    field_simp
    ring
  rw [e1, e2, abs_div, abs_of_pos (mul_pos hT hD)]
  apply div_le_div_of_nonneg_right _ (le_of_lt (mul_pos hT hD))
  rw [abs_le]
  constructor
  · have : (n : ℚ) * T / 2 ^ 53 = (n : ℚ) * T * (1 / 2 ^ 53) := by ring
    rw [this]
    norm_num at c3 ⊢
    linarith
  · have : (n : ℚ) * T / 2 ^ 53 = (n : ℚ) * T * (1 / 2 ^ 53) := by ring
    rw [this]
    norm_num at c3 ⊢
    linarith

end float64

/-! ## The retried provider call -/

section Retry
variable {W : Type}

theorem retryWait_calls (rt : Runtime W) (cfg : Config) (st : Option Payment × Env W) :
    (retryWait rt cfg st).2.calls = st.2.calls := by
  cases st; rfl

theorem retried_calls (call : W → (Option Payment × Option GoError) × W) (i : Nat) (m : Method)
    (st : Option Payment × Env W) :
    (retried call i m st).2.2.calls
      = st.2.calls ++ [⟨i, m, (retried call i m st).1.isNone⟩] := by
  cases st; rfl

theorem retried_err (call : W → (Option Payment × Option GoError) × W) (i : Nat) (m : Method)
    (st : Option Payment × Env W) :
    (retried call i m st).1 = (call st.2.world).1.2 := by
  cases st; rfl

/-- The invocations logged by the bounded loop of `retry.Do`: failures only
when it ends in an error, as many as there were attempts left; otherwise
fewer failures than that, followed by one success. -/
theorem retry_loop_calls (rt : Runtime W) (cfg : Config)
    (call : W → (Option Payment × Option GoError) × W) (i : Nat) (m : Method) :
    ∀ (n : Nat) (log : List GoError) (st : Option Payment × Env W),
      ((retry.loop (retried call i m) (retryWait rt cfg) n log st).1 = none →
        ∃ k, k < n ∧ (retry.loop (retried call i m) (retryWait rt cfg) n log st).2.2.calls
          = st.2.calls ++ (List.replicate k ⟨i, m, false⟩ ++ [⟨i, m, true⟩])) ∧
      ((retry.loop (retried call i m) (retryWait rt cfg) n log st).1 ≠ none →
        (retry.loop (retried call i m) (retryWait rt cfg) n log st).2.2.calls
          = st.2.calls ++ List.replicate n ⟨i, m, false⟩) := by
  intro n
  induction n with
  | zero => intro log st; simp [retry.loop]
  | succ n ih =>
    intro log st
    have hc := retried_calls call i m st
    rcases h : retried call i m st with ⟨_ | err, st1⟩
    · rw [h] at hc
      simp only [retry.loop, h]
      refine ⟨fun _ => ⟨0, Nat.succ_pos n, ?_⟩, fun hne => absurd rfl hne⟩
      simpa using hc
    · rw [h] at hc
      simp only [retry.loop, h]
      by_cases hn : n = 0
      · subst hn
        simp only [if_true]
        refine ⟨fun hnone => by simp at hnone, fun _ => ?_⟩
        simpa using hc
      · simp only [if_neg hn]
        have hw : (retryWait rt cfg st1).2.calls = st.2.calls ++ [⟨i, m, false⟩] := by
          rw [retryWait_calls]; simpa using hc
        obtain ⟨ih1, ih2⟩ := ih (log ++ [err]) (retryWait rt cfg st1)
        refine ⟨fun hnone => ?_, fun hne => ?_⟩
        · obtain ⟨k, hk, hcalls⟩ := ih1 hnone
          refine ⟨k + 1, Nat.succ_lt_succ hk, ?_⟩
          rw [hcalls, hw]
          simp [List.replicate_succ, List.append_assoc]
        · rw [ih2 hne, hw]
          simp [List.replicate_succ, List.append_assoc]

end Retry

section Guarded
variable {W : Type}

/-- The invocations logged by the unbounded loop of `retry.Do`, when it
returns: it returns no error, after failures followed by one success. -/
theorem retry_forever_calls (rt : Runtime W) (cfg : Config)
    (call : W → (Option Payment × Option GoError) × W) (i : Nat) (m : Method) :
    ∀ (spin : Nat) (st : Option Payment × Env W) (r : Option GoError × (Option Payment × Env W)),
      retry.forever (retried call i m) (retryWait rt cfg) spin st = some r →
      r.1 = none ∧ ∃ k, r.2.2.calls
        = st.2.calls ++ (List.replicate k ⟨i, m, false⟩ ++ [⟨i, m, true⟩]) := by
  intro spin
  induction spin with
  | zero => intro st r h; simp [retry.forever] at h
  | succ spin ih =>
    intro st r h
    have hc := retried_calls call i m st
    rcases h1 : retried call i m st with ⟨_ | err, st1⟩
    · rw [h1] at hc
      simp only [retry.forever, h1, Option.some.injEq] at h
      subst h
      exact ⟨rfl, 0, by simpa using hc⟩
    · rw [h1] at hc
      simp only [retry.forever, h1] at h
      obtain ⟨hr, k, hk⟩ := ih _ r h
      refine ⟨hr, k + 1, ?_⟩
      rw [hk, retryWait_calls]
      have : st1.2.calls = st.2.calls ++ [⟨i, m, false⟩] := by simpa using hc
      rw [this]
      simp [List.replicate_succ, List.append_assoc]

/-- What the closure handed to the breaker returns: a nil interface with an
error after `Attempts` failed invocations, or a payment pointer with a nil
error after failed invocations followed by a successful one. -/
theorem guarded_cases (rt : Runtime W) (cfg : Config) (p : PaymentProvider W)
    (call : W → (Option Payment × Option GoError) × W) (i : Nat) (m : Method) (env env1 : Env W)
    (result : Option (Option Payment)) (err : Option GoError)
    (h : guarded rt cfg p call i m env = some ((result, err), env1)) :
    (∃ e, err = some e ∧ result = none ∧ uint cfg.Retry.Attempts ≠ 0 ∧
        env1.calls = env.calls ++ List.replicate (uint cfg.Retry.Attempts) ⟨i, m, false⟩) ∨
    (∃ payment k, err = none ∧ result = some payment ∧
        (uint cfg.Retry.Attempts ≠ 0 → k < uint cfg.Retry.Attempts) ∧
        env1.calls = env.calls ++ (List.replicate k ⟨i, m, false⟩ ++ [⟨i, m, true⟩])) := by
  unfold guarded retry.Do at h
  by_cases hz : uint cfg.Retry.Attempts = 0
  · simp only [hz, if_true] at h
    rcases hf : retry.forever (retried call i m) (retryWait rt cfg) rt.spin (none, env)
      with _ | ⟨e, pay, env2⟩
    · simp [hf] at h
    · obtain ⟨he, k, hk⟩ := retry_forever_calls rt cfg call i m _ _ _ hf
      simp only at he
      subst he
      simp only [hf, Option.some.injEq, Prod.mk.injEq] at h
      obtain ⟨⟨h1, h2⟩, h3⟩ := h
      subst h1 h2 h3
      exact Or.inr ⟨pay, k, rfl, rfl, fun hne => absurd hz hne, hk⟩
  · simp only [hz, if_false] at h
    obtain ⟨hs, hf⟩ := retry_loop_calls rt cfg call i m (uint cfg.Retry.Attempts) [] (none, env)
    rcases hl : retry.loop (retried call i m) (retryWait rt cfg) (uint cfg.Retry.Attempts) []
      (none, env) with ⟨_ | e, pay, env2⟩
    · rw [hl] at hs hf h
      simp only [Option.some.injEq, Prod.mk.injEq] at h
      obtain ⟨⟨h1, h2⟩, h3⟩ := h
      subst h1 h2 h3
      obtain ⟨k, hk, hcalls⟩ := hs rfl
      exact Or.inr ⟨pay, k, rfl, rfl, fun _ => hk, hcalls⟩
    · rw [hl] at hs hf h
      simp only [Option.some.injEq, Prod.mk.injEq] at h
      obtain ⟨⟨h1, h2⟩, h3⟩ := h
      subst h1 h2 h3
      exact Or.inl ⟨_, rfl, rfl, hz, hf (by simp)⟩

/-- The breaker either rejects the request, leaving the environment as it is,
or admits it and returns what the request returns. -/
theorem Execute_cases {σ α : Type} (cb cb1 : CircuitBreaker) (now : σ → Int)
    (req : σ → Option ((Option α × Option GoError) × σ)) (s s1 : σ)
    (result : Option α) (err : Option GoError)
    (h : cb.Execute now req s = some ((result, err), cb1, s1)) :
    ((cb.beforeRequest (now s)).2.2 = err ∧ err ≠ none ∧ result = none ∧ s1 = s ∧
        cb1 = (cb.beforeRequest (now s)).1) ∨
    ((cb.beforeRequest (now s)).2.2 = none ∧ req s = some ((result, err), s1) ∧
        cb1 = (cb.beforeRequest (now s)).1.afterRequest (now s1)
          (cb.beforeRequest (now s)).2.1 err.isNone) := by
  unfold CircuitBreaker.Execute at h
  rcases hb : cb.beforeRequest (now s) with ⟨cb0, g, _ | e⟩
  · rw [hb] at h
    simp only at h
    rcases hr : req s with _ | ⟨⟨r, e⟩, s2⟩
    · simp [hr] at h
    · simp only [hr, Option.some.injEq, Prod.mk.injEq] at h
      obtain ⟨⟨h1, h2⟩, h3, h4⟩ := h
      subst h1 h2 h3 h4
      exact Or.inr ⟨rfl, rfl, rfl⟩
  · rw [hb] at h
    simp only [Option.some.injEq, Prod.mk.injEq] at h
    obtain ⟨⟨h1, h2⟩, h3, h4⟩ := h
    subst h1 h2 h3 h4
    exact Or.inl ⟨rfl, by simp, rfl, rfl, rfl⟩

/-- The error of a rejected request is one of the two sentinel errors. -/
theorem beforeRequest_err (cb : CircuitBreaker) (now : Int) (e : GoError)
    (h : (cb.beforeRequest now).2.2 = some e) : e = .ErrOpenState ∨ e = .ErrTooManyRequests := by
  unfold CircuitBreaker.beforeRequest at h
  simp only at h
  split_ifs at h
  · left; simpa using h.symm
  · right; simpa using h.symm

end Guarded

section Dispatch
variable {W : Type}

/-- One guarded provider call of the dispatcher, as both operations make it:
when it ends in an error the interface value is nil and only failed
invocations of this provider were logged; when it ends without error the
value is a payment pointer and the last logged invocation is the only
successful one. -/
theorem exec_cases (rt : Runtime W) (cfg : Config) (cb cb1 : CircuitBreaker)
    (p : PaymentProvider W) (call : W → (Option Payment × Option GoError) × W) (i : Nat)
    (m : Method) (env env1 : Env W) (result : Option (Option Payment)) (err : Option GoError)
    (h : cb.Execute (fun e => rt.now e.world) (guarded rt cfg p call i m) env
      = some ((result, err), cb1, env1)) :
    (∃ e k, err = some e ∧ result = none ∧
        env1.calls = env.calls ++ List.replicate k ⟨i, m, false⟩) ∨
    (∃ payment k, err = none ∧ result = some payment ∧
        env1.calls = env.calls ++ (List.replicate k ⟨i, m, false⟩ ++ [⟨i, m, true⟩])) := by
  rcases Execute_cases _ _ _ _ _ _ _ _ h with ⟨_, hne, hr, hs, _⟩ | ⟨_, hg, _⟩
  · obtain ⟨e, he⟩ := Option.ne_none_iff_exists'.mp hne
    exact Or.inl ⟨e, 0, he, hr, by simp [hs]⟩
  · rcases guarded_cases _ _ _ _ _ _ _ _ _ _ hg with ⟨e, he, hr, _, hc⟩ | ⟨pay, k, he, hr, _, hc⟩
    · exact Or.inl ⟨e, _, he, hr, hc⟩
    · exact Or.inr ⟨pay, k, he, hr, hc⟩

theorem LoopCalls.nil (i n : Nat) : LoopCalls i n [] := by
  simp [LoopCalls]

theorem LoopCalls.success (i n k : Nat) :
    LoopCalls i (n + 1) (List.replicate k ⟨i, .ProcessPayment, false⟩ ++ [⟨i, .ProcessPayment, true⟩]) := by
  refine ⟨?_, ?_, ?_⟩
  · intro c hc
    simp only [List.mem_append, List.mem_replicate, List.mem_singleton] at hc
    rcases hc with ⟨_, rfl⟩ | rfl <;> simp
  · rw [List.pairwise_append]
    refine ⟨?_, by simp, ?_⟩
    · rw [List.pairwise_replicate]; simp
    · intro a ha b hb
      simp only [List.mem_replicate] at ha
      simp only [List.mem_singleton] at hb
      rw [ha.2, hb]
  · intro c hc
    rw [List.dropLast_concat] at hc
    rw [(List.mem_replicate.mp hc).2]

theorem LoopCalls.failure (i n k : Nat) (cs : List Call) (h : LoopCalls (i + 1) n cs) :
    LoopCalls i (n + 1) (List.replicate k ⟨i, .ProcessPayment, false⟩ ++ cs) := by
  obtain ⟨h1, h2, h3⟩ := h
  refine ⟨?_, ?_, ?_⟩
  · intro c hc
    simp only [List.mem_append, List.mem_replicate] at hc
    rcases hc with ⟨_, rfl⟩ | hc
    · simp
    · obtain ⟨a, b, d⟩ := h1 c hc
      exact ⟨a, by omega, by omega⟩
  · rw [List.pairwise_append]
    refine ⟨?_, h2, ?_⟩
    · rw [List.pairwise_replicate]; simp
    · intro a ha b hb
      simp only [List.mem_replicate] at ha
      rw [ha.2]
      have := (h1 b hb).2.1
      simp only
      omega
  · intro c hc
    by_cases hnil : cs = []
    · subst hnil
      rw [List.append_nil] at hc
      rw [(List.mem_replicate.mp (List.mem_of_mem_dropLast hc)).2]
    · rw [List.dropLast_append_of_ne_nil _ hnil] at hc
      rcases List.mem_append.mp hc with hc | hc
      · rw [(List.mem_replicate.mp hc).2]
      · exact h3 c hc

end Dispatch

section Loop
variable {W : Type}

/-- The three ways one round of the `ProcessPayment` loop goes on: the guarded
call does not return; it fails and the loop continues with the next provider,
the ledger untouched; it succeeds and the loop ends. -/
theorem loop_cons (rt : Runtime W) (request : PaymentRequest) (p : PaymentProvider W)
    (rest : List (PaymentProvider W)) (i : Nat) (lastErr : Option GoError)
    (s : PaymentService W) (env : Env W) :
    (s.circuitBreaker.Execute (fun e => rt.now e.world)
        (guarded rt s.config p (p.ProcessPayment request) i .ProcessPayment) env = none ∧
      ProcessPayment.loop rt request (p :: rest) i lastErr s env = (.diverged, s, env)) ∨
    (∃ e k cb env1,
      s.circuitBreaker.Execute (fun e => rt.now e.world)
        (guarded rt s.config p (p.ProcessPayment request) i .ProcessPayment) env
        = some ((none, some e), cb, env1) ∧
      env1.calls = env.calls ++ List.replicate k ⟨i, .ProcessPayment, false⟩ ∧
      ProcessPayment.loop rt request (p :: rest) i lastErr s env
        = ProcessPayment.loop rt request rest (i + 1) (some e)
            { s with circuitBreaker := cb } env1) ∨
    (∃ payment k cb env1,
      s.circuitBreaker.Execute (fun e => rt.now e.world)
        (guarded rt s.config p (p.ProcessPayment request) i .ProcessPayment) env
        = some ((some payment, none), cb, env1) ∧
      env1.calls = env.calls
        ++ (List.replicate k ⟨i, .ProcessPayment, false⟩ ++ [⟨i, .ProcessPayment, true⟩]) ∧
      ProcessPayment.loop rt request (p :: rest) i lastErr s env
        = match payment with
          | none => (.panicked nilDereference, { s with circuitBreaker := cb }, env1)
          | some pay =>
            (.returned (some pay, none),
              { s with
                circuitBreaker := cb
                transactions := Function.update s.transactions pay.ID
                  (some ⟨pay, p.GetID, p.GetName⟩) },
              env1)) := by
  rcases hE : s.circuitBreaker.Execute (fun e => rt.now e.world)
      (guarded rt s.config p (p.ProcessPayment request) i .ProcessPayment) env
    with _ | ⟨⟨result, err⟩, cb, env1⟩
  · left
    exact ⟨hE, by simp [ProcessPayment.loop, hE]⟩
  · right
    rcases exec_cases _ _ _ _ _ _ _ _ _ _ _ _ hE with ⟨e, k, he, hr, hc⟩ | ⟨pay, k, he, hr, hc⟩
    · left
      subst he hr
      exact ⟨e, k, cb, env1, hE, hc, by simp [ProcessPayment.loop, hE]⟩
    · right
      subst he hr
      refine ⟨pay, k, cb, env1, hE, hc, ?_⟩
      cases pay <;> simp [ProcessPayment.loop, hE]

end Loop

section LoopSpec
variable {W : Type}

/-- What every run of the `ProcessPayment` loop does: the providers and the
configuration stay; the logged invocations are in list order with none after
a success; and either the loop returns a payment, recorded in the ledger under
its id for one of the providers, or it ends otherwise and the ledger is the
one it started with. -/
theorem loop_spec (rt : Runtime W) (request : PaymentRequest) :
    ∀ (ps : List (PaymentProvider W)) (i : Nat) (lastErr : Option GoError)
      (s : PaymentService W) (env : Env W),
      (ProcessPayment.loop rt request ps i lastErr s env).2.1.providers = s.providers ∧
      (ProcessPayment.loop rt request ps i lastErr s env).2.1.config = s.config ∧
      (∃ new, (ProcessPayment.loop rt request ps i lastErr s env).2.2.calls = env.calls ++ new ∧
        LoopCalls i ps.length new) ∧
      ((∃ pay prov, prov ∈ ps ∧
          (ProcessPayment.loop rt request ps i lastErr s env).1 = .returned (some pay, none) ∧
          (ProcessPayment.loop rt request ps i lastErr s env).2.1.transactions
            = Function.update s.transactions pay.ID (some ⟨pay, prov.GetID, prov.GetName⟩)) ∨
        ((ProcessPayment.loop rt request ps i lastErr s env).2.1.transactions = s.transactions ∧
          ((ProcessPayment.loop rt request ps i lastErr s env).1 = .diverged ∨
            (ProcessPayment.loop rt request ps i lastErr s env).1 = .panicked nilDereference ∨
            ∃ e, (ProcessPayment.loop rt request ps i lastErr s env).1
              = .returned (none, some e)))) := by
  intro ps
  induction ps with
  | nil =>
    intro i lastErr s env
    refine ⟨rfl, rfl, ⟨[], by simp [ProcessPayment.loop], LoopCalls.nil _ _⟩, Or.inr ⟨rfl, ?_⟩⟩
    exact Or.inr (Or.inr ⟨_, rfl⟩)
  | cons p rest ih =>
    intro i lastErr s env
    rcases loop_cons rt request p rest i lastErr s env with
      ⟨_, hl⟩ | ⟨e, k, cb, env1, _, hc, hl⟩ | ⟨payment, k, cb, env1, _, hc, hl⟩
    · rw [hl]
      exact ⟨rfl, rfl, ⟨[], by simp, LoopCalls.nil _ _⟩, Or.inr ⟨rfl, Or.inl rfl⟩⟩
    · rw [hl]
      obtain ⟨h1, h2, ⟨new, h3, h4⟩, h5⟩ := ih (i + 1) (some e) { s with circuitBreaker := cb } env1
      refine ⟨h1, h2, ⟨_, ?_, LoopCalls.failure i rest.length k new h4⟩, ?_⟩
      · rw [h3, hc, List.append_assoc]
      · rcases h5 with ⟨pay, prov, hp, hr, ht⟩ | h5
        · exact Or.inl ⟨pay, prov, List.mem_cons_of_mem _ hp, hr, ht⟩
        · exact Or.inr h5
    · rw [hl]
      cases payment with
      | none =>
        refine ⟨rfl, rfl, ⟨_, hc, LoopCalls.success i rest.length k⟩, Or.inr ⟨rfl, Or.inr (Or.inl rfl)⟩⟩
      | some pay =>
        refine ⟨rfl, rfl, ⟨_, hc, LoopCalls.success i rest.length k⟩, Or.inl ⟨pay, p, ?_, rfl, rfl⟩⟩
        exact List.mem_cons_self _ _

end LoopSpec

section Failing
variable {W : Type}

theorem retry_loop_fails (rt : Runtime W) (cfg : Config)
    (call : W → (Option Payment × Option GoError) × W) (i : Nat) (m : Method)
    (hfail : AlwaysFails call) :
    ∀ (n : Nat) (log : List GoError) (st : Option Payment × Env W),
      (retry.loop (retried call i m) (retryWait rt cfg) n log st).1 ≠ none := by
  intro n
  induction n with
  | zero => intro log st; simp [retry.loop]
  | succ n ih =>
    intro log st
    have he := retried_err call i m st
    rcases h : retried call i m st with ⟨_ | err, st1⟩
    · rw [h] at he
      exact absurd he.symm (hfail _)
    · simp only [retry.loop, h]
      by_cases hn : n = 0
      · simp [hn]
      · simp only [if_neg hn]
        exact ih _ _

/-- The retried call of a provider that always fails, with a positive number
of attempts: it returns an error after exactly that many invocations. -/
theorem guarded_fails (rt : Runtime W) (cfg : Config) (p : PaymentProvider W)
    (call : W → (Option Payment × Option GoError) × W) (i : Nat) (m : Method) (env : Env W)
    (hfail : AlwaysFails call) (hatt : uint cfg.Retry.Attempts ≠ 0) :
    ∃ e env1, guarded rt cfg p call i m env = some ((none, some e), env1) ∧
      env1.calls = env.calls ++ List.replicate (uint cfg.Retry.Attempts) ⟨i, m, false⟩ := by
  have hne := retry_loop_fails rt cfg call i m hfail (uint cfg.Retry.Attempts) [] (none, env)
  rcases hg : guarded rt cfg p call i m env with _ | ⟨⟨result, err⟩, env1⟩
  · unfold guarded retry.Do at hg
    simp only [hatt, if_false] at hg
    rcases hl : retry.loop (retried call i m) (retryWait rt cfg) (uint cfg.Retry.Attempts) []
      (none, env) with ⟨_ | e, pay, env2⟩ <;> simp [hl] at hg
  · rcases guarded_cases _ _ _ _ _ _ _ _ _ _ hg with ⟨e, he, hr, _, hc⟩ | ⟨pay, k, he, _, _, _⟩
    · subst he hr
      exact ⟨e, env1, rfl, hc⟩
    · exfalso
      unfold guarded retry.Do at hg
      simp only [hatt, if_false] at hg
      rcases hl : retry.loop (retried call i m) (retryWait rt cfg) (uint cfg.Retry.Attempts) []
        (none, env) with ⟨_ | e, pay, env2⟩
      · rw [hl] at hne; exact hne rfl
      · rw [hl] at hg
        subst he
        simp at hg

/-- The guarded call of a provider that always fails returns an error and a
nil interface, whether the breaker admits it or not. -/
theorem exec_fails (rt : Runtime W) (cfg : Config) (cb : CircuitBreaker) (p : PaymentProvider W)
    (call : W → (Option Payment × Option GoError) × W) (i : Nat) (m : Method) (env : Env W)
    (hfail : AlwaysFails call) (hatt : uint cfg.Retry.Attempts ≠ 0) :
    ∃ e cb1 env1, cb.Execute (fun e => rt.now e.world) (guarded rt cfg p call i m) env
      = some ((none, some e), cb1, env1) := by
  obtain ⟨e, env1, hg, _⟩ := guarded_fails rt cfg p call i m env hfail hatt
  unfold CircuitBreaker.Execute
  rcases hb : cb.beforeRequest (rt.now env.world) with ⟨cb0, g, _ | e0⟩
  · simp only [hg]
    exact ⟨_, _, _, rfl⟩
  · exact ⟨_, _, _, rfl⟩

/-- The loop over providers that all fail runs to its end without touching
the ledger, and a longer loop that starts with them continues from the state
so reached. -/
theorem loop_append_fails (rt : Runtime W) (request : PaymentRequest)
    (rest : List (PaymentProvider W)) :
    ∀ (pre : List (PaymentProvider W)) (i : Nat) (lastErr : Option GoError)
      (s : PaymentService W) (env : Env W),
      (∀ p ∈ pre, AlwaysFails (p.ProcessPayment request)) →
      uint s.config.Retry.Attempts ≠ 0 →
      ∃ lastErr1,
        (ProcessPayment.loop rt request pre i lastErr s env).1
          = .returned (none, some (allProvidersFailed lastErr1)) ∧
        ProcessPayment.loop rt request (pre ++ rest) i lastErr s env
          = ProcessPayment.loop rt request rest (i + pre.length) lastErr1
              (ProcessPayment.loop rt request pre i lastErr s env).2.1
              (ProcessPayment.loop rt request pre i lastErr s env).2.2 ∧
        (ProcessPayment.loop rt request pre i lastErr s env).2.1.transactions = s.transactions ∧
        (ProcessPayment.loop rt request pre i lastErr s env).2.1.config = s.config ∧
        (ProcessPayment.loop rt request pre i lastErr s env).2.1.providers = s.providers := by
  intro pre
  induction pre with
  | nil =>
    intro i lastErr s env _ _
    exact ⟨lastErr, rfl, by simp [ProcessPayment.loop], rfl, rfl, rfl⟩
  | cons p pre ih =>
    intro i lastErr s env hfail hatt
    have hp : AlwaysFails (p.ProcessPayment request) := hfail p (List.mem_cons_self _ _)
    obtain ⟨e0, cb0, env0, hE⟩ := exec_fails rt s.config s.circuitBreaker p
      (p.ProcessPayment request) i .ProcessPayment env hp hatt
    have h1 : ProcessPayment.loop rt request (p :: pre) i lastErr s env
        = ProcessPayment.loop rt request pre (i + 1) (some e0)
            { s with circuitBreaker := cb0 } env0 := by
      simp [ProcessPayment.loop, hE]
    have h2 : ProcessPayment.loop rt request (p :: pre ++ rest) i lastErr s env
        = ProcessPayment.loop rt request (pre ++ rest) (i + 1) (some e0)
            { s with circuitBreaker := cb0 } env0 := by
      simp [ProcessPayment.loop, hE]
    obtain ⟨l1, a, b, c, d, e⟩ := ih (i + 1) (some e0) { s with circuitBreaker := cb0 } env0
      (fun q hq => hfail q (List.mem_cons_of_mem _ hq)) hatt
    refine ⟨l1, ?_, ?_, ?_, ?_, ?_⟩
    · rw [h1]; exact a
    · rw [h2, h1, b]
      simp [Nat.add_assoc, Nat.add_comm 1]
    · rw [h1]; exact c
    · rw [h1]; exact d
    · rw [h1]; exact e

end Failing

section Refund
variable {W : Type}

/-- The lookup loop of `RefundPayment` finds the first provider, in list
order, whose `GetID()` is the wanted one. -/
theorem lookup_spec (providerID : String) :
    ∀ (ps : List (PaymentProvider W)) (j i : Nat) (p : PaymentProvider W),
      RefundPayment.lookup ps providerID j = some (i, p) →
      j ≤ i ∧ ps[i - j]? = some p ∧ p.GetID = providerID ∧
        ∀ k, k < i - j → ∀ q, ps[k]? = some q → q.GetID ≠ providerID := by
  intro ps
  induction ps with
  | nil => intro j i p h; simp [RefundPayment.lookup] at h
  | cons a rest ih =>
    intro j i p h
    unfold RefundPayment.lookup at h
    by_cases ha : a.GetID = providerID
    · simp only [ha, if_true, Option.some.injEq, Prod.mk.injEq] at h
      obtain ⟨h1, h2⟩ := h
      subst h1 h2
      refine ⟨le_refl _, by simp, ha, ?_⟩
      intro k hk
      omega
    · simp only [ha, if_false] at h
      obtain ⟨h1, h2, h3, h4⟩ := ih (j + 1) i p h
      have hij : i - j = (i - (j + 1)) + 1 := by omega
      refine ⟨by omega, ?_, h3, ?_⟩
      · rw [hij, List.getElem?_cons_succ]; exact h2
      · intro k hk q hq
        cases k with
        | zero =>
          simp only [List.getElem?_cons_zero, Option.some.injEq] at hq
          subst hq
          exact ha
        | succ k =>
          rw [List.getElem?_cons_succ] at hq
          exact h4 k (by omega) q hq

/-- The rejections of `RefundPayment`: an unknown id, an entry that is not
AUTHORIZED, a provider that is not configured. Nothing changes. -/
theorem refund_rejected (rt : Runtime W) (s : PaymentService W) (paymentID : String)
    (request : RefundRequest) (env : Env W) :
    (s.transactions paymentID = none →
      RefundPayment rt s paymentID request env
        = (.returned (none, some (.errorString ("payment not found: " ++ paymentID))), s, env)) ∧
    (∀ tx, s.transactions paymentID = some tx → tx.Payment.Status ≠ StatusAuthorized →
      RefundPayment rt s paymentID request env
        = (.returned (none, some (.errorString
            ("payment cannot be refunded: status is " ++ tx.Payment.Status))), s, env)) ∧
    (∀ tx, s.transactions paymentID = some tx → tx.Payment.Status = StatusAuthorized →
      RefundPayment.lookup s.providers tx.ProviderID 0 = none →
      RefundPayment rt s paymentID request env
        = (.returned (none, some (.errorString
            ("provider not found: " ++ tx.ProviderID))), s, env)) := by
  refine ⟨fun h => ?_, fun tx h hs => ?_, fun tx h hs hl => ?_⟩
  · simp [RefundPayment, h]
  · simp [RefundPayment, h, hs]
  · simp [RefundPayment, h, hs, hl]

/-- The routed case of `RefundPayment`, for an AUTHORIZED entry whose provider
is configured at position `i`: the guarded call does not return; or it fails,
the error is returned and the ledger is untouched; or it succeeds, and the
payment is stamped REFUNDED, stored as the snapshot of the entry and
returned. -/
theorem refund_routed (rt : Runtime W) (s : PaymentService W) (paymentID : String)
    (request : RefundRequest) (env : Env W) (tx : Transaction) (i : Nat)
    (p : PaymentProvider W) (h : s.transactions paymentID = some tx)
    (hs : tx.Payment.Status = StatusAuthorized)
    (hl : RefundPayment.lookup s.providers tx.ProviderID 0 = some (i, p)) :
    (s.circuitBreaker.Execute (fun e => rt.now e.world)
        (guarded rt s.config p (p.RefundPayment paymentID request) i .RefundPayment) env = none ∧
      RefundPayment rt s paymentID request env = (.diverged, s, env)) ∨
    (∃ e k cb env1,
      s.circuitBreaker.Execute (fun e => rt.now e.world)
        (guarded rt s.config p (p.RefundPayment paymentID request) i .RefundPayment) env
        = some ((none, some e), cb, env1) ∧
      env1.calls = env.calls ++ List.replicate k ⟨i, .RefundPayment, false⟩ ∧
      RefundPayment rt s paymentID request env
        = (.returned (none, some e), { s with circuitBreaker := cb }, env1)) ∨
    (∃ payment k cb env1,
      s.circuitBreaker.Execute (fun e => rt.now e.world)
        (guarded rt s.config p (p.RefundPayment paymentID request) i .RefundPayment) env
        = some ((some payment, none), cb, env1) ∧
      env1.calls = env.calls
        ++ (List.replicate k ⟨i, .RefundPayment, false⟩ ++ [⟨i, .RefundPayment, true⟩]) ∧
      RefundPayment rt s paymentID request env
        = match payment with
          | none => (.panicked nilDereference, { s with circuitBreaker := cb }, env1)
          | some pay =>
            (.returned (some { pay with Status := StatusRefunded }, none),
              { s with
                circuitBreaker := cb
                transactions := Function.update s.transactions paymentID
                  (some { tx with Payment := { pay with Status := StatusRefunded } }) },
              env1)) := by
  rcases hE : s.circuitBreaker.Execute (fun e => rt.now e.world)
      (guarded rt s.config p (p.RefundPayment paymentID request) i .RefundPayment) env
    with _ | ⟨⟨result, err⟩, cb, env1⟩
  · left
    exact ⟨hE, by simp [RefundPayment, h, hs, hl, hE]⟩
  · right
    rcases exec_cases _ _ _ _ _ _ _ _ _ _ _ _ hE with ⟨e, k, he, hr, hc⟩ | ⟨pay, k, he, hr, hc⟩
    · left
      subst he hr
      exact ⟨e, k, cb, env1, hE, hc, by simp [RefundPayment, h, hs, hl, hE]⟩
    · right
      subst he hr
      refine ⟨pay, k, cb, env1, hE, hc, ?_⟩
      cases pay <;> simp [RefundPayment, h, hs, hl, hE]

end Refund

section RefundFrame
variable {W : Type}

/-- What `RefundPayment` does to the ledger: nothing, unless it returns a
payment; then the entry under the id was AUTHORIZED and its snapshot becomes
the returned payment, which is REFUNDED. -/
theorem refund_ledger (rt : Runtime W) (s : PaymentService W) (paymentID : String)
    (request : RefundRequest) (env : Env W) :
    ((RefundPayment rt s paymentID request env).2.1.transactions = s.transactions ∧
      ∀ q, (RefundPayment rt s paymentID request env).1 ≠ .returned (some q, none)) ∨
    (∃ (tx : Transaction) (pay : Payment), s.transactions paymentID = some tx ∧ tx.Payment.Status = StatusAuthorized ∧
      (RefundPayment rt s paymentID request env).1
        = .returned (some { pay with Status := StatusRefunded }, none) ∧
      (RefundPayment rt s paymentID request env).2.1.transactions
        = Function.update s.transactions paymentID
            (some { tx with Payment := { pay with Status := StatusRefunded } })) := by
  obtain ⟨r1, r2, r3⟩ := refund_rejected rt s paymentID request env
  rcases h : s.transactions paymentID with _ | tx
  · left; rw [r1 h]; simp
  · by_cases hs : tx.Payment.Status = StatusAuthorized
    · rcases hl : RefundPayment.lookup s.providers tx.ProviderID 0 with _ | ⟨i, p⟩
      · left; rw [r3 tx h hs hl]; simp
      · rcases refund_routed rt s paymentID request env tx i p h hs hl with
          ⟨_, hr⟩ | ⟨e, k, cb, env1, _, _, hr⟩ | ⟨payment, k, cb, env1, _, _, hr⟩
        · left; rw [hr]; simp
        · left; rw [hr]; simp
        · cases payment with
          | none => left; rw [hr]; simp
          | some pay => right; exact ⟨tx, pay, rfl, hs, by simp [hr], by simp [hr]⟩
    · left; rw [r2 tx h hs]; simp

end RefundFrame

section Admitted
variable {W : Type}

/-- The retried call of a provider whose next invocation succeeds: it returns
that payment after one invocation. -/
theorem guarded_succeeds (rt : Runtime W) (cfg : Config) (p : PaymentProvider W)
    (call : W → (Option Payment × Option GoError) × W) (i : Nat) (m : Method) (env : Env W)
    (payment : Option Payment) (hcall : (call env.world).1 = (payment, none))
    (hatt : uint cfg.Retry.Attempts ≠ 0) :
    guarded rt cfg p call i m env
      = some ((some payment, none), ⟨(call env.world).2, env.calls ++ [⟨i, m, true⟩]⟩) := by
  obtain ⟨n, hn⟩ := Nat.exists_eq_succ_of_ne_zero hatt
  rcases hc : call env.world with ⟨⟨pay, err⟩, w1⟩
  rw [hc] at hcall
  simp only [Prod.mk.injEq] at hcall
  obtain ⟨h1, h2⟩ := hcall
  subst h1 h2
  simp [guarded, retry.Do, hn, retry.loop, retried, hc]

/-- A request the breaker admits is made, and its result is returned. -/
theorem Execute_admitted {σ α : Type} (cb : CircuitBreaker) (now : σ → Int)
    (req : σ → Option ((Option α × Option GoError) × σ)) (s s1 : σ)
    (r : Option α × Option GoError) (hpass : (cb.beforeRequest (now s)).2.2 = none)
    (hreq : req s = some (r, s1)) :
    cb.Execute now req s
      = some (r, (cb.beforeRequest (now s)).1.afterRequest (now s1)
          (cb.beforeRequest (now s)).2.1 r.2.isNone, s1) := by
  unfold CircuitBreaker.Execute
  rcases hb : cb.beforeRequest (now s) with ⟨cb0, g, _ | e⟩
  · simp [hreq]
  · rw [hb] at hpass
    simp at hpass

/-- A guarded provider call the breaker admits returns what the retried call
returns. -/
theorem exec_admitted {W : Type} (rt : Runtime W) (cfg : Config) (cb : CircuitBreaker)
    (p : PaymentProvider W) (call : W → (Option Payment × Option GoError) × W) (i : Nat)
    (m : Method) (env env1 : Env W) (r : Option (Option Payment) × Option GoError)
    (hpass : (cb.beforeRequest (rt.now env.world)).2.2 = none)
    (hg : guarded rt cfg p call i m env = some (r, env1)) :
    ∃ cb1, cb.Execute (fun e => rt.now e.world) (guarded rt cfg p call i m) env
      = some (r, cb1, env1) :=
  ⟨_, Execute_admitted cb (fun e => rt.now e.world) (guarded rt cfg p call i m) env env1 r
    hpass hg⟩

end Admitted

section Bound
variable {W : Type}

theorem uint_of_attempts (x : Int) (h1 : 1 ≤ x) (h2 : x < 2 ^ 63) :
    uint x = x.toNat ∧ uint x ≠ 0 := by
  have hx : x % 2 ^ 64 = x := Int.emod_eq_of_lt (by omega) (by omega)
  unfold uint
  rw [hx]
  exact ⟨rfl, by omega⟩

/-- The bounded loop of `retry.Do` on a call that fails `j` times and then
succeeds, with more than `j` attempts left: it returns the payment after
`j + 1` invocations. -/
theorem retry_loop_succeeds_after (rt : Runtime W) (cfg : Config)
    (call : W → (Option Payment × Option GoError) × W) (i : Nat) (m : Method)
    (payment : Option Payment) :
    ∀ (j n : Nat) (log : List GoError) (st : Option Payment × Env W),
      j < n → SucceedsAfter rt cfg call j st.2.world payment →
      retry.loop (retried call i m) (retryWait rt cfg) n log st
        = (none, (payment, ⟨(call (attemptWorld rt cfg call j st.2.world)).2,
            st.2.calls ++ (List.replicate j ⟨i, m, false⟩ ++ [⟨i, m, true⟩])⟩)) := by
  intro j
  induction j with
  | zero =>
    intro n log st hn hs
    obtain ⟨n, rfl⟩ := Nat.exists_eq_succ_of_ne_zero (Nat.pos_iff_ne_zero.mp hn)
    obtain ⟨pay0, env⟩ := st
    obtain ⟨_, h2⟩ := hs
    simp only [attemptWorld] at h2
    rcases hc : call env.world with ⟨⟨pay, err⟩, w1⟩
    rw [hc] at h2
    simp only [Prod.mk.injEq] at h2
    obtain ⟨rfl, rfl⟩ := h2
    simp [retry.loop, retried, hc, attemptWorld]
  | succ j ih =>
    intro n log st hn hs
    obtain ⟨n, rfl⟩ := Nat.exists_eq_succ_of_ne_zero (Nat.pos_iff_ne_zero.mp (by omega : 0 < n))
    obtain ⟨pay0, env⟩ := st
    obtain ⟨h1, h2⟩ := hs
    have h0 := h1 0 (Nat.succ_pos j)
    simp only [attemptWorld] at h0 h2
    rcases hc : call env.world with ⟨⟨pay, err⟩, w1⟩
    rw [hc] at h0 h2
    obtain ⟨e, rfl⟩ := Option.ne_none_iff_exists'.mp h0
    have hn0 : n ≠ 0 := by omega
    have hs1 : SucceedsAfter rt cfg call j (rt.sleep cfg.GetRetryDelay w1) payment := by
      refine ⟨fun k hk => ?_, h2⟩
      have := h1 (k + 1) (Nat.succ_lt_succ hk)
      simp only [attemptWorld] at this
      rw [hc] at this
      exact this
    have := ih n (log ++ [e])
      (pay, ⟨rt.sleep cfg.GetRetryDelay w1, env.calls ++ [⟨i, m, false⟩]⟩) (by omega) hs1
    simp only [retry.loop, retried, hc, Option.isNone_some, if_neg hn0, retryWait]
    rw [this]
    simp [attemptWorld, hc, List.replicate_succ, List.append_assoc]

/-- The retried provider call fails `j` times and then succeeds, within the
configured number of attempts. -/
theorem guarded_succeeds_after (rt : Runtime W) (cfg : Config) (p : PaymentProvider W)
    (call : W → (Option Payment × Option GoError) × W) (i : Nat) (m : Method) (env : Env W)
    (payment : Option Payment) (j : Nat) (hj : j < uint cfg.Retry.Attempts)
    (hs : SucceedsAfter rt cfg call j env.world payment) :
    guarded rt cfg p call i m env
      = some ((some payment, none), ⟨(call (attemptWorld rt cfg call j env.world)).2,
          env.calls ++ (List.replicate j ⟨i, m, false⟩ ++ [⟨i, m, true⟩])⟩) := by
  have hatt : uint cfg.Retry.Attempts ≠ 0 := by omega
  have := retry_loop_succeeds_after rt cfg call i m payment j (uint cfg.Retry.Attempts) []
    (none, env) hj hs
  simp [guarded, retry.Do, hatt, this]

end Bound

section Breaker

/-- A closed breaker whose counters show `k` requests, all failed, admits a
request within the current interval; when the request fails, the breaker
counts it and, if `ReadyToTrip` says so, opens for the time `timeout`. -/
theorem Execute_closed_failure {σ α : Type} (cb : CircuitBreaker) (now : σ → Int)
    (req : σ → Option ((Option α × Option GoError) × σ)) (s s1 : σ) (r : Option α) (e : GoError)
    (k : Nat) (hstate : cb.state = .StateClosed) (hcounts : cb.counts = ⟨k, 0, k, 0, k⟩)
    (hk : k < 3)
    (hexp : cb.expiry = none ∨ ∃ x, cb.expiry = some x ∧ now s ≤ x ∧ now s1 ≤ x)
    (hreq : req s = some ((r, some e), s1)) :
    cb.Execute now req s = some ((r, some e),
      (if cb.readyToTrip ⟨k + 1, 0, k + 1, 0, k + 1⟩ then
        { cb with
          state := .StateOpen
          generation := (cb.generation + 1) % 2 ^ 64
          counts := Counts.clear
          expiry := some (now s1 + cb.timeout) }
      else { cb with counts := ⟨k + 1, 0, k + 1, 0, k + 1⟩ }), s1) := by
  have hmod : uint32 (k + 1) = k + 1 := by
    unfold uint32
    exact Nat.mod_eq_of_lt (by omega)
  obtain ⟨maxRequests, interval, timeout, readyToTrip, state, generation, counts, expiry⟩ := cb
  simp only at hstate hcounts hexp
  subst hstate hcounts
  rcases hexp with rfl | ⟨x, rfl, h1, h2⟩
  · simp only [CircuitBreaker.Execute, CircuitBreaker.beforeRequest, CircuitBreaker.currentState,
      hreq, CircuitBreaker.afterRequest, CircuitBreaker.onFailure, Counts.onRequest,
      Counts.onFailure, hmod]
    by_cases htrip : readyToTrip ⟨k + 1, 0, k + 1, 0, k + 1⟩ = true
    · simp [hmod, htrip, CircuitBreaker.setState, CircuitBreaker.toNewGeneration]
    · simp [hmod, htrip]
  · have hs : ¬ (x < now s) := by omega
    have hs1 : ¬ (x < now s1) := by omega
    simp only [CircuitBreaker.Execute, CircuitBreaker.beforeRequest, CircuitBreaker.currentState,
      hreq, CircuitBreaker.afterRequest, CircuitBreaker.onFailure, Counts.onRequest,
      Counts.onFailure, hmod, expiryBefore]
    by_cases htrip : readyToTrip ⟨k + 1, 0, k + 1, 0, k + 1⟩ = true
    · simp [hmod, htrip, hs, hs1, CircuitBreaker.setState, CircuitBreaker.toNewGeneration]
    · simp [hmod, htrip, hs, hs1]

/-- An open breaker whose timeout has not elapsed rejects every request: the
request is not made and the breaker stays as it is. -/
theorem Execute_open {σ α : Type} (cb : CircuitBreaker) (now : σ → Int)
    (req : σ → Option ((Option α × Option GoError) × σ)) (s : σ) (x : Int)
    (hstate : cb.state = .StateOpen) (hexp : cb.expiry = some x) (hnow : now s ≤ x) :
    cb.Execute now req s = some ((none, some .ErrOpenState), cb, s) := by
  have hcur : cb.currentState (now s) = cb := by
    unfold CircuitBreaker.currentState
    have : ¬ (x < now s) := by omega
    simp [hstate, hexp, expiryBefore, this]
  unfold CircuitBreaker.Execute CircuitBreaker.beforeRequest
  simp [hcur, hstate]

end Breaker

section Trip

/-- The trip predicate of the test configuration on counters that show only
failures: false for one and for two requests, true for three. -/
theorem ReadyToTrip_three (cfg : Config) (hmin : cfg.CircuitBreaker.MinRequests = 3)
    (hratio : cfg.CircuitBreaker.FailureRatio = mkRat 3 5) :
    ReadyToTrip cfg ⟨1, 0, 1, 0, 1⟩ = false ∧ ReadyToTrip cfg ⟨2, 0, 2, 0, 2⟩ = false ∧
      ReadyToTrip cfg ⟨3, 0, 3, 0, 3⟩ = true := by
  refine ⟨?_, ?_, ?_⟩
  · simp [ReadyToTrip, hmin]
  · simp [ReadyToTrip, hmin]
  · have : float64.ofRat (mkRat 3 5) ≤ float64.nearest 3 3 := by decide
    simp [ReadyToTrip, hmin, hratio, this]

/-- The service `NewPaymentService` returns: the given providers and
configuration, an empty ledger, and a closed breaker with cleared counters,
the trip predicate of the configuration, a positive timeout, and an interval
that ends `interval` after the construction (it has no end when `interval`
is 0). -/
theorem NewPaymentService_fresh {W : Type} (providers : List (PaymentProvider W)) (cfg : Config)
    (t0 : Int) (s0 : PaymentService W) (h : NewPaymentService providers cfg t0 = .returned s0) :
    s0.providers = providers ∧ s0.config = cfg ∧ s0.transactions = (fun _ => none) ∧
      s0.circuitBreaker.state = .StateClosed ∧ s0.circuitBreaker.counts = ⟨0, 0, 0, 0, 0⟩ ∧
      s0.circuitBreaker.readyToTrip = ReadyToTrip cfg ∧ 0 < s0.circuitBreaker.timeout ∧
      s0.circuitBreaker.expiry
        = (if s0.circuitBreaker.interval = 0 then none
          else some (t0 + s0.circuitBreaker.interval)) := by
  unfold NewPaymentService at h
  split_ifs at h with hlen
  simp only [Outcome.returned.injEq] at h
  subst h
  refine ⟨rfl, rfl, rfl, ?_⟩
  simp only [NewCircuitBreaker, CircuitBreaker.toNewGeneration]
  split_ifs <;> simp_all [Counts.clear, defaultTimeout, Second]

end Trip

section TripSteps
variable {W : Type}

/-- A closed breaker admits every request. -/
theorem beforeRequest_closed (cb : CircuitBreaker) (t : Int) (h : cb.state = .StateClosed) :
    (cb.beforeRequest t).2.2 = none := by
  obtain ⟨maxRequests, interval, timeout, readyToTrip, state, generation, counts, expiry⟩ := cb
  simp only at h
  subst h
  simp only [CircuitBreaker.beforeRequest, CircuitBreaker.currentState,
    CircuitBreaker.toNewGeneration]
  split_ifs <;> simp_all

/-- The environment after one round of the dispatcher loop on a closed
breaker, for a provider that always fails: the one after the retried call. -/
theorem loop_single_closed (rt : Runtime W) (request : PaymentRequest) (p : PaymentProvider W)
    (i : Nat) (lastErr : Option GoError) (s : PaymentService W) (env : Env W)
    (hstate : s.circuitBreaker.state = .StateClosed)
    (hfail : AlwaysFails (p.ProcessPayment request)) (hatt : uint s.config.Retry.Attempts ≠ 0) :
    ∃ e, guarded rt s.config p (p.ProcessPayment request) i .ProcessPayment env
      = some ((none, some e), (ProcessPayment.loop rt request [p] i lastErr s env).2.2) := by
  obtain ⟨e, env1, hg, _⟩ := guarded_fails rt s.config p (p.ProcessPayment request) i
    .ProcessPayment env hfail hatt
  obtain ⟨cb, hE⟩ := exec_admitted rt s.config s.circuitBreaker p _ i .ProcessPayment env env1 _
    (beforeRequest_closed _ _ hstate) hg
  refine ⟨e, ?_⟩
  rw [hg]
  simp [ProcessPayment.loop, hE]

/-- One round of the dispatcher loop on a closed breaker that has counted `k`
requests, all failed, within the current interval, for a provider that always
fails: when the trip predicate is false on `k + 1` failures, the loop goes on
with the failure counted. -/
theorem loop_closed_counts (rt : Runtime W) (request : PaymentRequest) (p : PaymentProvider W)
    (rest : List (PaymentProvider W)) (i : Nat) (lastErr : Option GoError)
    (s : PaymentService W) (env : Env W) (k : Nat)
    (hstate : s.circuitBreaker.state = .StateClosed)
    (hcounts : s.circuitBreaker.counts = ⟨k, 0, k, 0, k⟩) (hk : k < 3)
    (hfail : AlwaysFails (p.ProcessPayment request)) (hatt : uint s.config.Retry.Attempts ≠ 0)
    (hexp : s.circuitBreaker.expiry = none ∨ ∃ x, s.circuitBreaker.expiry = some x ∧
      rt.now env.world ≤ x ∧
      rt.now (ProcessPayment.loop rt request [p] i lastErr s env).2.2.world ≤ x)
    (htrip : s.circuitBreaker.readyToTrip ⟨k + 1, 0, k + 1, 0, k + 1⟩ = false) :
    ∃ e, ProcessPayment.loop rt request (p :: rest) i lastErr s env
      = ProcessPayment.loop rt request rest (i + 1) (some e)
          { s with circuitBreaker := { s.circuitBreaker with counts := ⟨k + 1, 0, k + 1, 0, k + 1⟩ } }
          (ProcessPayment.loop rt request [p] i lastErr s env).2.2 := by
  obtain ⟨e, hg⟩ := loop_single_closed rt request p i lastErr s env hstate hfail hatt
  have hE := Execute_closed_failure s.circuitBreaker (fun x => rt.now x.world) _ env _ none e k
    hstate hcounts hk hexp hg
  rw [htrip] at hE
  generalize (ProcessPayment.loop rt request [p] i lastErr s env).2.2 = env1 at hg hE ⊢
  exact ⟨e, by simp [ProcessPayment.loop, hE]⟩

/-- The same round when the trip predicate is true on `k + 1` failures: the
loop goes on with the breaker open until `timeout` after the failure. -/
theorem loop_closed_trips (rt : Runtime W) (request : PaymentRequest) (p : PaymentProvider W)
    (rest : List (PaymentProvider W)) (i : Nat) (lastErr : Option GoError)
    (s : PaymentService W) (env : Env W) (k : Nat)
    (hstate : s.circuitBreaker.state = .StateClosed)
    (hcounts : s.circuitBreaker.counts = ⟨k, 0, k, 0, k⟩) (hk : k < 3)
    (hfail : AlwaysFails (p.ProcessPayment request)) (hatt : uint s.config.Retry.Attempts ≠ 0)
    (hexp : s.circuitBreaker.expiry = none ∨ ∃ x, s.circuitBreaker.expiry = some x ∧
      rt.now env.world ≤ x ∧
      rt.now (ProcessPayment.loop rt request [p] i lastErr s env).2.2.world ≤ x)
    (htrip : s.circuitBreaker.readyToTrip ⟨k + 1, 0, k + 1, 0, k + 1⟩ = true) :
    ∃ e cb, ProcessPayment.loop rt request (p :: rest) i lastErr s env
        = ProcessPayment.loop rt request rest (i + 1) (some e) { s with circuitBreaker := cb }
            (ProcessPayment.loop rt request [p] i lastErr s env).2.2 ∧
      cb.state = .StateOpen ∧
      cb.expiry = some (rt.now (ProcessPayment.loop rt request [p] i lastErr s env).2.2.world
        + s.circuitBreaker.timeout) := by
  obtain ⟨e, hg⟩ := loop_single_closed rt request p i lastErr s env hstate hfail hatt
  have hE := Execute_closed_failure s.circuitBreaker (fun x => rt.now x.world) _ env _ none e k
    hstate hcounts hk hexp hg
  rw [htrip] at hE
  generalize (ProcessPayment.loop rt request [p] i lastErr s env).2.2 = env1 at hg hE ⊢
  obtain ⟨cb, hE, h1, h2⟩ : ∃ cb, s.circuitBreaker.Execute (fun x => rt.now x.world)
      (guarded rt s.config p (p.ProcessPayment request) i .ProcessPayment) env
        = some ((none, some e), cb, env1) ∧ cb.state = .StateOpen ∧
      cb.expiry = some (rt.now env1.world + s.circuitBreaker.timeout) := ⟨_, hE, rfl, rfl⟩
  exact ⟨e, cb, by simp [ProcessPayment.loop, hE], h1, h2⟩

/-- The dispatcher loop on an open breaker whose timeout has not elapsed: no
provider is invoked, the service and the environment stay as they are, and
the error is the one of the open breaker. -/
theorem loop_open (rt : Runtime W) (request : PaymentRequest) (x : Int) :
    ∀ (ps : List (PaymentProvider W)) (i : Nat) (lastErr : Option GoError)
      (s : PaymentService W) (env : Env W),
      s.circuitBreaker.state = .StateOpen → s.circuitBreaker.expiry = some x →
      rt.now env.world ≤ x → ps ≠ [] →
      ProcessPayment.loop rt request ps i lastErr s env
        = (.returned (none, some (.wrapError "all providers failed, last error: "
            .ErrOpenState)), s, env) := by
  intro ps
  induction ps with
  | nil => intro i lastErr s env _ _ _ h; exact absurd rfl h
  | cons p rest ih =>
    intro i lastErr s env hstate hexp hnow _
    have hE := Execute_open s.circuitBreaker (fun e => rt.now e.world)
      (guarded rt s.config p (p.ProcessPayment request) i .ProcessPayment) env x hstate hexp hnow
    have hstep : ProcessPayment.loop rt request (p :: rest) i lastErr s env
        = ProcessPayment.loop rt request rest (i + 1) (some .ErrOpenState) s env := by
      simp [ProcessPayment.loop, hE]
    rw [hstep]
    cases rest with
    | nil => rfl
    | cons q rest => exact ih (i + 1) _ s env hstate hexp hnow (by simp)

end TripSteps

section TripProof

/-- Three failed requests in a row, within one interval, on a closed breaker
with cleared counters whose trip predicate is false on one and on two
failures and true on three: the breaker is open after the third, and until
its timeout has elapsed it rejects the next request without making it. -/
theorem Execute_three_failures {σ α : Type} (cb : CircuitBreaker) (now : σ → Int)
    (req1 req2 req3 : σ → Option ((Option α × Option GoError) × σ)) (x0 x1 x2 x3 : σ)
    (r1 r2 r3 : Option α) (e1 e2 e3 : GoError)
    (hstate : cb.state = .StateClosed) (hcounts : cb.counts = ⟨0, 0, 0, 0, 0⟩)
    (ht1 : cb.readyToTrip ⟨1, 0, 1, 0, 1⟩ = false) (ht2 : cb.readyToTrip ⟨2, 0, 2, 0, 2⟩ = false)
    (ht3 : cb.readyToTrip ⟨3, 0, 3, 0, 3⟩ = true)
    (hexp : cb.expiry = none ∨ ∃ x, cb.expiry = some x ∧
      now x0 ≤ x ∧ now x1 ≤ x ∧ now x2 ≤ x ∧ now x3 ≤ x)
    (h1 : req1 x0 = some ((r1, some e1), x1)) (h2 : req2 x1 = some ((r2, some e2), x2))
    (h3 : req3 x2 = some ((r3, some e3), x3)) :
    ∃ cb1 cb2 cb3,
      cb.Execute now req1 x0 = some ((r1, some e1), cb1, x1) ∧
      cb1.Execute now req2 x1 = some ((r2, some e2), cb2, x2) ∧
      cb2.Execute now req3 x2 = some ((r3, some e3), cb3, x3) ∧
      cb3.state = .StateOpen ∧
      ∀ (req4 : σ → Option ((Option α × Option GoError) × σ)) (x4 : σ),
        now x4 ≤ now x3 + cb.timeout →
        cb3.Execute now req4 x4 = some ((none, some .ErrOpenState), cb3, x4) := by
  have hE1 := Execute_closed_failure cb now req1 x0 x1 r1 e1 0 hstate hcounts (by omega)
    (by
      rcases hexp with h | ⟨x, hx, a, b, _, _⟩
      · exact Or.inl h
      · exact Or.inr ⟨x, hx, a, b⟩) h1
  simp only [Nat.zero_add, ht1] at hE1
  have hE2 := Execute_closed_failure { cb with counts := ⟨1, 0, 1, 0, 1⟩ } now req2 x1 x2 r2 e2 1
    hstate rfl (by omega)
    (by
      rcases hexp with h | ⟨x, hx, _, b, c, _⟩
      · exact Or.inl h
      · exact Or.inr ⟨x, hx, b, c⟩) h2
  simp only [Nat.reduceAdd, ht2] at hE2
  have hE3 := Execute_closed_failure { cb with counts := ⟨2, 0, 2, 0, 2⟩ } now req3 x2 x3 r3 e3 2
    hstate rfl (by omega)
    (by
      rcases hexp with h | ⟨x, hx, _, _, c, d⟩
      · exact Or.inl h
      · exact Or.inr ⟨x, hx, c, d⟩) h3
  simp only [Nat.reduceAdd, ht3] at hE3
  refine ⟨_, _, _, hE1, hE2, hE3, rfl, ?_⟩
  intro req4 x4 h4
  exact Execute_open _ now req4 x4 (now x3 + cb.timeout) rfl rfl h4

end TripProof

section DispatcherTrip
variable {W : Type}

/-- `ProcessPayment` on two providers that always fail, with a closed breaker
that has counted nothing yet and does not trip on one or two failures: both
guarded calls are counted as failures, and nothing else changes. -/
theorem process_two_failures (rt : Runtime W) (a b : PaymentProvider W) (s : PaymentService W)
    (request : PaymentRequest) (env : Env W)
    (hlist : s.providers = [a, b])
    (hstate : s.circuitBreaker.state = .StateClosed)
    (hcounts : s.circuitBreaker.counts = ⟨0, 0, 0, 0, 0⟩)
    (ht1 : s.circuitBreaker.readyToTrip ⟨1, 0, 1, 0, 1⟩ = false)
    (ht2 : s.circuitBreaker.readyToTrip ⟨2, 0, 2, 0, 2⟩ = false)
    (hatt : uint s.config.Retry.Attempts ≠ 0)
    (ha : AlwaysFails (a.ProcessPayment request)) (hb : AlwaysFails (b.ProcessPayment request))
    (hexp : s.circuitBreaker.expiry = none ∨ ∃ x, s.circuitBreaker.expiry = some x ∧
      rt.now env.world ≤ x ∧
      rt.now (ProcessPayment.loop rt request [a] 0 none s env).2.2.world ≤ x ∧
      rt.now (ProcessPayment rt s request env).2.2.world ≤ x) :
    (ProcessPayment rt s request env).2.1
      = { s with circuitBreaker := { s.circuitBreaker with counts := ⟨2, 0, 2, 0, 2⟩ } } := by
  obtain ⟨e1, hstep1⟩ := loop_closed_counts rt request a [b] 0 none s env 0 hstate hcounts
    (by omega) ha hatt
    (by
      rcases hexp with h | ⟨x, hx, h0, h1, _⟩
      · exact Or.inl h
      · exact Or.inr ⟨x, hx, h0, h1⟩) ht1
  simp only [Nat.zero_add] at hstep1
  have hPP : ProcessPayment rt s request env
      = ProcessPayment.loop rt request [b] 1 (some e1)
          { s with circuitBreaker := { s.circuitBreaker with counts := ⟨1, 0, 1, 0, 1⟩ } }
          (ProcessPayment.loop rt request [a] 0 none s env).2.2 := by
    have hunfold : ProcessPayment rt s request env
        = ProcessPayment.loop rt request [a, b] 0 none s env := by
      unfold ProcessPayment
      rw [hlist]
    rw [hunfold, hstep1]
  rw [hPP] at hexp ⊢
  obtain ⟨e2, hstep2⟩ := loop_closed_counts rt request b [] 1 (some e1)
    { s with circuitBreaker := { s.circuitBreaker with counts := ⟨1, 0, 1, 0, 1⟩ } }
    (ProcessPayment.loop rt request [a] 0 none s env).2.2 1 hstate rfl (by omega) hb hatt
    (by
      rcases hexp with h | ⟨x, hx, _, h1, h2⟩
      · exact Or.inl h
      · exact Or.inr ⟨x, hx, h1, h2⟩) ht2
  rw [hstep2]
  rfl

/-- `ProcessPayment` on two providers that always fail, with a closed breaker
that has counted two failures and trips on the third: the first guarded call
opens the breaker, the second is rejected, and the breaker is left open until
`timeout` after the failure of the first provider. -/
theorem process_trips (rt : Runtime W) (a b : PaymentProvider W) (s : PaymentService W)
    (request : PaymentRequest) (env : Env W)
    (hlist : s.providers = [a, b])
    (hstate : s.circuitBreaker.state = .StateClosed)
    (hcounts : s.circuitBreaker.counts = ⟨2, 0, 2, 0, 2⟩)
    (ht3 : s.circuitBreaker.readyToTrip ⟨3, 0, 3, 0, 3⟩ = true)
    (htimeout : 0 ≤ s.circuitBreaker.timeout)
    (hatt : uint s.config.Retry.Attempts ≠ 0)
    (ha : AlwaysFails (a.ProcessPayment request))
    (hexp : s.circuitBreaker.expiry = none ∨ ∃ x, s.circuitBreaker.expiry = some x ∧
      rt.now env.world ≤ x ∧
      rt.now (ProcessPayment.loop rt request [a] 0 none s env).2.2.world ≤ x) :
    ∃ cb, (ProcessPayment rt s request env).2.1 = { s with circuitBreaker := cb } ∧
      cb.state = .StateOpen ∧
      cb.expiry = some (rt.now (ProcessPayment.loop rt request [a] 0 none s env).2.2.world
        + s.circuitBreaker.timeout) := by
  obtain ⟨e1, cb, hstep, hopen, hexpiry⟩ := loop_closed_trips rt request a [b] 0 none s env 2
    hstate hcounts (by omega) ha hatt hexp ht3
  refine ⟨cb, ?_, hopen, hexpiry⟩
  have hunfold : ProcessPayment rt s request env
      = ProcessPayment.loop rt request [a, b] 0 none s env := by
    unfold ProcessPayment
    rw [hlist]
  rw [hunfold, hstep]
  rw [loop_open rt request _ [b] (0 + 1) (some e1) { s with circuitBreaker := cb } _ hopen
    hexpiry (by omega) (by simp)]

/-- `ProcessPayment` on an open breaker whose timeout has not elapsed ends in
"all providers failed" around the error of the open breaker; the service and
the environment are untouched. -/
theorem process_open (rt : Runtime W) (s : PaymentService W) (request : PaymentRequest)
    (env : Env W) (x : Int) (hne : s.providers ≠ [])
    (hstate : s.circuitBreaker.state = .StateOpen) (hexp : s.circuitBreaker.expiry = some x)
    (hnow : rt.now env.world ≤ x) :
    ProcessPayment rt s request env
      = (.returned (none, some (.wrapError "all providers failed, last error: "
          .ErrOpenState)), s, env) :=
  loop_open rt request x s.providers 0 none s env hstate hexp hnow hne

end DispatcherTrip

section Lookup
variable {W : Type}

/-- The lookup loop of `RefundPayment` finds nothing when no provider of the
list has the wanted `GetID()`. -/
theorem lookup_none (providerID : String) :
    ∀ (ps : List (PaymentProvider W)) (j : Nat),
      (∀ p ∈ ps, p.GetID ≠ providerID) → RefundPayment.lookup ps providerID j = none := by
  intro ps
  induction ps with
  | nil => intro j _; rfl
  | cons a rest ih =>
    intro j h
    have ha : a.GetID ≠ providerID := h a (List.mem_cons_self _ _)
    simp only [RefundPayment.lookup, ha, if_false]
    exact ih (j + 1) (fun p hp => h p (List.mem_cons_of_mem _ hp))

end Lookup

section Origin
variable {W : Type}

/-- A payment the bounded loop of `retry.Do` ends with is one the provider
method returned, with a nil error. -/
theorem retry_loop_origin (rt : Runtime W) (cfg : Config)
    (call : W → (Option Payment × Option GoError) × W) (i : Nat) (m : Method) :
    ∀ (n : Nat) (log : List GoError) (st : Option Payment × Env W) (payment : Option Payment)
      (env1 : Env W),
      retry.loop (retried call i m) (retryWait rt cfg) n log st = (none, (payment, env1)) →
      ∃ w, (call w).1 = (payment, none) := by
  intro n
  induction n with
  | zero => intro log st payment env1 h; simp [retry.loop] at h
  | succ n ih =>
    intro log st payment env1 h
    obtain ⟨pay0, env⟩ := st
    rcases hc : call env.world with ⟨⟨pay, err⟩, w1⟩
    cases err with
    | none =>
      simp only [retry.loop, retried, hc, Prod.mk.injEq, true_and] at h
      exact ⟨env.world, by rw [hc, h.1]⟩
    | some e =>
      simp only [retry.loop, retried, hc] at h
      by_cases hn : n = 0
      · simp [hn] at h
      · simp only [if_neg hn] at h
        exact ih _ _ _ _ h

/-- The same for the unbounded loop. -/
theorem retry_forever_origin (rt : Runtime W) (cfg : Config)
    (call : W → (Option Payment × Option GoError) × W) (i : Nat) (m : Method) :
    ∀ (spin : Nat) (st : Option Payment × Env W) (err : Option GoError)
      (payment : Option Payment) (env1 : Env W),
      retry.forever (retried call i m) (retryWait rt cfg) spin st = some (err, (payment, env1)) →
      ∃ w, (call w).1 = (payment, none) := by
  intro spin
  induction spin with
  | zero => intro st err payment env1 h; simp [retry.forever] at h
  | succ spin ih =>
    intro st err payment env1 h
    obtain ⟨pay0, env⟩ := st
    rcases hc : call env.world with ⟨⟨pay, e⟩, w1⟩
    cases e with
    | none =>
      simp only [retry.forever, retried, hc, Option.some.injEq, Prod.mk.injEq] at h
      exact ⟨env.world, by rw [hc, h.2.1]⟩
    | some e =>
      simp only [retry.forever, retried, hc] at h
      exact ih _ _ _ _ h

/-- A payment pointer the guarded closure returns is one the provider method
returned, with a nil error. -/
theorem guarded_origin (rt : Runtime W) (cfg : Config) (p : PaymentProvider W)
    (call : W → (Option Payment × Option GoError) × W) (i : Nat) (m : Method) (env env1 : Env W)
    (payment : Option Payment)
    (h : guarded rt cfg p call i m env = some ((some payment, none), env1)) :
    ∃ w, (call w).1 = (payment, none) := by
  unfold guarded retry.Do at h
  by_cases hz : uint cfg.Retry.Attempts = 0
  · simp only [hz, if_true] at h
    rcases hf : retry.forever (retried call i m) (retryWait rt cfg) rt.spin (none, env)
      with _ | ⟨e, pay, env2⟩
    · simp [hf] at h
    · cases e with
      | none =>
        simp only [hf, Option.some.injEq, Prod.mk.injEq, and_true] at h
        obtain ⟨h1, h2⟩ := h
        subst h1
        exact retry_forever_origin rt cfg call i m _ _ _ _ _ hf
      | some e => simp [hf] at h
  · simp only [hz, if_false] at h
    rcases hl : retry.loop (retried call i m) (retryWait rt cfg) (uint cfg.Retry.Attempts) []
      (none, env) with ⟨_ | e, pay, env2⟩
    · simp only [hl, Option.some.injEq, Prod.mk.injEq, and_true] at h
      obtain ⟨h1, h2⟩ := h
      subst h1
      exact retry_loop_origin rt cfg call i m _ _ _ _ _ hl
    · simp [hl] at h

/-- A payment pointer the breaker returns for a guarded provider call is one
the provider method returned, with a nil error. -/
theorem exec_origin (rt : Runtime W) (cfg : Config) (cb cb1 : CircuitBreaker)
    (p : PaymentProvider W) (call : W → (Option Payment × Option GoError) × W) (i : Nat)
    (m : Method) (env env1 : Env W) (payment : Option Payment)
    (h : cb.Execute (fun e => rt.now e.world) (guarded rt cfg p call i m) env
      = some ((some payment, none), cb1, env1)) :
    ∃ w, (call w).1 = (payment, none) := by
  rcases Execute_cases _ _ _ _ _ _ _ _ h with ⟨_, hne, _⟩ | ⟨_, hg, _⟩
  · exact absurd rfl hne
  · exact guarded_origin rt cfg p call i m env env1 payment hg

/-- A payment `ProcessPayment` returns is one a provider of the list returned
with a nil error, and it is recorded under its id for that provider. -/
theorem loop_origin (rt : Runtime W) (request : PaymentRequest) (pay : Payment) :
    ∀ (ps : List (PaymentProvider W)) (i : Nat) (lastErr : Option GoError)
      (s : PaymentService W) (env : Env W),
      (ProcessPayment.loop rt request ps i lastErr s env).1 = .returned (some pay, none) →
      ∃ prov, prov ∈ ps ∧ (∃ w, (prov.ProcessPayment request w).1 = (some pay, none)) ∧
        (ProcessPayment.loop rt request ps i lastErr s env).2.1.transactions
          = Function.update s.transactions pay.ID (some ⟨pay, prov.GetID, prov.GetName⟩) := by
  intro ps
  induction ps with
  | nil => intro i lastErr s env h; simp [ProcessPayment.loop] at h
  | cons p rest ih =>
    intro i lastErr s env h
    rcases loop_cons rt request p rest i lastErr s env with
      ⟨_, hl⟩ | ⟨e, k, cb, env1, _, _, hl⟩ | ⟨payment, k, cb, env1, hE, _, hl⟩
    · rw [hl] at h; cases h
    · rw [hl] at h ⊢
      obtain ⟨prov, hmem, hw, ht⟩ := ih (i + 1) (some e) { s with circuitBreaker := cb } env1 h
      exact ⟨prov, List.mem_cons_of_mem _ hmem, hw, ht⟩
    · rw [hl] at h ⊢
      cases payment with
      | none => cases h
      | some q =>
        simp only [Outcome.returned.injEq, Prod.mk.injEq, Option.some.injEq, and_true] at h
        subst h
        exact ⟨p, List.mem_cons_self _ _,
          exec_origin rt s.config s.circuitBreaker cb p _ i .ProcessPayment env env1 _ hE, rfl⟩

end Origin

section RefundError
variable {W : Type}

/-- `RefundPayment` keeps the provider list and the configuration; when it
returns an error, it returns a nil payment and the ledger is untouched. -/
theorem refund_error (rt : Runtime W) (s : PaymentService W) (paymentID : String)
    (request : RefundRequest) (env : Env W) :
    (RefundPayment rt s paymentID request env).2.1.providers = s.providers ∧
    (RefundPayment rt s paymentID request env).2.1.config = s.config ∧
    ∀ payment err,
      (RefundPayment rt s paymentID request env).1 = .returned (payment, some err) →
      payment = none ∧
        (RefundPayment rt s paymentID request env).2.1.transactions = s.transactions := by
  obtain ⟨r1, r2, r3⟩ := refund_rejected rt s paymentID request env
  rcases h : s.transactions paymentID with _ | tx
  · rw [r1 h]
    refine ⟨rfl, rfl, fun payment err hr => ?_⟩
    simp only [Outcome.returned.injEq, Prod.mk.injEq] at hr
    exact ⟨hr.1.symm, rfl⟩
  · by_cases hs : tx.Payment.Status = StatusAuthorized
    · rcases hl : RefundPayment.lookup s.providers tx.ProviderID 0 with _ | ⟨i, p⟩
      · rw [r3 tx h hs hl]
        refine ⟨rfl, rfl, fun payment err hr => ?_⟩
        simp only [Outcome.returned.injEq, Prod.mk.injEq] at hr
        exact ⟨hr.1.symm, rfl⟩
      · rcases refund_routed rt s paymentID request env tx i p h hs hl with
          ⟨_, hr⟩ | ⟨e, k, cb, env1, _, _, hr⟩ | ⟨payment, k, cb, env1, _, _, hr⟩
        · rw [hr]
          exact ⟨rfl, rfl, fun payment err hx => by cases hx⟩
        · rw [hr]
          refine ⟨rfl, rfl, fun payment err hx => ?_⟩
          simp only [Outcome.returned.injEq, Prod.mk.injEq] at hx
          exact ⟨hx.1.symm, rfl⟩
        · rw [hr]
          cases payment with
          | none => exact ⟨rfl, rfl, fun payment err hx => by cases hx⟩
          | some pay =>
            refine ⟨rfl, rfl, fun payment err hx => ?_⟩
            simp at hx
    · rw [r2 tx h hs]
      refine ⟨rfl, rfl, fun payment err hr => ?_⟩
      simp only [Outcome.returned.injEq, Prod.mk.injEq] at hr
      exact ⟨hr.1.symm, rfl⟩

/-- A refund of an AUTHORIZED entry whose provider is configured, when the
breaker admits the call and the retried provider call ends with a payment:
the payment is returned with the status REFUNDED. -/
theorem refund_succeeds (rt : Runtime W) (s : PaymentService W) (paymentID : String)
    (request : RefundRequest) (env env1 : Env W) (tx : Transaction) (i : Nat)
    (prov : PaymentProvider W) (p : Payment)
    (h : s.transactions paymentID = some tx) (hs : tx.Payment.Status = StatusAuthorized)
    (hl : RefundPayment.lookup s.providers tx.ProviderID 0 = some (i, prov))
    (hpass : (s.circuitBreaker.beforeRequest (rt.now env.world)).2.2 = none)
    (hg : guarded rt s.config prov (prov.RefundPayment paymentID request) i .RefundPayment env
      = some ((some (some p), none), env1)) :
    (RefundPayment rt s paymentID request env).1
      = .returned (some { p with Status := StatusRefunded }, none) := by
  obtain ⟨cb, hE⟩ := exec_admitted rt s.config s.circuitBreaker prov _ i .RefundPayment env env1 _
    hpass hg
  simp [RefundPayment, h, hs, hl, hE]

end RefundError

section Ownership
variable {W : Type}

/-- One call of the dispatcher keeps the provider list and deletes no ledger
entry; the entry under an id keeps its `ProviderID` and `ProviderName` when the
providers that issue the id are the one it names. -/
theorem apply_keeps_entry (rt : Runtime W) (paymentID : String) (op : Operation)
    (s : PaymentService W) (env : Env W) (tx : Transaction)
    (h : s.transactions paymentID = some tx) :
    (op.apply rt s env).2.1.providers = s.providers ∧
    ∃ tx1, (op.apply rt s env).2.1.transactions paymentID = some tx1 ∧
      (IssuedOnlyBy s.providers paymentID tx.ProviderID tx.ProviderName →
        tx1.ProviderID = tx.ProviderID ∧ tx1.ProviderName = tx.ProviderName) := by
  cases op with
  | ProcessPayment request =>
    simp only [Operation.apply]
    obtain ⟨hprov, _, _, hl⟩ := loop_spec rt request s.providers 0 none s env
    refine ⟨hprov, ?_⟩
    rcases hl with ⟨pay, prov, _, hr, _⟩ | ⟨ht, _⟩
    · obtain ⟨prov, hmem, ⟨w, hw⟩, ht⟩ := loop_origin rt request pay s.providers 0 none s env hr
      have ht1 : (ProcessPayment rt s request env).2.1.transactions
          = Function.update s.transactions pay.ID (some ⟨pay, prov.GetID, prov.GetName⟩) := ht
      by_cases hid : paymentID = pay.ID
      · refine ⟨⟨pay, prov.GetID, prov.GetName⟩, ?_, fun hiss => ?_⟩
        · rw [ht1, hid, Function.update_same]
        · exact hiss prov hmem request w pay hw hid.symm
      · refine ⟨tx, ?_, fun _ => ⟨rfl, rfl⟩⟩
        rw [ht1, Function.update_noteq hid]
        exact h
    · have ht1 : (ProcessPayment rt s request env).2.1.transactions = s.transactions := ht
      exact ⟨tx, by rw [ht1]; exact h, fun _ => ⟨rfl, rfl⟩⟩
  | RefundPayment other request =>
    simp only [Operation.apply]
    refine ⟨(refund_error rt s other request env).1, ?_⟩
    rcases refund_ledger rt s other request env with ⟨ht, _⟩ | ⟨tx0, pay, htx, _, _, ht⟩
    · exact ⟨tx, by rw [ht]; exact h, fun _ => ⟨rfl, rfl⟩⟩
    · by_cases hid : paymentID = other
      · subst hid
        rw [h] at htx
        simp only [Option.some.injEq] at htx
        subst htx
        exact ⟨{ tx with Payment := { pay with Status := StatusRefunded } },
          by rw [ht, Function.update_same], fun _ => ⟨rfl, rfl⟩⟩
      · exact ⟨tx, by rw [ht, Function.update_noteq hid]; exact h, fun _ => ⟨rfl, rfl⟩⟩
  | GetPayment other => exact ⟨rfl, tx, h, fun _ => ⟨rfl, rfl⟩⟩

end Ownership

/-! ## The journal of the provider invocations -/

section Journal
variable {W : Type}

theorem journaled_ProcessPayment (p : PaymentProvider W) (i : Nat) (request : PaymentRequest) :
    Journals (p.ProcessPayment request) i (.ProcessPayment request)
      ((p.journaled i).ProcessPayment request) :=
  fun _ => rfl

theorem journaled_RefundPayment (p : PaymentProvider W) (i : Nat) (paymentID : String)
    (request : RefundRequest) :
    Journals (p.RefundPayment paymentID request) i (.RefundPayment paymentID request)
      ((p.journaled i).RefundPayment paymentID request) :=
  fun _ => rfl

/-- The journal after the bounded loop of `retry.Do` on a journaled provider
method: the records added are invocations of that provider, asked the same,
answered as the provider answers; either the loop ends without error and the
last record is the one success, after failures, or it ends in the
`retry.Error` that lists the errors of the `n` records, all failures. -/
theorem retry_loop_journal (rt : Runtime W) (cfg : Config)
    (base : W → (Option Payment × Option GoError) × W) (i : Nat) (asked : Asked)
    (call : Journaled W → (Option Payment × Option GoError) × Journaled W)
    (hcall : Journals base i asked call) (k : Nat) (m : Method) :
    ∀ (n : Nat) (log : List GoError) (st : Option Payment × Env (Journaled W)),
      ∃ recs,
        (retry.loop (retried call k m) (retryWait rt.journaled cfg) n log st).2.2.world.2
          = st.2.world.2 ++ recs ∧
        (∀ r ∈ recs, r.provider = i ∧ r.asked = asked ∧ ∃ w, r.answer = (base w).1) ∧
        ((∃ init,
            (retry.loop (retried call k m) (retryWait rt.journaled cfg) n log st).1 = none ∧
            recs = init ++ [⟨i, asked,
              ((retry.loop (retried call k m) (retryWait rt.journaled cfg) n log st).2.1,
                none)⟩] ∧
            init.length < n ∧ ∀ r ∈ init, r.answer.2 ≠ none) ∨
          (∃ errs,
            (retry.loop (retried call k m) (retryWait rt.journaled cfg) n log st).1
              = some (.retryError (log ++ errs)) ∧
            recs.map (fun r => r.answer.2) = errs.map some ∧ errs.length = n)) := by
  intro n
  induction n with
  | zero =>
    intro log st
    exact ⟨[], by simp [retry.loop], by simp, Or.inr ⟨[], by simp [retry.loop], rfl, rfl⟩⟩
  | succ n ih =>
    intro log st
    obtain ⟨pay0, env⟩ := st
    have hc := hcall env.world
    rcases hb : base env.world.1 with ⟨⟨pay, err⟩, w1⟩
    rw [hb] at hc
    simp only at hc
    cases err with
    | none =>
      refine ⟨[⟨i, asked, (pay, none)⟩], ?_, ?_, Or.inl ⟨[], ?_, ?_, Nat.succ_pos n, by simp⟩⟩
      · simp [retry.loop, retried, hc]
      · intro r hr
        rw [List.mem_singleton] at hr
        subst hr
        exact ⟨rfl, rfl, env.world.1, by rw [hb]⟩
      · simp [retry.loop, retried, hc]
      · simp [retry.loop, retried, hc]
    | some e =>
      by_cases hn : n = 0
      · subst hn
        refine ⟨[⟨i, asked, (pay, some e)⟩], ?_, ?_, Or.inr ⟨[e], ?_, rfl, rfl⟩⟩
        · simp [retry.loop, retried, hc]
        · intro r hr
          rw [List.mem_singleton] at hr
          subst hr
          exact ⟨rfl, rfl, env.world.1, by rw [hb]⟩
        · simp [retry.loop, retried, hc]
      · have hstep : retry.loop (retried call k m) (retryWait rt.journaled cfg) (n + 1) log
            (pay0, env)
            = retry.loop (retried call k m) (retryWait rt.journaled cfg) n (log ++ [e])
              (retryWait rt.journaled cfg
                (pay, ⟨(w1, env.world.2 ++ [⟨i, asked, (pay, some e)⟩]),
                  env.calls ++ [⟨k, m, false⟩]⟩)) := by
          simp [retry.loop, retried, hc, hn]
        rw [hstep]
        obtain ⟨recs, hj, hall, hend⟩ := ih (log ++ [e])
          (retryWait rt.journaled cfg
            (pay, ⟨(w1, env.world.2 ++ [⟨i, asked, (pay, some e)⟩]),
              env.calls ++ [⟨k, m, false⟩]⟩))
        refine ⟨⟨i, asked, (pay, some e)⟩ :: recs, ?_, ?_, ?_⟩
        · rw [hj]
          simp [retryWait, Runtime.journaled]
        · intro r hr
          rcases List.mem_cons.mp hr with rfl | hr
          · exact ⟨rfl, rfl, env.world.1, by rw [hb]⟩
          · exact hall r hr
        · rcases hend with ⟨init, h1, h2, h3, h4⟩ | ⟨errs, h1, h2, h3⟩
          · refine Or.inl ⟨⟨i, asked, (pay, some e)⟩ :: init, h1, ?_, ?_, ?_⟩
            · rw [h2]; rfl
            · simp only [List.length_cons]; omega
            · intro r hr
              rcases List.mem_cons.mp hr with rfl | hr
              · simp
              · exact h4 r hr
          · refine Or.inr ⟨e :: errs, ?_, ?_, ?_⟩
            · rw [h1]; simp
            · simp [h2]
            · simp [h3]

/-- The journal after the unbounded loop of `retry.Do`, when it returns: it
returns no error, and the last record is the one success, after failures. -/
theorem retry_forever_journal (rt : Runtime W) (cfg : Config)
    (base : W → (Option Payment × Option GoError) × W) (i : Nat) (asked : Asked)
    (call : Journaled W → (Option Payment × Option GoError) × Journaled W)
    (hcall : Journals base i asked call) (k : Nat) (m : Method) :
    ∀ (spin : Nat) (st : Option Payment × Env (Journaled W))
      (res : Option GoError × (Option Payment × Env (Journaled W))),
      retry.forever (retried call k m) (retryWait rt.journaled cfg) spin st = some res →
      res.1 = none ∧ ∃ init,
        res.2.2.world.2 = st.2.world.2 ++ (init ++ [⟨i, asked, (res.2.1, none)⟩]) ∧
        (∃ w, (res.2.1, none) = (base w).1) ∧
        ∀ r ∈ init, (r.provider = i ∧ r.asked = asked ∧ ∃ w, r.answer = (base w).1) ∧
          r.answer.2 ≠ none := by
  intro spin
  induction spin with
  | zero => intro st res h; simp [retry.forever] at h
  | succ spin ih =>
    intro st res h
    obtain ⟨pay0, env⟩ := st
    have hc := hcall env.world
    rcases hb : base env.world.1 with ⟨⟨pay, err⟩, w1⟩
    rw [hb] at hc
    simp only at hc
    cases err with
    | none =>
      simp only [retry.forever, retried, hc, Option.some.injEq] at h
      subst h
      exact ⟨rfl, [], by simp, ⟨env.world.1, by rw [hb]⟩, by simp⟩
    | some e =>
      simp only [retry.forever, retried, hc] at h
      obtain ⟨h1, init, h2, hlast, h3⟩ := ih _ res h
      refine ⟨h1, ⟨i, asked, (pay, some e)⟩ :: init, ?_, hlast, ?_⟩
      · rw [h2]
        simp [retryWait, Runtime.journaled]
      · intro r hr
        rcases List.mem_cons.mp hr with rfl | hr
        · exact ⟨⟨rfl, rfl, env.world.1, by rw [hb]⟩, by simp⟩
        · exact h3 r hr

/-- The journal after the closure handed to the breaker, on a journaled
provider method: the records added are invocations of that provider; either
the closure returns the payment of the last record, the one success after
failures, or it returns the error that wraps the `retry.Error` listing the
errors of the records, `Attempts` failures. -/
theorem guarded_journal (rt : Runtime W) (cfg : Config) (p : PaymentProvider (Journaled W))
    (base : W → (Option Payment × Option GoError) × W) (i : Nat) (asked : Asked)
    (call : Journaled W → (Option Payment × Option GoError) × Journaled W)
    (hcall : Journals base i asked call) (k : Nat) (m : Method) (env env1 : Env (Journaled W))
    (result : Option (Option Payment)) (err : Option GoError)
    (h : guarded rt.journaled cfg p call k m env = some ((result, err), env1)) :
    ∃ recs, env1.world.2 = env.world.2 ++ recs ∧
      (∀ r ∈ recs, r.provider = i ∧ r.asked = asked ∧ ∃ w, r.answer = (base w).1) ∧
      ((∃ init payment, err = none ∧ result = some payment ∧
          recs = init ++ [⟨i, asked, (payment, none)⟩] ∧ (∀ r ∈ init, r.answer.2 ≠ none) ∧
          (uint cfg.Retry.Attempts ≠ 0 → init.length < uint cfg.Retry.Attempts)) ∨
        (∃ errs,
          err = some (.wrapError ("[provider: " ++ p.GetName ++ "] failed after retries: ")
            (.retryError errs)) ∧
          result = none ∧ recs.map (fun r => r.answer.2) = errs.map some ∧
          errs.length = uint cfg.Retry.Attempts ∧ uint cfg.Retry.Attempts ≠ 0)) := by
  unfold guarded retry.Do at h
  by_cases hz : uint cfg.Retry.Attempts = 0
  · simp only [hz, if_true] at h
    rcases hf : retry.forever (retried call k m) (retryWait rt.journaled cfg) rt.journaled.spin
      (none, env) with _ | ⟨e, pay, env2⟩
    · simp [hf] at h
    · obtain ⟨he, init, hj, hlast, hall⟩ := retry_forever_journal rt cfg base i asked call
        hcall k m _ _ _ hf
      simp only at he hj
      subst he
      simp only [hf, Option.some.injEq, Prod.mk.injEq] at h
      obtain ⟨⟨h1, h2⟩, h3⟩ := h
      subst h1 h2 h3
      refine ⟨init ++ [⟨i, asked, (pay, none)⟩], hj, ?_,
        Or.inl ⟨init, pay, rfl, rfl, rfl, fun r hr => (hall r hr).2, fun hne => absurd hz hne⟩⟩
      intro r hr
      rcases List.mem_append.mp hr with hr | hr
      · exact (hall r hr).1
      · rw [List.mem_singleton] at hr
        subst hr
        exact ⟨rfl, rfl, hlast⟩
  · simp only [hz, if_false] at h
    obtain ⟨recs, hj, hall, hend⟩ := retry_loop_journal rt cfg base i asked call hcall k m
      (uint cfg.Retry.Attempts) [] (none, env)
    rcases hl : retry.loop (retried call k m) (retryWait rt.journaled cfg)
      (uint cfg.Retry.Attempts) [] (none, env) with ⟨_ | e, pay, env2⟩
    · rw [hl] at hj hend h
      simp only [Option.some.injEq, Prod.mk.injEq] at h
      obtain ⟨⟨h1, h2⟩, h3⟩ := h
      subst h1 h2 h3
      rcases hend with ⟨init, _, h2, h3, h4⟩ | ⟨errs, h1, _, _⟩
      · exact ⟨recs, hj, hall, Or.inl ⟨init, pay, rfl, rfl, h2, h4, fun _ => h3⟩⟩
      · simp at h1
    · rw [hl] at hj hend h
      simp only [Option.some.injEq, Prod.mk.injEq] at h
      obtain ⟨⟨h1, h2⟩, h3⟩ := h
      subst h1 h2 h3
      rcases hend with ⟨init, h1, _, _, _⟩ | ⟨errs, h1, h2, h3⟩
      · simp at h1
      · simp only [Option.some.injEq, List.nil_append] at h1
        subst h1
        exact ⟨recs, hj, hall, Or.inr ⟨errs, rfl, rfl, h2, h3, hz⟩⟩

end Journal

section JournalDispatch
variable {W : Type}

/-- With a positive number of attempts the closure handed to the breaker
returns. -/
theorem guarded_returns {V : Type} (rt : Runtime V) (cfg : Config) (p : PaymentProvider V)
    (call : V → (Option Payment × Option GoError) × V) (k : Nat) (m : Method) (env : Env V)
    (hatt : uint cfg.Retry.Attempts ≠ 0) : guarded rt cfg p call k m env ≠ none := by
  unfold guarded retry.Do
  simp only [hatt, if_false]
  rcases retry.loop (retried call k m) (retryWait rt cfg) (uint cfg.Retry.Attempts) []
    (none, env) with ⟨_ | e, pay, env2⟩ <;> simp

/-- With a positive number of attempts a guarded provider call returns. -/
theorem exec_returns {V : Type} (rt : Runtime V) (cfg : Config) (cb : CircuitBreaker)
    (p : PaymentProvider V) (call : V → (Option Payment × Option GoError) × V) (k : Nat)
    (m : Method) (env : Env V) (hatt : uint cfg.Retry.Attempts ≠ 0) :
    cb.Execute (fun e => rt.now e.world) (guarded rt cfg p call k m) env ≠ none := by
  unfold CircuitBreaker.Execute
  rcases cb.beforeRequest (rt.now env.world) with ⟨cb0, g, _ | e⟩
  · simp only
    rcases hg : guarded rt cfg p call k m env with _ | ⟨r, env1⟩
    · exact absurd hg (guarded_returns rt cfg p call k m env hatt)
    · simp
  · simp

/-- The journal after one guarded call of a journaled provider method. The
breaker rejects the call, with one of its two errors, and nothing is written;
or it admits the call and the closure runs: the records are invocations of
that provider, ending with the one success whose payment is returned, or
`Attempts` failures whose errors the returned error lists. -/
theorem exec_journal (rt : Runtime W) (cfg : Config) (cb cb1 : CircuitBreaker)
    (p : PaymentProvider (Journaled W)) (base : W → (Option Payment × Option GoError) × W)
    (i : Nat) (asked : Asked)
    (call : Journaled W → (Option Payment × Option GoError) × Journaled W)
    (hcall : Journals base i asked call) (k : Nat) (m : Method) (env env1 : Env (Journaled W))
    (result : Option (Option Payment)) (err : Option GoError)
    (h : cb.Execute (fun e => rt.journaled.now e.world) (guarded rt.journaled cfg p call k m) env
      = some ((result, err), cb1, env1)) :
    ∃ recs, env1.world.2 = env.world.2 ++ recs ∧
      (∀ r ∈ recs, r.provider = i ∧ r.asked = asked ∧ ∃ w, r.answer = (base w).1) ∧
      ((∃ e, (cb.beforeRequest (rt.now env.world.1)).2.2 = some e ∧ err = some e ∧
          (e = .ErrOpenState ∨ e = .ErrTooManyRequests) ∧ result = none ∧ recs = []) ∨
        ((cb.beforeRequest (rt.now env.world.1)).2.2 = none ∧
          ∃ init payment, err = none ∧ result = some payment ∧
            recs = init ++ [⟨i, asked, (payment, none)⟩] ∧ (∀ r ∈ init, r.answer.2 ≠ none) ∧
            (uint cfg.Retry.Attempts ≠ 0 → init.length < uint cfg.Retry.Attempts)) ∨
        ((cb.beforeRequest (rt.now env.world.1)).2.2 = none ∧
          ∃ errs,
            err = some (.wrapError ("[provider: " ++ p.GetName ++ "] failed after retries: ")
              (.retryError errs)) ∧
            result = none ∧ recs.map (fun r => r.answer.2) = errs.map some ∧
            errs.length = uint cfg.Retry.Attempts ∧ uint cfg.Retry.Attempts ≠ 0)) := by
  rcases Execute_cases _ _ _ _ _ _ _ _ h with ⟨hb, hne, hr, hs, _⟩ | ⟨hb, hg, _⟩
  · obtain ⟨e, he⟩ := Option.ne_none_iff_exists'.mp hne
    subst he
    refine ⟨[], by rw [hs]; simp, by simp, Or.inl ⟨e, hb, rfl, ?_, hr, rfl⟩⟩
    exact beforeRequest_err _ _ _ hb
  · obtain ⟨recs, hj, hall, hend⟩ := guarded_journal rt cfg p base i asked call hcall k m env
      env1 result err hg
    refine ⟨recs, hj, hall, ?_⟩
    rcases hend with hs | hf
    · exact Or.inr (Or.inl ⟨hb, hs⟩)
    · exact Or.inr (Or.inr ⟨hb, hf⟩)

/-- The lookup loop of `RefundPayment` on journaled providers finds the
journaled provider at the position where it finds the provider. -/
theorem lookup_journaled (providerID : String) :
    ∀ (ps : List (PaymentProvider W)) (j : Nat),
      RefundPayment.lookup (journaledFrom j ps) providerID j
        = (RefundPayment.lookup ps providerID j).map (fun x => (x.1, x.2.journaled x.1)) := by
  intro ps
  induction ps with
  | nil => intro j; rfl
  | cons a rest ih =>
    intro j
    by_cases ha : a.GetID = providerID
    · have ha1 : (a.journaled j).GetID = providerID := ha
      simp [journaledFrom, RefundPayment.lookup, ha, ha1]
    · have ha1 : ¬ (a.journaled j).GetID = providerID := ha
      simp only [journaledFrom, RefundPayment.lookup, ha, ha1, if_false]
      exact ih (j + 1)

end JournalDispatch

section JournalLoop
variable {W : Type}

/-- The journal of the `ProcessPayment` loop over journaled providers, the
first of them at position `i`. The records added are `ProcessPayment`
invocations, with the request of the call, of providers of the list, answered
as these answer; the positions never decrease; every record but the last is a
failure; a payment returned is the answer of the last record, and it is
recorded for the provider of that record; and when the breaker admits the
first provider, with a positive number of attempts, the first record is an
invocation of that provider. -/
theorem loop_journal (rt : Runtime W) (request : PaymentRequest) :
    ∀ (bps : List (PaymentProvider W)) (i : Nat) (lastErr : Option GoError)
      (s : PaymentService (Journaled W)) (env : Env (Journaled W)),
      ∃ new,
        (ProcessPayment.loop rt.journaled request (journaledFrom i bps) i lastErr s env).2.2.world.2
          = env.world.2 ++ new ∧
        (∀ r ∈ new, r.asked = .ProcessPayment request ∧ i ≤ r.provider ∧
          ∃ p, bps[r.provider - i]? = some p ∧ ∃ w, r.answer = (p.ProcessPayment request w).1) ∧
        new.Pairwise (fun a b => a.provider ≤ b.provider) ∧
        (∀ r ∈ new.dropLast, r.answer.2 ≠ none) ∧
        (∀ pay,
          (ProcessPayment.loop rt.journaled request (journaledFrom i bps) i lastErr s env).1
            = .returned (some pay, none) →
          ∃ r p, new.getLast? = some r ∧ r.answer = (some pay, none) ∧
            bps[r.provider - i]? = some p ∧
            (ProcessPayment.loop rt.journaled request (journaledFrom i bps) i lastErr s
              env).2.1.transactions
              = Function.update s.transactions pay.ID (some ⟨pay, p.GetID, p.GetName⟩)) ∧
        (bps ≠ [] → (s.circuitBreaker.beforeRequest (rt.now env.world.1)).2.2 = none →
          uint s.config.Retry.Attempts ≠ 0 → ∃ r, new.head? = some r ∧ r.provider = i) := by
  intro bps
  induction bps with
  | nil =>
    intro i lastErr s env
    exact ⟨[], by simp [journaledFrom, ProcessPayment.loop], by simp, by simp, by simp,
      by simp [journaledFrom, ProcessPayment.loop], by simp⟩
  | cons p rest ih =>
    intro i lastErr s env
    have hcall := journaled_ProcessPayment p i request
    have hmem : ∀ recs : List Invocation,
        (∀ r ∈ recs, r.provider = i ∧ r.asked = Asked.ProcessPayment request ∧
          ∃ w, r.answer = (p.ProcessPayment request w).1) →
        ∀ r ∈ recs, r.asked = .ProcessPayment request ∧ i ≤ r.provider ∧
          ∃ q, (p :: rest)[r.provider - i]? = some q ∧
            ∃ w, r.answer = (q.ProcessPayment request w).1 := by
      intro recs hall r hr
      obtain ⟨h1, h2, h3⟩ := hall r hr
      exact ⟨h2, by omega, p, by simp [h1], h3⟩
    have hpw : ∀ recs : List Invocation, (∀ r ∈ recs, r.provider = i) →
        recs.Pairwise (fun a b => a.provider ≤ b.provider) := by
      intro recs hall
      rw [List.pairwise_iff_forall_sublist]
      intro a b hab
      have ha := hall a (hab.subset (by simp))
      have hb := hall b (hab.subset (by simp))
      omega
    have hjf : journaledFrom i (p :: rest) = p.journaled i :: journaledFrom (i + 1) rest := rfl
    rw [hjf]
    rcases loop_cons rt.journaled request (p.journaled i) (journaledFrom (i + 1) rest) i lastErr
        s env with
      ⟨hnone, hl⟩ | ⟨e, k, cb, env1, hE, _, hl⟩ | ⟨payment, k, cb, env1, hE, _, hl⟩
    · rw [hl]
      refine ⟨[], by simp, by simp, by simp, by simp, by simp, fun _ hb hatt => ?_⟩
      exact absurd hnone (exec_returns rt.journaled s.config s.circuitBreaker (p.journaled i)
        _ i .ProcessPayment env hatt)
    · rw [hl]
      obtain ⟨recs, hj, hall, hend⟩ := exec_journal rt s.config s.circuitBreaker cb
        (p.journaled i) _ i _ _ hcall i .ProcessPayment env env1 none (some e) hE
      obtain ⟨new, hj2, hall2, hpw2, hdl2, hret2, _⟩ :=
        ih (i + 1) (some e) { s with circuitBreaker := cb } env1
      have hfail : ∀ r ∈ recs, r.answer.2 ≠ none := by
        rcases hend with ⟨_, _, _, _, _, hnil⟩ | ⟨_, _, _, h1, _⟩ | ⟨_, errs, _, _, hmap, _, _⟩
        · rw [hnil]; simp
        · simp at h1
        · intro r hr hnone
          have : r.answer.2 ∈ recs.map (fun r => r.answer.2) := List.mem_map_of_mem _ hr
          rw [hmap, hnone] at this
          simp at this
      refine ⟨recs ++ new, ?_, ?_, ?_, ?_, ?_, ?_⟩
      · rw [hj2, hj, List.append_assoc]
      · intro r hr
        rcases List.mem_append.mp hr with hr | hr
        · exact hmem recs hall r hr
        · obtain ⟨h1, h2, q, h3, h4⟩ := hall2 r hr
          refine ⟨h1, by omega, q, ?_, h4⟩
          have hidx : r.provider - i = (r.provider - (i + 1)) + 1 := by omega
          rw [hidx, List.getElem?_cons_succ]
          exact h3
      · rw [List.pairwise_append]
        refine ⟨hpw recs (fun r hr => (hall r hr).1), hpw2, ?_⟩
        intro a ha b hb
        have h1 := (hall a ha).1
        have h2 := (hall2 b hb).2.1
        omega
      · intro r hr
        by_cases hnil : new = []
        · subst hnil
          rw [List.append_nil] at hr
          exact hfail r (List.mem_of_mem_dropLast hr)
        · rw [List.dropLast_append_of_ne_nil _ hnil] at hr
          rcases List.mem_append.mp hr with hr | hr
          · exact hfail r hr
          · exact hdl2 r hr
      · intro pay hp
        obtain ⟨r, q, h1, h2, h3, h4⟩ := hret2 pay hp
        have hne : new ≠ [] := by
          intro hnil
          rw [hnil] at h1
          simp at h1
        have hrmem : r ∈ new := by
          obtain ⟨ys, hys⟩ := List.getLast?_eq_some_iff.mp h1
          rw [hys]; simp
        have hi := (hall2 r hrmem).2.1
        refine ⟨r, q, ?_, h2, ?_, h4⟩
        · rw [List.getLast?_append_of_ne_nil _ hne]
          exact h1
        · have hidx : r.provider - i = (r.provider - (i + 1)) + 1 := by omega
          rw [hidx, List.getElem?_cons_succ]
          exact h3
      · intro _ hb hatt
        rcases hend with ⟨e0, hb0, _⟩ | ⟨_, _, _, h1, _⟩ | ⟨_, errs, _, _, hmap, hlen, _⟩
        · rw [hb] at hb0
          simp at hb0
        · simp at h1
        · cases recs with
          | nil =>
            simp only [List.map_nil] at hmap
            have : errs = [] := by
              cases errs with
              | nil => rfl
              | cons a t => simp at hmap
            rw [this] at hlen
            exact absurd hlen.symm hatt
          | cons r0 t => exact ⟨r0, rfl, (hall r0 (List.mem_cons_self _ _)).1⟩
    · obtain ⟨recs, hj, hall, hend⟩ := exec_journal rt s.config s.circuitBreaker cb
        (p.journaled i) _ i _ _ hcall i .ProcessPayment env env1 (some payment) none hE
      have hshape : ∃ init, recs = init ++ [⟨i, .ProcessPayment request, (payment, none)⟩] ∧
          ∀ r ∈ init, r.answer.2 ≠ none := by
        rcases hend with ⟨_, _, h1, _⟩ | ⟨_, init, pay1, _, h2, h3, h4, _⟩ | ⟨_, _, h1, _⟩
        · simp at h1
        · simp only [Option.some.injEq] at h2
          subst h2
          exact ⟨init, h3, h4⟩
        · simp at h1
      obtain ⟨init, hrecs, hinit⟩ := hshape
      have hjournal : (ProcessPayment.loop rt.journaled request
          (p.journaled i :: journaledFrom (i + 1) rest) i lastErr s env).2.2.world.2
          = env.world.2 ++ recs := by
        rw [hl]
        cases payment <;> exact hj
      refine ⟨recs, hjournal, hmem recs hall, hpw recs (fun r hr => (hall r hr).1), ?_, ?_, ?_⟩
      · intro r hr
        rw [hrecs, List.dropLast_concat] at hr
        exact hinit r hr
      · intro pay hp
        rw [hl] at hp ⊢
        cases payment with
        | none => cases hp
        | some q =>
          simp only [Outcome.returned.injEq, Prod.mk.injEq, Option.some.injEq, and_true] at hp
          subst hp
          refine ⟨⟨i, .ProcessPayment request, (some q, none)⟩, p, ?_, rfl, by simp, rfl⟩
          rw [hrecs]
          simp
      · intro _ _ _
        rw [hrecs]
        cases init with
        | nil => exact ⟨_, rfl, rfl⟩
        | cons r0 t =>
          refine ⟨r0, rfl, ?_⟩
          exact (hall r0 (by rw [hrecs]; simp)).1

end JournalLoop

section JournalFailure
variable {W : Type}

/-- The `ProcessPayment` loop over journaled providers when every invocation
of its journal is a failure, with a positive number of attempts: it returns
the error "all providers failed" and leaves the ledger as it is; the error it
wraps is the one passed in when there is no provider, and otherwise the one
obtained from the last provider. -/
theorem loop_journal_fail (rt : Runtime W) (request : PaymentRequest) :
    ∀ (bps : List (PaymentProvider W)) (i : Nat) (lastErr : Option GoError)
      (s : PaymentService (Journaled W)) (env : Env (Journaled W)) (new : List Invocation),
      (ProcessPayment.loop rt.journaled request (journaledFrom i bps) i lastErr s env).2.2.world.2
        = env.world.2 ++ new →
      (∀ r ∈ new, r.answer.2 ≠ none) → uint s.config.Retry.Attempts ≠ 0 →
      (ProcessPayment.loop rt.journaled request (journaledFrom i bps) i lastErr s
        env).2.1.transactions = s.transactions ∧
      ∃ E,
        (ProcessPayment.loop rt.journaled request (journaledFrom i bps) i lastErr s env).1
          = .returned (none, some (allProvidersFailed E)) ∧
        (bps = [] → E = lastErr) ∧
        (∀ init last, bps = init ++ [last] →
          ∃ e, E = some e ∧
            ObtainedFrom e last (i + init.length) (uint s.config.Retry.Attempts) new) := by
  intro bps
  induction bps with
  | nil =>
    intro i lastErr s env new _ _ _
    refine ⟨rfl, lastErr, rfl, fun _ => rfl, fun init last h => ?_⟩
    simp at h
  | cons p rest ih =>
    intro i lastErr s env new hnew hfail hatt
    have hcall := journaled_ProcessPayment p i request
    have hjf : journaledFrom i (p :: rest) = p.journaled i :: journaledFrom (i + 1) rest := rfl
    rw [hjf] at hnew ⊢
    rcases loop_cons rt.journaled request (p.journaled i) (journaledFrom (i + 1) rest) i lastErr
        s env with
      ⟨hnone, _⟩ | ⟨e, k, cb, env1, hE, _, hl⟩ | ⟨payment, k, cb, env1, hE, _, hl⟩
    · exact absurd hnone (exec_returns rt.journaled s.config s.circuitBreaker (p.journaled i)
        _ i .ProcessPayment env hatt)
    · rw [hl] at hnew ⊢
      obtain ⟨recs, hj, hall, hend⟩ := exec_journal rt s.config s.circuitBreaker cb
        (p.journaled i) _ i _ _ hcall i .ProcessPayment env env1 none (some e) hE
      obtain ⟨new1, hj1, _⟩ := loop_journal rt request rest (i + 1) (some e)
        { s with circuitBreaker := cb } env1
      have hsplit : new = recs ++ new1 := by
        have h2 : env.world.2 ++ new = env.world.2 ++ (recs ++ new1) := by
          rw [← hnew, hj1, hj, List.append_assoc]
        exact List.append_cancel_left h2
      have hfail1 : ∀ r ∈ new1, r.answer.2 ≠ none := by
        intro r hr
        exact hfail r (by rw [hsplit]; exact List.mem_append_right _ hr)
      obtain ⟨htx, E, hret, hnil, hlast⟩ :=
        ih (i + 1) (some e) { s with circuitBreaker := cb } env1 new1 hj1 hfail1 hatt
      refine ⟨htx, E, hret, fun h => by simp at h, fun init last hlist => ?_⟩
      cases rest with
      | nil =>
        -- the provider is the last one
        have hE0 : E = some e := hnil rfl
        have hinit : init = [] ∧ last = p := by
          cases init with
          | nil => simp at hlist; exact ⟨rfl, hlist.symm⟩
          | cons a t =>
            simp only [List.cons_append, List.cons.injEq] at hlist
            have := congrArg List.length hlist.2
            simp at this
        obtain ⟨h1, h2⟩ := hinit
        subst h1 h2
        have hnew1 : new1 = [] := by
          have h3 : env1.world.2 ++ new1 = env1.world.2 ++ [] := by
            rw [← hj1]; simp [journaledFrom, ProcessPayment.loop]
          exact List.append_cancel_left h3
        rw [hnew1, List.append_nil] at hsplit
        subst hsplit
        refine ⟨e, hE0, ?_⟩
        rcases hend with ⟨e0, _, he, hsent, _, hrecs⟩ | ⟨_, _, _, h1, _⟩ |
          ⟨_, errs, he, _, hmap, hlen, _⟩
        · simp only [Option.some.injEq] at he
          subst he
          exact Or.inl ⟨hsent, by rw [hrecs]; simp⟩
        · simp at h1
        · simp only [Option.some.injEq] at he
          refine Or.inr ⟨errs, he, hlen, ?_⟩
          have hfilter : new.filter (fun r => decide (r.provider = i + ([] : List
              (PaymentProvider W)).length)) = new := by
            rw [List.filter_eq_self]
            intro r hr
            simp [(hall r hr).1]
          rw [hfilter]
          exact hmap
      | cons q rest1 =>
        -- the last provider comes later
        have hinit : ∃ init1, init = p :: init1 ∧ q :: rest1 = init1 ++ [last] := by
          cases init with
          | nil =>
            simp only [List.nil_append, List.cons.injEq] at hlist
            exact absurd hlist.2 (by simp)
          | cons a t =>
            simp only [List.cons_append, List.cons.injEq] at hlist
            exact ⟨t, by rw [hlist.1], hlist.2⟩
        obtain ⟨init1, h1, h2⟩ := hinit
        subst h1
        obtain ⟨e1, hE1, hobt⟩ := hlast init1 last h2
        refine ⟨e1, hE1, ?_⟩
        have hidx : i + (p :: init1).length = i + 1 + init1.length := by
          simp only [List.length_cons]; omega
        rw [hidx, hsplit]
        have hrecs : ∀ r ∈ recs, r.provider ≠ i + 1 + init1.length := by
          intro r hr
          have := (hall r hr).1
          omega
        rcases hobt with ⟨hsent, hno⟩ | ⟨errs, he, hlen, hmap⟩
        · refine Or.inl ⟨hsent, fun r hr => ?_⟩
          rcases List.mem_append.mp hr with hr | hr
          · exact hrecs r hr
          · exact hno r hr
        · refine Or.inr ⟨errs, he, hlen, ?_⟩
          have hnone : recs.filter (fun r => decide (r.provider = i + 1 + init1.length)) = [] := by
            rw [List.filter_eq_nil_iff]
            intro r hr
            simp [hrecs r hr]
          rw [List.filter_append, hnone, List.nil_append]
          exact hmap
    · -- a success is a record without error
      obtain ⟨recs, hj, hall, hend⟩ := exec_journal rt s.config s.circuitBreaker cb
        (p.journaled i) _ i _ _ hcall i .ProcessPayment env env1 (some payment) none hE
      have hjournal : env.world.2 ++ new = env.world.2 ++ recs := by
        rw [← hnew, hl]
        cases payment <;> exact hj
      have hsplit : new = recs := List.append_cancel_left hjournal
      rcases hend with ⟨_, _, h1, _⟩ | ⟨_, init, pay1, _, _, h3, _, _⟩ | ⟨_, _, h1, _⟩
      · simp at h1
      · have hmem : (⟨i, .ProcessPayment request, (pay1, none)⟩ : Invocation) ∈ new := by
          rw [hsplit, h3]; simp
        exact absurd rfl (hfail _ hmem)
      · simp at h1

end JournalFailure

/-! ## The journal does not change the run -/

section Plain
variable {W : Type}

/-- The loop of `retry.Do` commutes with a map of the state that the retried
function and the wait commute with. -/
theorem retry_loop_map {σ τ : Type} (f : σ → τ) (func : σ → Option GoError × σ)
    (func1 : τ → Option GoError × τ) (wait : σ → σ) (wait1 : τ → τ)
    (hfunc : ∀ s, func1 (f s) = ((func s).1, f (func s).2))
    (hwait : ∀ s, wait1 (f s) = f (wait s)) :
    ∀ (n : Nat) (log : List GoError) (s : σ),
      retry.loop func1 wait1 n log (f s)
        = ((retry.loop func wait n log s).1, f (retry.loop func wait n log s).2) := by
  intro n
  induction n with
  | zero => intro log s; rfl
  | succ n ih =>
    intro log s
    have h := hfunc s
    rcases hr : func s with ⟨_ | e, s1⟩
    · rw [hr] at h
      simp [retry.loop, hr, h]
    · rw [hr] at h
      by_cases hn : n = 0
      · simp [retry.loop, hr, h, hn]
      · simp only [retry.loop, hr, h, hn, if_false]
        rw [hwait]
        exact ih _ _

theorem retry_forever_map {σ τ : Type} (f : σ → τ) (func : σ → Option GoError × σ)
    (func1 : τ → Option GoError × τ) (wait : σ → σ) (wait1 : τ → τ)
    (hfunc : ∀ s, func1 (f s) = ((func s).1, f (func s).2))
    (hwait : ∀ s, wait1 (f s) = f (wait s)) :
    ∀ (spin : Nat) (s : σ),
      retry.forever func1 wait1 spin (f s)
        = (retry.forever func wait spin s).map (fun r => (r.1, f r.2)) := by
  intro spin
  induction spin with
  | zero => intro s; rfl
  | succ spin ih =>
    intro s
    have h := hfunc s
    rcases hr : func s with ⟨_ | e, s1⟩
    · rw [hr] at h
      simp [retry.forever, hr, h]
    · rw [hr] at h
      simp only [retry.forever, hr, h]
      rw [hwait]
      exact ih _

/-- The breaker commutes with a map of the state that the clock and the
request commute with. -/
theorem Execute_map {σ τ α : Type} (f : σ → τ) (cb : CircuitBreaker) (now : σ → Int)
    (now1 : τ → Int) (req : σ → Option ((Option α × Option GoError) × σ))
    (req1 : τ → Option ((Option α × Option GoError) × τ)) (s : σ)
    (hnow : ∀ x, now1 (f x) = now x)
    (hreq : req1 (f s) = (req s).map (fun r => (r.1, f r.2))) :
    cb.Execute now1 req1 (f s) = (cb.Execute now req s).map (fun r => (r.1, r.2.1, f r.2.2)) := by
  unfold CircuitBreaker.Execute
  rw [hnow, hreq]
  rcases cb.beforeRequest (now s) with ⟨cb0, g, _ | e⟩
  · rcases req s with _ | ⟨r, s1⟩
    · rfl
    · simp [hnow]
  · rfl

/-- The closure handed to the breaker returns the same on a journaled
provider method and on the method itself. -/
theorem guarded_plain (rt : Runtime W) (cfg : Config) (p : PaymentProvider (Journaled W))
    (p0 : PaymentProvider W) (base : W → (Option Payment × Option GoError) × W) (i : Nat)
    (asked : Asked) (call : Journaled W → (Option Payment × Option GoError) × Journaled W)
    (hcall : Journals base i asked call) (hname : p.GetName = p0.GetName) (k : Nat) (m : Method)
    (env : Env (Journaled W)) :
    guarded rt cfg p0 base k m env.plain
      = (guarded rt.journaled cfg p call k m env).map (fun r => (r.1, r.2.plain)) := by
  have hfunc : ∀ st : Option Payment × Env (Journaled W),
      retried base k m (st.1, st.2.plain)
        = ((retried call k m st).1, ((retried call k m st).2.1, (retried call k m st).2.2.plain)) := by
    intro st
    obtain ⟨pay0, e⟩ := st
    simp [retried, hcall e.world, Env.plain]
  have hwait : ∀ st : Option Payment × Env (Journaled W),
      retryWait rt cfg (st.1, st.2.plain)
        = ((retryWait rt.journaled cfg st).1, (retryWait rt.journaled cfg st).2.plain) := by
    intro st
    obtain ⟨pay0, e⟩ := st
    rfl
  unfold guarded retry.Do
  by_cases hz : uint cfg.Retry.Attempts = 0
  · simp only [hz, if_true]
    have h := retry_forever_map (fun st : Option Payment × Env (Journaled W) => (st.1, st.2.plain))
      (retried call k m) (retried base k m) (retryWait rt.journaled cfg) (retryWait rt cfg)
      hfunc hwait rt.spin (none, env)
    simp only at h
    have hspin : rt.journaled.spin = rt.spin := rfl
    rw [h, hspin]
    rcases retry.forever (retried call k m) (retryWait rt.journaled cfg) rt.spin (none, env)
      with _ | ⟨_ | e, pay, env2⟩ <;> simp [hname]
  · simp only [hz, if_false]
    have h := retry_loop_map (fun st : Option Payment × Env (Journaled W) => (st.1, st.2.plain))
      (retried call k m) (retried base k m) (retryWait rt.journaled cfg) (retryWait rt cfg)
      hfunc hwait (uint cfg.Retry.Attempts) [] (none, env)
    simp only at h
    rw [h]
    rcases retry.loop (retried call k m) (retryWait rt.journaled cfg) (uint cfg.Retry.Attempts)
      [] (none, env) with ⟨_ | e, pay, env2⟩ <;> simp [hname]

/-- A guarded provider call returns the same on a journaled provider method
and on the method itself, and leaves the same breaker. -/
theorem exec_plain (rt : Runtime W) (cfg : Config) (cb : CircuitBreaker)
    (p : PaymentProvider (Journaled W)) (p0 : PaymentProvider W)
    (base : W → (Option Payment × Option GoError) × W) (i : Nat) (asked : Asked)
    (call : Journaled W → (Option Payment × Option GoError) × Journaled W)
    (hcall : Journals base i asked call) (hname : p.GetName = p0.GetName) (k : Nat) (m : Method)
    (env : Env (Journaled W)) :
    cb.Execute (fun e => rt.now e.world) (guarded rt cfg p0 base k m) env.plain
      = (cb.Execute (fun e => rt.journaled.now e.world) (guarded rt.journaled cfg p call k m)
          env).map (fun r => (r.1, r.2.1, r.2.2.plain)) :=
  Execute_map Env.plain cb (fun e => rt.journaled.now e.world) (fun e => rt.now e.world)
    (guarded rt.journaled cfg p call k m) (guarded rt cfg p0 base k m) env (fun _ => rfl)
    (guarded_plain rt cfg p p0 base i asked call hcall hname k m env)

/-- The `ProcessPayment` loop returns the same over journaled providers and
over the providers themselves, with the same ledger, breaker and world. -/
theorem loop_plain (rt : Runtime W) (request : PaymentRequest) :
    ∀ (bps : List (PaymentProvider W)) (i : Nat) (lastErr : Option GoError)
      (s : PaymentService (Journaled W)) (s0 : PaymentService W) (env : Env (Journaled W)),
      s.circuitBreaker = s0.circuitBreaker → s.transactions = s0.transactions →
      s.config = s0.config →
      (ProcessPayment.loop rt.journaled request (journaledFrom i bps) i lastErr s env).1
        = (ProcessPayment.loop rt request bps i lastErr s0 env.plain).1 ∧
      (ProcessPayment.loop rt.journaled request (journaledFrom i bps) i lastErr s
          env).2.1.circuitBreaker
        = (ProcessPayment.loop rt request bps i lastErr s0 env.plain).2.1.circuitBreaker ∧
      (ProcessPayment.loop rt.journaled request (journaledFrom i bps) i lastErr s
          env).2.1.transactions
        = (ProcessPayment.loop rt request bps i lastErr s0 env.plain).2.1.transactions ∧
      (ProcessPayment.loop rt.journaled request (journaledFrom i bps) i lastErr s env).2.2.plain
        = (ProcessPayment.loop rt request bps i lastErr s0 env.plain).2.2 := by
  intro bps
  induction bps with
  | nil =>
    intro i lastErr s s0 env h1 h2 h3
    exact ⟨rfl, h1, h2, rfl⟩
  | cons p rest ih =>
    intro i lastErr s s0 env h1 h2 h3
    have hjf : journaledFrom i (p :: rest) = p.journaled i :: journaledFrom (i + 1) rest := rfl
    rw [hjf]
    have hE := exec_plain rt s0.config s0.circuitBreaker (p.journaled i) p
      (p.ProcessPayment request) i (.ProcessPayment request) _
      (journaled_ProcessPayment p i request) rfl i .ProcessPayment env
    rw [← h1, ← h3] at hE
    rcases hEj : s.circuitBreaker.Execute (fun e => rt.journaled.now e.world)
        (guarded rt.journaled s.config (p.journaled i) ((p.journaled i).ProcessPayment request) i
          .ProcessPayment) env with _ | ⟨⟨result, err⟩, cb, env1⟩
    · rw [hEj] at hE
      simp only [Option.map_none'] at hE
      have hj : ProcessPayment.loop rt.journaled request
          (p.journaled i :: journaledFrom (i + 1) rest) i lastErr s env = (.diverged, s, env) := by
        simp [ProcessPayment.loop, hEj]
      have hp : ProcessPayment.loop rt request (p :: rest) i lastErr s0 env.plain
          = (.diverged, s0, env.plain) := by
        rw [ProcessPayment.loop, ← h1, ← h3, hE]
      rw [hj, hp]
      exact ⟨rfl, h1, h2, rfl⟩
    · rw [hEj] at hE
      simp only [Option.map_some'] at hE
      cases err with
      | some e =>
        have hj : ProcessPayment.loop rt.journaled request
            (p.journaled i :: journaledFrom (i + 1) rest) i lastErr s env
            = ProcessPayment.loop rt.journaled request (journaledFrom (i + 1) rest) (i + 1)
                (some e)
                (match result.isSome, result.join with
                  | true, some payment =>
                    { s with
                      circuitBreaker := cb
                      transactions := Function.update s.transactions payment.ID
                        (some ⟨{ payment with Status := StatusFailed }, p.GetID, p.GetName⟩) }
                  | _, _ => { s with circuitBreaker := cb }) env1 := by
          rw [ProcessPayment.loop, hEj]
          rcases result with _ | _ | pay <;> rfl
        have hp : ProcessPayment.loop rt request (p :: rest) i lastErr s0 env.plain
            = ProcessPayment.loop rt request rest (i + 1) (some e)
                (match result.isSome, result.join with
                  | true, some payment =>
                    { s0 with
                      circuitBreaker := cb
                      transactions := Function.update s0.transactions payment.ID
                        (some ⟨{ payment with Status := StatusFailed }, p.GetID, p.GetName⟩) }
                  | _, _ => { s0 with circuitBreaker := cb }) env1.plain := by
          rw [ProcessPayment.loop, ← h1, ← h3, hE]
        rw [hj, hp]
        apply ih
        · rcases result with _ | _ | pay <;> rfl
        · rcases result with _ | _ | pay
          · exact h2
          · exact h2
          · show Function.update s.transactions pay.ID _ = Function.update s0.transactions pay.ID _
            rw [h2]
        · rcases result with _ | _ | pay <;> exact h3
      | none =>
        have hj : ProcessPayment.loop rt.journaled request
            (p.journaled i :: journaledFrom (i + 1) rest) i lastErr s env
            = match result.join with
              | none => (.panicked nilDereference, { s with circuitBreaker := cb }, env1)
              | some payment =>
                (.returned (some payment, none),
                  { s with
                    circuitBreaker := cb
                    transactions := Function.update s.transactions payment.ID
                      (some ⟨payment, p.GetID, p.GetName⟩) }, env1) := by
          rw [ProcessPayment.loop, hEj]
          rcases result with _ | _ | pay <;> rfl
        have hp : ProcessPayment.loop rt request (p :: rest) i lastErr s0 env.plain
            = match result.join with
              | none => (.panicked nilDereference, { s0 with circuitBreaker := cb }, env1.plain)
              | some payment =>
                (.returned (some payment, none),
                  { s0 with
                    circuitBreaker := cb
                    transactions := Function.update s0.transactions payment.ID
                      (some ⟨payment, p.GetID, p.GetName⟩) }, env1.plain) := by
          rw [ProcessPayment.loop, ← h1, ← h3, hE]
        rw [hj, hp]
        rcases result with _ | _ | pay
        · exact ⟨rfl, rfl, h2, rfl⟩
        · exact ⟨rfl, rfl, h2, rfl⟩
        · refine ⟨rfl, rfl, ?_, rfl⟩
          show Function.update s.transactions pay.ID _ = Function.update s0.transactions pay.ID _
          rw [h2]

/-- `ProcessPayment` returns the same on the journaled service and on the
service itself, with the same ledger, breaker and world. -/
theorem process_plain (rt : Runtime W) (s : PaymentService W) (request : PaymentRequest)
    (env : Env (Journaled W)) :
    (ProcessPayment rt.journaled s.journaled request env).1
      = (ProcessPayment rt s request env.plain).1 ∧
    (ProcessPayment rt.journaled s.journaled request env).2.1.circuitBreaker
      = (ProcessPayment rt s request env.plain).2.1.circuitBreaker ∧
    (ProcessPayment rt.journaled s.journaled request env).2.1.transactions
      = (ProcessPayment rt s request env.plain).2.1.transactions ∧
    (ProcessPayment rt.journaled s.journaled request env).2.2.plain
      = (ProcessPayment rt s request env.plain).2.2 :=
  loop_plain rt request s.providers 0 none s.journaled s env rfl rfl rfl

/-- `RefundPayment` returns the same on the journaled service and on the
service itself, with the same ledger, breaker and world. -/
theorem refund_plain (rt : Runtime W) (s : PaymentService W) (paymentID : String)
    (request : RefundRequest) (env : Env (Journaled W)) :
    (RefundPayment rt.journaled s.journaled paymentID request env).1
      = (RefundPayment rt s paymentID request env.plain).1 ∧
    (RefundPayment rt.journaled s.journaled paymentID request env).2.1.circuitBreaker
      = (RefundPayment rt s paymentID request env.plain).2.1.circuitBreaker ∧
    (RefundPayment rt.journaled s.journaled paymentID request env).2.1.transactions
      = (RefundPayment rt s paymentID request env.plain).2.1.transactions ∧
    (RefundPayment rt.journaled s.journaled paymentID request env).2.2.plain
      = (RefundPayment rt s paymentID request env.plain).2.2 := by
  have htx : s.journaled.transactions = s.transactions := rfl
  have hcb : s.journaled.circuitBreaker = s.circuitBreaker := rfl
  have hcfg : s.journaled.config = s.config := rfl
  rcases h : s.transactions paymentID with _ | tx
  · simp [RefundPayment, htx, hcb, h]
  · by_cases hs : tx.Payment.Status = StatusAuthorized
    · have hlook := lookup_journaled tx.ProviderID s.providers 0
      have hprov : s.journaled.providers = journaledFrom 0 s.providers := rfl
      rcases hl : RefundPayment.lookup s.providers tx.ProviderID 0 with _ | ⟨i, p⟩
      · rw [hl] at hlook
        simp [RefundPayment, htx, hcb, h, hs, hl, hprov, hlook]
      · rw [hl] at hlook
        simp only [Option.map_some'] at hlook
        have hE := exec_plain rt s.config s.circuitBreaker (p.journaled i) p
          (p.RefundPayment paymentID request) i (.RefundPayment paymentID request) _
          (journaled_RefundPayment p i paymentID request) rfl i .RefundPayment env
        rcases hEj : s.circuitBreaker.Execute (fun e => rt.journaled.now e.world)
            (guarded rt.journaled s.config (p.journaled i)
              ((p.journaled i).RefundPayment paymentID request) i .RefundPayment) env
          with _ | ⟨⟨result, err⟩, cb, env1⟩
        · rw [hEj] at hE
          simp only [Option.map_none'] at hE
          simp [RefundPayment, htx, h, hs, hl, hprov, hlook, hcb, hcfg, hEj, hE]
        · rw [hEj] at hE
          simp only [Option.map_some'] at hE
          rcases result with _ | _ | pay <;> cases err <;>
            simp [RefundPayment, htx, h, hs, hl, hprov, hlook, hcb, hcfg, hEj, hE]
    · simp [RefundPayment, htx, hcb, h, hs]

end Plain

/-! ## `RefundPayment` on payment objects -/

section Reference
variable {W : Type}

/-- The closure handed to the breaker returns the pointer of a provider call
that succeeds at the first attempt, in the memory the call leaves. -/
theorem reference.guarded_first_attempt (rt : Runtime (reference.Memory W)) (cfg : Config)
    (prov : reference.PaymentProvider W)
    (call : reference.Memory W → (Option reference.Pointer × Option GoError) × reference.Memory W)
    (i : Nat) (m : Method) (env : Env (reference.Memory W)) (payment : Option reference.Pointer)
    (hatt : uint cfg.Retry.Attempts ≠ 0) (h : (call env.world).1 = (payment, none)) :
    reference.guarded rt cfg prov call i m env
      = some ((some payment, none), ⟨(call env.world).2, env.calls ++ [⟨i, m, true⟩]⟩) := by
  obtain ⟨n, hn⟩ : ∃ n, uint cfg.Retry.Attempts = n + 1 :=
    ⟨uint cfg.Retry.Attempts - 1, by omega⟩
  rcases hc : call env.world with ⟨⟨pay, err⟩, w1⟩
  rw [hc] at h
  simp only [Prod.mk.injEq] at h
  obtain ⟨h1, h2⟩ := h
  subst h1 h2
  simp [reference.guarded, retry.Do, hn, retry.loop, retried, hc]

/-- The successful case of `RefundPayment` on payment objects: the pointer the
guarded call returns is returned and stored in the entry, and the one write to
the payment objects is the status of the object behind it. -/
theorem reference.refund_stores_pointer (rt : Runtime (reference.Memory W))
    (s : reference.PaymentService W) (paymentID : String) (request : RefundRequest)
    (env env1 : Env (reference.Memory W)) (tx : reference.Transaction) (i : Nat)
    (prov : reference.PaymentProvider W) (p : reference.Pointer)
    (h : s.transactions paymentID = some tx)
    (hs : (env.world.2 tx.Payment).Status = StatusAuthorized)
    (hl : reference.RefundPayment.lookup s.providers tx.ProviderID 0 = some (i, prov))
    (hpass : (s.circuitBreaker.beforeRequest (rt.now env.world)).2.2 = none)
    (hg : reference.guarded rt s.config prov (prov.RefundPayment paymentID request) i
      .RefundPayment env = some ((some (some p), none), env1)) :
    ∃ cb, reference.RefundPayment rt s paymentID request env
      = (.returned (some p, none),
          { s with
            circuitBreaker := cb
            transactions := Function.update s.transactions paymentID
              (some { tx with Payment := p }) },
          { env1 with world := (env1.world.1, reference.setStatus env1.world.2 p StatusRefunded) }) := by
  have hE := Execute_admitted s.circuitBreaker (fun e => rt.now e.world) _ env _ _ hpass hg
  exact ⟨(s.circuitBreaker.beforeRequest (rt.now env.world)).1.afterRequest (rt.now env1.world)
    (s.circuitBreaker.beforeRequest (rt.now env.world)).2.1 true,
    by simp [reference.RefundPayment, h, hs, hl, hE]⟩

end Reference

/-- C1, as stated, fails on the code. The service is freshly built with the
test configuration (the breaker trips at three failures out of three
requests) and four providers: the first three answer 503 to every request,
the fourth authorizes every charge. `ProcessPayment` does not return the
payment of the fourth provider: the third failure opens the shared breaker,
the fourth provider is never invoked, and the call ends in the error "all
providers failed" around the error of the open breaker, with no ledger entry
for the payment. -/
theorem failover_totality_counterexample :
    NewPaymentService threeDownOneUp getTestConfig 0 = .returned (sampleService threeDownOneUp) ∧
    (∀ p ∈ threeDownOneUp.take 3, AlwaysFails (p.ProcessPayment sampleRequest)) ∧
    (∀ w, ((upProvider "d" "D" (samplePayment "p4")).ProcessPayment sampleRequest w).1
      = (some (samplePayment "p4"), none)) ∧
    (ProcessPayment clockRuntime (sampleService threeDownOneUp) sampleRequest ⟨0, []⟩).1
      = .returned (none, some (.wrapError "all providers failed, last error: " .ErrOpenState)) ∧
    (∀ c ∈ (ProcessPayment clockRuntime (sampleService threeDownOneUp) sampleRequest
      ⟨0, []⟩).2.2.calls, c.provider ≠ 3) ∧
    (ProcessPayment clockRuntime (sampleService threeDownOneUp) sampleRequest
      ⟨0, []⟩).2.1.transactions "p4" = none := by
  refine ⟨rfl, ?_, fun _ => rfl, rfl, ?_, rfl⟩
  · intro p hp w
    simp only [threeDownOneUp, List.take, List.mem_cons, List.mem_singleton] at hp
    rcases hp with rfl | rfl | rfl | hp
    · simp [downProvider]
    · simp [downProvider]
    · simp [downProvider]
    · simp at hp
  · decide

/-- C1, amended: failover reaches the first provider that succeeds, provided
the shared breaker admits the call to it. With a positive number of attempts,
if the providers before `p` in the list fail on every invocation, `p` succeeds
on every invocation, and the breaker admits a request in the state `(s1, env1)`
in which the dispatcher arrives at `p`, then `ProcessPayment` returns the
payment `p` answers there with no error, and the ledger entry under the id of
that payment holds the payment, `p.GetID` and `p.GetName`. -/
theorem failover_to_admitted_provider {W : Type} (rt : Runtime W) (s : PaymentService W)
    (request : PaymentRequest) (env : Env W) (pre post : List (PaymentProvider W))
    (p : PaymentProvider W) (s1 : PaymentService W) (env1 : Env W)
    (hlist : s.providers = pre ++ p :: post)
    (hatt : uint s.config.Retry.Attempts ≠ 0)
    (hfail : ∀ q ∈ pre, AlwaysFails (q.ProcessPayment request))
    (hsucc : AlwaysSucceeds (p.ProcessPayment request))
    (hstate : (ProcessPayment.loop rt request pre 0 none s env).2 = (s1, env1))
    (hpass : (s1.circuitBreaker.beforeRequest (rt.now env1.world)).2.2 = none) :
    ∃ payment,
      (p.ProcessPayment request env1.world).1 = (some payment, none) ∧
      (ProcessPayment rt s request env).1 = .returned (some payment, none) ∧
      (ProcessPayment rt s request env).2.1.transactions payment.ID
        = some ⟨payment, p.GetID, p.GetName⟩ := by
  obtain ⟨payment, hpay⟩ := hsucc env1.world
  obtain ⟨l1, _, happ, _, hcfg, _⟩ :=
    loop_append_fails rt request (p :: post) pre 0 none s env hfail hatt
  have h1 : (ProcessPayment.loop rt request pre 0 none s env).2.1 = s1 := by rw [hstate]
  have h2 : (ProcessPayment.loop rt request pre 0 none s env).2.2 = env1 := by rw [hstate]
  rw [h1, h2, Nat.zero_add] at happ
  rw [h1] at hcfg
  have hatt1 : uint s1.config.Retry.Attempts ≠ 0 := by rw [hcfg]; exact hatt
  have hg := guarded_succeeds rt s1.config p (p.ProcessPayment request) pre.length
    .ProcessPayment env1 (some payment) hpay hatt1
  have hE := Execute_admitted s1.circuitBreaker (fun e => rt.now e.world) _ env1 _ _ hpass hg
  refine ⟨payment, hpay, ?_, ?_⟩
  · unfold ProcessPayment
    rw [hlist, happ]
    simp [ProcessPayment.loop, hE]
  · unfold ProcessPayment
    rw [hlist, happ]
    simp [ProcessPayment.loop, hE]

/-- The amended C1 on a concrete failover: the first provider is down, the
second is up, and the breaker of the fresh service is closed after the one
failed request. -/
theorem failover_to_admitted_provider_witness :
    ∃ payment,
      ((upProvider "b" "B" (samplePayment "p2")).ProcessPayment sampleRequest
        (ProcessPayment.loop clockRuntime sampleRequest [downProvider "a" "A"] 0 none
          (sampleService [downProvider "a" "A", upProvider "b" "B" (samplePayment "p2")])
          ⟨0, []⟩).2.2.world).1 = (some payment, none) ∧
      (ProcessPayment clockRuntime
        (sampleService [downProvider "a" "A", upProvider "b" "B" (samplePayment "p2")])
        sampleRequest ⟨0, []⟩).1 = .returned (some payment, none) ∧
      (ProcessPayment clockRuntime
        (sampleService [downProvider "a" "A", upProvider "b" "B" (samplePayment "p2")])
        sampleRequest ⟨0, []⟩).2.1.transactions payment.ID
        = some ⟨payment, "b", "B"⟩ :=
  failover_to_admitted_provider clockRuntime
    (sampleService [downProvider "a" "A", upProvider "b" "B" (samplePayment "p2")])
    sampleRequest ⟨0, []⟩ [downProvider "a" "A"] [] (upProvider "b" "B" (samplePayment "p2"))
    _ _ rfl (by decide)
    (by
      intro q hq w
      rw [List.mem_singleton] at hq
      subst hq
      simp [downProvider])
    (fun _ => ⟨samplePayment "p2", rfl⟩) rfl rfl

/-- C2: refund routing. The providers of the service write every invocation
they receive into a journal; the call returns what it returns without the
journal, with the same ledger and the same world. For a ledger entry with status AUTHORIZED, every invocation that
`RefundPayment(id, req)` adds to the journal is a `RefundPayment(id, req)`
received by the first provider of the configured list whose `GetID()` is the
`ProviderID` of the entry, answered as that provider answers: no other
provider receives an invocation and no other method is invoked. Every
invocation but the last is a failure; a refund that is returned is the answer
of the last invocation; a refund that fails has met failures of that one
provider only; and when the provider is configured, the breaker admits the
call and the number of attempts is positive, the provider is invoked. -/
theorem refund_routing {W : Type} (rt : Runtime W) (s : PaymentService W) (paymentID : String)
    (request : RefundRequest) (env : Env (Journaled W)) (tx : Transaction)
    (h : s.transactions paymentID = some tx) (hs : tx.Payment.Status = StatusAuthorized) :
    (RefundPayment rt.journaled s.journaled paymentID request env).1
      = (RefundPayment rt s paymentID request env.plain).1 ∧
    (RefundPayment rt.journaled s.journaled paymentID request env).2.1.transactions
      = (RefundPayment rt s paymentID request env.plain).2.1.transactions ∧
    (RefundPayment rt.journaled s.journaled paymentID request env).2.2.plain
      = (RefundPayment rt s paymentID request env.plain).2.2 ∧
    ∃ new,
      (RefundPayment rt.journaled s.journaled paymentID request env).2.2.world.2
        = env.world.2 ++ new ∧
      (∀ r ∈ new, r.asked = .RefundPayment paymentID request ∧
        ∃ p, s.providers[r.provider]? = some p ∧ p.GetID = tx.ProviderID ∧
          (∀ j, j < r.provider → ∀ q, s.providers[j]? = some q → q.GetID ≠ tx.ProviderID) ∧
          ∃ w, r.answer = (p.RefundPayment paymentID request w).1) ∧
      (∀ r ∈ new.dropLast, r.answer.2 ≠ none) ∧
      (∀ q, (RefundPayment rt.journaled s.journaled paymentID request env).1
          = .returned (some q, none) →
        ∃ r pay, new.getLast? = some r ∧ r.answer = (some pay, none) ∧
          q = { pay with Status := StatusRefunded }) ∧
      (∀ e, (RefundPayment rt.journaled s.journaled paymentID request env).1
          = .returned (none, some e) → ∀ r ∈ new, r.answer.2 ≠ none) ∧
      (∀ i p, RefundPayment.lookup s.providers tx.ProviderID 0 = some (i, p) →
        (s.circuitBreaker.beforeRequest (rt.now env.world.1)).2.2 = none →
        uint s.config.Retry.Attempts ≠ 0 → new ≠ []) := by
  obtain ⟨plain1, _, plain3, plain4⟩ := refund_plain rt s paymentID request env
  refine ⟨plain1, plain3, plain4, ?_⟩
  clear plain1 plain3 plain4
  have hlook := lookup_journaled tx.ProviderID s.providers 0
  have htx : s.journaled.transactions paymentID = some tx := h
  rcases hl : RefundPayment.lookup s.providers tx.ProviderID 0 with _ | ⟨i, p⟩
  · rw [hl] at hlook
    rw [(refund_rejected rt.journaled s.journaled paymentID request env).2.2 tx htx hs hlook]
    exact ⟨[], by simp, by simp, by simp, by simp, by simp, by simp⟩
  · rw [hl] at hlook
    simp only [Option.map_some'] at hlook
    obtain ⟨_, h2, h3, h4⟩ := lookup_spec tx.ProviderID s.providers 0 i p hl
    rw [Nat.sub_zero] at h2 h4
    have hcall := journaled_RefundPayment p i paymentID request
    have key : ∀ recs : List Invocation,
        (∀ r ∈ recs, r.provider = i ∧ r.asked = Asked.RefundPayment paymentID request ∧
          ∃ w, r.answer = (p.RefundPayment paymentID request w).1) →
        ∀ r ∈ recs, r.asked = .RefundPayment paymentID request ∧
          ∃ p, s.providers[r.provider]? = some p ∧ p.GetID = tx.ProviderID ∧
            (∀ j, j < r.provider → ∀ q, s.providers[j]? = some q → q.GetID ≠ tx.ProviderID) ∧
            ∃ w, r.answer = (p.RefundPayment paymentID request w).1 := by
      intro recs hall r hr
      obtain ⟨e1, e2, e3⟩ := hall r hr
      rw [e1]
      exact ⟨e2, p, h2, h3, h4, e3⟩
    rcases refund_routed rt.journaled s.journaled paymentID request env tx i (p.journaled i) htx
        hs hlook with
      ⟨hnone, hr⟩ | ⟨e, k, cb, env1, hE, _, hr⟩ | ⟨payment, k, cb, env1, hE, _, hr⟩
    · rw [hr]
      refine ⟨[], by simp, by simp, by simp, by simp, by simp, fun _ _ _ _ hatt => ?_⟩
      exact absurd hnone (exec_returns rt.journaled s.config s.circuitBreaker (p.journaled i)
        _ i .RefundPayment env hatt)
    · rw [hr]
      obtain ⟨recs, hj, hall, hend⟩ := exec_journal rt s.config s.circuitBreaker cb
        (p.journaled i) _ i _ _ hcall i .RefundPayment env env1 none (some e) hE
      have hfail : ∀ r ∈ recs, r.answer.2 ≠ none := by
        rcases hend with ⟨_, _, _, _, _, hnil⟩ | ⟨_, _, _, h1, _⟩ | ⟨_, errs, _, _, hmap, _, _⟩
        · rw [hnil]; simp
        · simp at h1
        · intro r hr hnone
          have : r.answer.2 ∈ recs.map (fun r => r.answer.2) := List.mem_map_of_mem _ hr
          rw [hmap, hnone] at this
          simp at this
      refine ⟨recs, hj, key recs hall, fun r hr => hfail r (List.mem_of_mem_dropLast hr),
        by simp, fun _ _ => hfail, fun _ _ _ hb _ => ?_⟩
      rcases hend with ⟨e0, hb0, _⟩ | ⟨_, _, _, h1, _⟩ | ⟨_, errs, _, _, hmap, hlen, hatt⟩
      · rw [hb] at hb0
        simp at hb0
      · simp at h1
      · intro hnil
        rw [hnil] at hmap
        cases errs with
        | nil => exact hatt hlen.symm
        | cons a t => simp at hmap
    · obtain ⟨recs, hj, hall, hend⟩ := exec_journal rt s.config s.circuitBreaker cb
        (p.journaled i) _ i _ _ hcall i .RefundPayment env env1 (some payment) none hE
      have hshape : ∃ init, recs = init ++ [⟨i, .RefundPayment paymentID request, (payment, none)⟩] ∧
          ∀ r ∈ init, r.answer.2 ≠ none := by
        rcases hend with ⟨_, _, h1, _⟩ | ⟨_, init, pay1, _, h2, h3, h4, _⟩ | ⟨_, _, h1, _⟩
        · simp at h1
        · simp only [Option.some.injEq] at h2
          subst h2
          exact ⟨init, h3, h4⟩
        · simp at h1
      obtain ⟨init, hrecs, hinit⟩ := hshape
      have hjournal : (RefundPayment rt.journaled s.journaled paymentID request env).2.2.world.2
          = env.world.2 ++ recs := by
        rw [hr]
        cases payment <;> exact hj
      refine ⟨recs, hjournal, key recs hall, ?_, ?_, ?_, ?_⟩
      · intro r hr
        rw [hrecs, List.dropLast_concat] at hr
        exact hinit r hr
      · intro q hq
        rw [hr] at hq
        cases payment with
        | none => cases hq
        | some pay =>
          simp only [Outcome.returned.injEq, Prod.mk.injEq, Option.some.injEq, and_true] at hq
          exact ⟨⟨i, .RefundPayment paymentID request, (some pay, none)⟩, pay,
            by rw [hrecs]; simp, rfl, hq.symm⟩
      · intro e he
        rw [hr] at he
        cases payment <;> simp at he
      · intro _ _ _ _ _
        rw [hrecs]
        simp

/-- C2 on two refunds. The entry "p1" of the test "successful refund" belongs
to the first of two providers, which receives the one invocation. When the
entry belongs to the second provider, which is down, that provider receives
the three attempts and the first, which is up, receives none. -/
theorem refund_routing_witness :
    (RefundPayment clockRuntime.journaled authorizedService.journaled "p1" ⟨100⟩
        ⟨(0, []), []⟩).2.2.world.2
      = [⟨0, .RefundPayment "p1" ⟨100⟩,
          (some { samplePayment "p1" with Status := "refunded", CurrentAmount := 0 }, none)⟩] ∧
    (RefundPayment clockRuntime.journaled braintreeService.journaled "p1" ⟨100⟩
        ⟨(0, []), []⟩).2.2.world.2
      = [⟨1, .RefundPayment "p1" ⟨100⟩, (none, some (upstreamError "Braintree"))⟩,
          ⟨1, .RefundPayment "p1" ⟨100⟩, (none, some (upstreamError "Braintree"))⟩,
          ⟨1, .RefundPayment "p1" ⟨100⟩, (none, some (upstreamError "Braintree"))⟩] ∧
    ((RefundPayment clockRuntime.journaled authorizedService.journaled "p1" ⟨100⟩
        ⟨(0, []), []⟩).1
      = (RefundPayment clockRuntime authorizedService "p1" ⟨100⟩ ⟨0, []⟩).1 ∧
    (RefundPayment clockRuntime.journaled authorizedService.journaled "p1" ⟨100⟩
        ⟨(0, []), []⟩).2.1.transactions
      = (RefundPayment clockRuntime authorizedService "p1" ⟨100⟩ ⟨0, []⟩).2.1.transactions ∧
    (RefundPayment clockRuntime.journaled authorizedService.journaled "p1" ⟨100⟩
        ⟨(0, []), []⟩).2.2.plain
      = (RefundPayment clockRuntime authorizedService "p1" ⟨100⟩ ⟨0, []⟩).2.2 ∧
    ∃ new,
      (RefundPayment clockRuntime.journaled authorizedService.journaled "p1" ⟨100⟩
          ⟨(0, []), []⟩).2.2.world.2 = [] ++ new ∧
      (∀ r ∈ new, r.asked = .RefundPayment "p1" ⟨100⟩ ∧
        ∃ p, authorizedService.providers[r.provider]? = some p ∧ p.GetID = "stripe" ∧
          (∀ j, j < r.provider → ∀ q, authorizedService.providers[j]? = some q →
            q.GetID ≠ "stripe") ∧
          ∃ w, r.answer = (p.RefundPayment "p1" ⟨100⟩ w).1) ∧
      (∀ r ∈ new.dropLast, r.answer.2 ≠ none) ∧
      (∀ q, (RefundPayment clockRuntime.journaled authorizedService.journaled "p1" ⟨100⟩
          ⟨(0, []), []⟩).1 = .returned (some q, none) →
        ∃ r pay, new.getLast? = some r ∧ r.answer = (some pay, none) ∧
          q = { pay with Status := StatusRefunded }) ∧
      (∀ e, (RefundPayment clockRuntime.journaled authorizedService.journaled "p1" ⟨100⟩
          ⟨(0, []), []⟩).1 = .returned (none, some e) → ∀ r ∈ new, r.answer.2 ≠ none) ∧
      (∀ i p, RefundPayment.lookup authorizedService.providers "stripe" 0 = some (i, p) →
        (authorizedService.circuitBreaker.beforeRequest (clockRuntime.now 0)).2.2 = none →
        uint authorizedService.config.Retry.Attempts ≠ 0 → new ≠ [])) :=
  ⟨rfl, rfl, refund_routing clockRuntime authorizedService "p1" ⟨100⟩ ⟨(0, []), []⟩
    ⟨samplePayment "p1", "stripe", "Stripe"⟩ rfl rfl⟩

/-- C3: a refund of a payment that is not AUTHORIZED is rejected. For a ledger
entry whose status is not AUTHORIZED, `RefundPayment` returns a nil payment and
the error "payment cannot be refunded: status is " followed by the status; the
service (ledger and breaker) and the environment (the world and the log of
provider invocations) are exactly as before. In particular, after a refund
that returned a payment, a second refund of the same id is rejected in this
way, with the status "refunded". -/
theorem refund_non_authorized_rejected {W : Type} (rt : Runtime W) :
    (∀ (s : PaymentService W) (paymentID : String) (request : RefundRequest) (env : Env W)
        (tx : Transaction),
      s.transactions paymentID = some tx → tx.Payment.Status ≠ StatusAuthorized →
      ∃ err, RefundPayment rt s paymentID request env = (.returned (none, some err), s, env) ∧
        err.Error = "payment cannot be refunded: status is " ++ tx.Payment.Status) ∧
    (∀ (s : PaymentService W) (paymentID : String) (request again : RefundRequest) (env : Env W)
        (q : Payment),
      (RefundPayment rt s paymentID request env).1 = .returned (some q, none) →
      ∃ err,
        RefundPayment rt (RefundPayment rt s paymentID request env).2.1 paymentID again
            (RefundPayment rt s paymentID request env).2.2
          = (.returned (none, some err), (RefundPayment rt s paymentID request env).2.1,
              (RefundPayment rt s paymentID request env).2.2) ∧
        err.Error = "payment cannot be refunded: status is refunded") := by
  constructor
  · intro s paymentID request env tx h hs
    exact ⟨_, (refund_rejected rt s paymentID request env).2.1 tx h hs, rfl⟩
  · intro s paymentID request again env q hq
    rcases refund_ledger rt s paymentID request env with ⟨_, hno⟩ | ⟨tx, pay, _, _, _, hl⟩
    · exact absurd hq (hno q)
    · have hentry : (RefundPayment rt s paymentID request env).2.1.transactions paymentID
          = some { tx with Payment := { pay with Status := StatusRefunded } } := by
        rw [hl]; simp
      exact ⟨_, (refund_rejected rt _ paymentID again _).2.1
        { tx with Payment := { pay with Status := StatusRefunded } } hentry
        (by show StatusRefunded ≠ StatusAuthorized; decide), rfl⟩

/-- C3 on the test "refund non-authorized payment" (a FAILED entry) and on a
double refund of the payment "p1". -/
theorem refund_non_authorized_rejected_witness :
    (∃ err, RefundPayment clockRuntime failedService "p1" ⟨30⟩ ⟨0, []⟩
        = (.returned (none, some err), failedService, ⟨0, []⟩) ∧
      err.Error = "payment cannot be refunded: status is " ++ "failed") ∧
    (∃ err,
      RefundPayment clockRuntime
          (RefundPayment clockRuntime authorizedService "p1" ⟨100⟩ ⟨0, []⟩).2.1 "p1" ⟨50⟩
          (RefundPayment clockRuntime authorizedService "p1" ⟨100⟩ ⟨0, []⟩).2.2
        = (.returned (none, some err),
            (RefundPayment clockRuntime authorizedService "p1" ⟨100⟩ ⟨0, []⟩).2.1,
            (RefundPayment clockRuntime authorizedService "p1" ⟨100⟩ ⟨0, []⟩).2.2) ∧
      err.Error = "payment cannot be refunded: status is refunded") :=
  ⟨(refund_non_authorized_rejected clockRuntime).1 failedService "p1" ⟨30⟩ ⟨0, []⟩
      ⟨{ samplePayment "p1" with Status := StatusFailed }, "stripe", "Stripe"⟩ rfl (by decide),
    (refund_non_authorized_rejected clockRuntime).2 authorizedService "p1" ⟨100⟩ ⟨50⟩ ⟨0, []⟩
      { samplePayment "p1" with Status := StatusRefunded, CurrentAmount := 0 } rfl⟩

/-- C4: a refund of an unknown id is rejected. For an id that is not a key of
the ledger, `RefundPayment` returns a nil payment and the error "payment not
found: " followed by the id; the service and the environment are exactly as
before, so that no provider is called and the id is still not a key of the
ledger. -/
theorem refund_unknown_id_rejected {W : Type} (rt : Runtime W) (s : PaymentService W)
    (paymentID : String) (request : RefundRequest) (env : Env W)
    (h : s.transactions paymentID = none) :
    ∃ err, RefundPayment rt s paymentID request env = (.returned (none, some err), s, env) ∧
      err.Error = "payment not found: " ++ paymentID ∧
      (RefundPayment rt s paymentID request env).2.1.transactions paymentID = none := by
  have hr := (refund_rejected rt s paymentID request env).1 h
  exact ⟨_, hr, rfl, by rw [hr]; exact h⟩

/-- C4 on the test "refund non-existent payment". -/
theorem refund_unknown_id_rejected_witness :
    ∃ err, RefundPayment clockRuntime (sampleService stripeAndBraintree) "non-existent" ⟨75⟩
        ⟨0, []⟩
        = (.returned (none, some err), sampleService stripeAndBraintree, ⟨0, []⟩) ∧
      err.Error = "payment not found: " ++ "non-existent" ∧
      (RefundPayment clockRuntime (sampleService stripeAndBraintree) "non-existent" ⟨75⟩
        ⟨0, []⟩).2.1.transactions "non-existent" = none :=
  refund_unknown_id_rejected clockRuntime (sampleService stripeAndBraintree) "non-existent"
    ⟨75⟩ ⟨0, []⟩ rfl

/-- C5, as stated, fails on the code: another ledger entry can change. The
ledger holds the AUTHORIZED payments "p0" and "p1" of one provider, which
answers every call with the one payment object it keeps, the object of "p1".
The refund of "p0" returns that object; the dispatcher writes REFUNDED into it
and stores it as the snapshot of "p0"; the entry "p1", which holds the same
object, shows REFUNDED although it was not refunded. -/
theorem refund_frame_counterexample :
    (twoEntries (sharingProvider "a" "A")).transactions "p1" = some ⟨1, "a", "A"⟩ ∧
    (sampleHeap 1).Status = StatusAuthorized ∧
    (reference.RefundPayment memoryRuntime (twoEntries (sharingProvider "a" "A")) "p0" ⟨100⟩
      ⟨(0, sampleHeap), []⟩).1 = .returned (some 1, none) ∧
    (reference.RefundPayment memoryRuntime (twoEntries (sharingProvider "a" "A")) "p0" ⟨100⟩
      ⟨(0, sampleHeap), []⟩).2.1.transactions "p1" = some ⟨1, "a", "A"⟩ ∧
    ((reference.RefundPayment memoryRuntime (twoEntries (sharingProvider "a" "A")) "p0" ⟨100⟩
      ⟨(0, sampleHeap), []⟩).2.2.world.2 1).Status = StatusRefunded ∧
    ((reference.RefundPayment memoryRuntime (twoEntries (sharingProvider "a" "A")) "p0" ⟨100⟩
      ⟨(0, sampleHeap), []⟩).2.2.world.2 1) ≠ sampleHeap 1 :=
  ⟨by decide, by decide, rfl, by decide, by decide, by decide⟩

/-- C5, amended: the postcondition of a successful refund, on payment
objects. For an AUTHORIZED ledger entry under `paymentID` whose provider is
the configured provider `prov`, if the breaker admits the request and the
retried call of `prov.RefundPayment` ends with the pointer `p` and no error,
then `RefundPayment` returns `p` with no error; the object behind `p` has the
status REFUNDED, whatever status the provider put on it, and otherwise the
content the provider gave it (the `CurrentAmount` in particular); the entry
under `paymentID` has `p` as its payment and keeps its `ProviderID` and
`ProviderName`; every other entry keeps its payment pointer, `ProviderID` and
`ProviderName`; and every payment object other than the one behind `p` has
the content the provider call left, so that the snapshot of another entry is
unchanged unless it is the object the provider returned. -/
theorem refund_success_postcondition {W : Type} (rt : Runtime (reference.Memory W))
    (s : reference.PaymentService W) (paymentID : String) (request : RefundRequest)
    (env env1 : Env (reference.Memory W)) (tx : reference.Transaction) (i : Nat)
    (prov : reference.PaymentProvider W) (p : reference.Pointer)
    (h : s.transactions paymentID = some tx)
    (hs : (env.world.2 tx.Payment).Status = StatusAuthorized)
    (hl : reference.RefundPayment.lookup s.providers tx.ProviderID 0 = some (i, prov))
    (hpass : (s.circuitBreaker.beforeRequest (rt.now env.world)).2.2 = none)
    (hg : reference.guarded rt s.config prov (prov.RefundPayment paymentID request) i
      .RefundPayment env = some ((some (some p), none), env1)) :
    (reference.RefundPayment rt s paymentID request env).1 = .returned (some p, none) ∧
    (reference.RefundPayment rt s paymentID request env).2.2.world.2 p
      = { env1.world.2 p with Status := StatusRefunded } ∧
    ((reference.RefundPayment rt s paymentID request env).2.2.world.2 p).Status
      = StatusRefunded ∧
    ((reference.RefundPayment rt s paymentID request env).2.2.world.2 p).CurrentAmount
      = (env1.world.2 p).CurrentAmount ∧
    (reference.RefundPayment rt s paymentID request env).2.1.transactions paymentID
      = some ⟨p, tx.ProviderID, tx.ProviderName⟩ ∧
    (∀ other, other ≠ paymentID →
      (reference.RefundPayment rt s paymentID request env).2.1.transactions other
        = s.transactions other) ∧
    (∀ q, q ≠ p →
      (reference.RefundPayment rt s paymentID request env).2.2.world.2 q = env1.world.2 q) ∧
    (∀ other tx1, other ≠ paymentID → s.transactions other = some tx1 →
      tx1.Payment ≠ p → env1.world.2 tx1.Payment = env.world.2 tx1.Payment →
      (reference.RefundPayment rt s paymentID request env).2.2.world.2 tx1.Payment
        = env.world.2 tx1.Payment) := by
  obtain ⟨cb, hr⟩ := reference.refund_stores_pointer rt s paymentID request env env1 tx i prov p h hs
    hl hpass hg
  rw [hr]
  refine ⟨rfl, ?_, ?_, ?_, ?_, ?_, ?_, ?_⟩
  · simp [reference.setStatus]
  · simp [reference.setStatus]
  · simp [reference.setStatus]
  · simp
  · intro other hne
    simp [Function.update_noteq hne]
  · intro q hne
    simp [reference.setStatus, Function.update_noteq hne]
  · intro other tx1 _ _ hne hsame
    simp [reference.setStatus, Function.update_noteq hne, hsame]

/-- The amended C5 on the test "successful refund", with a second entry in
the ledger: the provider answers the refund of "p0" with a new object, of the
status "refunded" and the current amount 0; the entry "p1" and its object are
as before. -/
theorem refund_success_postcondition_witness :
    (reference.RefundPayment memoryRuntime (twoEntries (freshProvider "a" "A"
      (samplePayment "p0"))) "p0" ⟨100⟩ ⟨(0, sampleHeap), []⟩).1 = .returned (some 2, none) ∧
    (reference.RefundPayment memoryRuntime (twoEntries (freshProvider "a" "A"
      (samplePayment "p0"))) "p0" ⟨100⟩ ⟨(0, sampleHeap), []⟩).2.2.world.2 2
      = { samplePayment "p0" with Status := StatusRefunded, CurrentAmount := 0 } ∧
    (reference.RefundPayment memoryRuntime (twoEntries (freshProvider "a" "A"
      (samplePayment "p0"))) "p0" ⟨100⟩ ⟨(0, sampleHeap), []⟩).2.1.transactions "p0"
      = some ⟨2, "a", "A"⟩ ∧
    (reference.RefundPayment memoryRuntime (twoEntries (freshProvider "a" "A"
      (samplePayment "p0"))) "p0" ⟨100⟩ ⟨(0, sampleHeap), []⟩).2.1.transactions "p1"
      = some ⟨1, "a", "A"⟩ ∧
    (reference.RefundPayment memoryRuntime (twoEntries (freshProvider "a" "A"
      (samplePayment "p0"))) "p0" ⟨100⟩ ⟨(0, sampleHeap), []⟩).2.2.world.2 1
      = sampleHeap 1 := by
  have hw := refund_success_postcondition memoryRuntime
    (twoEntries (freshProvider "a" "A" (samplePayment "p0"))) "p0" ⟨100⟩ ⟨(0, sampleHeap), []⟩
    ⟨(1, Function.update sampleHeap 2
        { samplePayment "p0" with Status := "refunded", CurrentAmount := 0 }),
      [⟨0, .RefundPayment, true⟩]⟩
    ⟨0, "a", "A"⟩ 0 (freshProvider "a" "A" (samplePayment "p0")) 2 rfl rfl rfl rfl rfl
  obtain ⟨h1, h2, _, _, h5, h6, _, h8⟩ := hw
  refine ⟨h1, ?_, h5, ?_, ?_⟩
  · rw [h2]; rfl
  · rw [h6 "p1" (by decide)]; rfl
  · exact h8 "p1" ⟨1, "a", "A"⟩ (by decide) rfl (by decide) rfl

/-- C6, as stated, fails on the code. On a fresh service with one provider
whose upstream issues the id "p1": a charge is authorized and refunded, so
that the entry "p1" is REFUNDED; a second charge, for which the provider
returns a payment carrying the same id, overwrites the entry, which is
AUTHORIZED afterwards. -/
theorem refunded_terminal_counterexample :
    statusOf (runOperations clockRuntime
      [.ProcessPayment sampleRequest, .RefundPayment "p1" ⟨100⟩]
      singleProviderService ⟨0, []⟩).1 "p1" = some StatusRefunded ∧
    returnedID (ProcessPayment clockRuntime
      (runOperations clockRuntime [.ProcessPayment sampleRequest, .RefundPayment "p1" ⟨100⟩]
        singleProviderService ⟨0, []⟩).1 sampleRequest
      (runOperations clockRuntime [.ProcessPayment sampleRequest, .RefundPayment "p1" ⟨100⟩]
        singleProviderService ⟨0, []⟩).2).1 = some "p1" ∧
    statusOf (runOperations clockRuntime
      [.ProcessPayment sampleRequest, .RefundPayment "p1" ⟨100⟩, .ProcessPayment sampleRequest]
      singleProviderService ⟨0, []⟩).1 "p1" = some StatusAuthorized ∧
    statusOf (runOperations clockRuntime
      [.ProcessPayment sampleRequest, .RefundPayment "p1" ⟨100⟩, .ProcessPayment sampleRequest]
      singleProviderService ⟨0, []⟩).1 "p1" ≠ some StatusRefunded := by
  refine ⟨by decide, by decide, by decide, by decide⟩

/-- C6, amended: REFUNDED is kept by every call that does not authorize a
payment under the same id. Once the ledger entry under an id has the status
REFUNDED, it has the status REFUNDED after every sequence of `ProcessPayment`,
`RefundPayment` and `GetPayment` calls in which no `ProcessPayment` returns a
payment carrying that id, whatever the providers do. -/
theorem refunded_kept_without_reissue {W : Type} (rt : Runtime W) (paymentID : String) :
    ∀ (ops : List Operation) (s : PaymentService W) (env : Env W),
      statusOf s paymentID = some StatusRefunded →
      NoPaymentWithID rt paymentID ops s env →
      statusOf (runOperations rt ops s env).1 paymentID = some StatusRefunded := by
  intro ops
  induction ops with
  | nil => intro s env h _; exact h
  | cons op ops ih =>
    intro s env h hno
    obtain ⟨hop, hrest⟩ := hno
    refine ih _ _ ?_ hrest
    cases op with
    | ProcessPayment request =>
      simp only [Operation.apply]
      obtain ⟨_, _, _, hl⟩ := loop_spec rt request s.providers 0 none s env
      simp only at hop
      rcases hl with ⟨pay, prov, _, hr, ht⟩ | ⟨ht, _⟩
      · have hne : paymentID ≠ pay.ID := by
          intro heq
          apply hop
          unfold ProcessPayment
          rw [hr, heq]
          rfl
        unfold statusOf ProcessPayment
        rw [ht, Function.update_noteq hne]
        exact h
      · unfold statusOf ProcessPayment
        rw [ht]
        exact h
    | RefundPayment other request =>
      simp only [Operation.apply]
      rcases refund_ledger rt s other request env with ⟨ht, _⟩ | ⟨tx, pay, htx, hs, _, ht⟩
      · unfold statusOf
        rw [ht]
        exact h
      · have hne : paymentID ≠ other := by
          intro heq
          subst heq
          unfold statusOf at h
          rw [htx] at h
          simp only [Option.map_some', Option.some.injEq] at h
          rw [hs] at h
          exact absurd h (by decide)
        unfold statusOf
        rw [ht, Function.update_noteq hne]
        exact h
    | GetPayment other => exact h

/-- The amended C6 on a REFUNDED entry "p1": a second refund of "p1", a lookup
and a charge that is authorized under the id "p2" leave it REFUNDED. -/
theorem refunded_kept_without_reissue_witness :
    statusOf (runOperations clockRuntime
      [.RefundPayment "p1" ⟨50⟩, .GetPayment "p1", .ProcessPayment sampleRequest]
      refundedService ⟨0, []⟩).1 "p1" = some StatusRefunded :=
  refunded_kept_without_reissue clockRuntime "p1"
    [.RefundPayment "p1" ⟨50⟩, .GetPayment "p1", .ProcessPayment sampleRequest]
    refundedService ⟨0, []⟩ (by decide)
    ⟨trivial, trivial, by decide, trivial⟩

/-- C7: all providers fail. The providers of the service write every
invocation they receive into a journal; the call returns what it returns
without the journal. For a provider list `init ++ [last]` (a non-empty list)
and a positive number of attempts, if every invocation a `ProcessPayment` call
adds to the journal is a failure (a provider that the breaker short-circuits
receives none), then `ProcessPayment` returns a nil payment and an error whose
text is "all providers failed, last error: " followed by the text of the error
`e` it wraps; `e` is the error obtained from the last provider: the error of
the breaker that rejected the call to it, or the error of its guarded call,
which wraps the `retry.Error` listing the errors the provider returned in its
invocations; and the ledger is the one before the call. -/
theorem all_providers_fail {W : Type} (rt : Runtime W) (s : PaymentService W)
    (request : PaymentRequest) (env : Env (Journaled W)) (init : List (PaymentProvider W))
    (last : PaymentProvider W) (new : List Invocation)
    (hlist : s.providers = init ++ [last])
    (hatt : uint s.config.Retry.Attempts ≠ 0)
    (hnew : (ProcessPayment rt.journaled s.journaled request env).2.2.world.2
      = env.world.2 ++ new)
    (hfail : ∀ r ∈ new, r.answer.2 ≠ none) :
    ∃ err e,
      (ProcessPayment rt.journaled s.journaled request env).1 = .returned (none, some err) ∧
      (ProcessPayment rt s request env.plain).1 = .returned (none, some err) ∧
      err.Error = "all providers failed, last error: " ++ e.Error ∧
      err.Unwrap = some e ∧
      ObtainedFrom e last init.length (uint s.config.Retry.Attempts) new ∧
      (ProcessPayment rt.journaled s.journaled request env).2.1.transactions = s.transactions ∧
      (ProcessPayment rt s request env.plain).2.1.transactions = s.transactions := by
  obtain ⟨htx, E, hret, _, hlast⟩ :=
    loop_journal_fail rt request s.providers 0 none s.journaled env new hnew hfail hatt
  obtain ⟨e, hE, hobt⟩ := hlast init last hlist
  rw [Nat.zero_add] at hobt
  subst hE
  obtain ⟨p1, _, p3, _⟩ := process_plain rt s request env
  have hret1 : (ProcessPayment rt.journaled s.journaled request env).1
      = .returned (none, some (allProvidersFailed (some e))) := hret
  have htx1 : (ProcessPayment rt.journaled s.journaled request env).2.1.transactions
      = s.transactions := htx
  refine ⟨allProvidersFailed (some e), e, hret1, ?_, rfl, rfl, hobt, htx1, ?_⟩
  · rw [← p1]; exact hret1
  · rw [← p3]; exact htx1

/-- C7 on three providers that are down followed by one that is up: the
first three receive three attempts each and open the breaker, the fourth is
short-circuited, and the error wrapped is the one of the breaker. -/
theorem all_providers_fail_witness :
    ∃ err e,
      (ProcessPayment clockRuntime.journaled (sampleService threeDownOneUp).journaled
        sampleRequest ⟨(0, []), []⟩).1 = .returned (none, some err) ∧
      (ProcessPayment clockRuntime (sampleService threeDownOneUp) sampleRequest ⟨0, []⟩).1
        = .returned (none, some err) ∧
      err.Error = "all providers failed, last error: " ++ e.Error ∧
      err.Unwrap = some e ∧
      ObtainedFrom e (upProvider "d" "D" (samplePayment "p4")) 3 3
        [⟨0, .ProcessPayment sampleRequest, (none, some (upstreamError "A"))⟩,
          ⟨0, .ProcessPayment sampleRequest, (none, some (upstreamError "A"))⟩,
          ⟨0, .ProcessPayment sampleRequest, (none, some (upstreamError "A"))⟩,
          ⟨1, .ProcessPayment sampleRequest, (none, some (upstreamError "B"))⟩,
          ⟨1, .ProcessPayment sampleRequest, (none, some (upstreamError "B"))⟩,
          ⟨1, .ProcessPayment sampleRequest, (none, some (upstreamError "B"))⟩,
          ⟨2, .ProcessPayment sampleRequest, (none, some (upstreamError "C"))⟩,
          ⟨2, .ProcessPayment sampleRequest, (none, some (upstreamError "C"))⟩,
          ⟨2, .ProcessPayment sampleRequest, (none, some (upstreamError "C"))⟩] ∧
      (ProcessPayment clockRuntime.journaled (sampleService threeDownOneUp).journaled
        sampleRequest ⟨(0, []), []⟩).2.1.transactions = (sampleService threeDownOneUp).transactions ∧
      (ProcessPayment clockRuntime (sampleService threeDownOneUp) sampleRequest
        ⟨0, []⟩).2.1.transactions = (sampleService threeDownOneUp).transactions :=
  all_providers_fail clockRuntime (sampleService threeDownOneUp) sampleRequest ⟨(0, []), []⟩
    [downProvider "a" "A", downProvider "b" "B", downProvider "c" "C"]
    (upProvider "d" "D" (samplePayment "p4")) _ rfl (by decide) rfl
    (by
      intro r hr
      simp only [List.mem_cons, List.mem_singleton, List.not_mem_nil, or_false] at hr
      rcases hr with rfl | rfl | rfl | rfl | rfl | rfl | rfl | rfl | rfl <;> simp)

/-- C8: the breaker trips. Let the configuration have `MinRequests = 3` and
`FailureRatio = 3/5`, and let `s0` be the service `NewPaymentService` builds at
the time `t0`.

* Three requests in a row through the breaker of `s0` that all fail, the clock
  being read within the first interval (or the interval being 0, which has no
  end), leave the breaker OPEN; the next request, made before the timeout of
  the breaker has elapsed since the third failure, returns the error of the
  open breaker, is not made (the state it would act on is untouched) and
  leaves the breaker as it is.
* With two providers that fail on every invocation and a positive number of
  attempts, when the failed guarded calls of the first two `ProcessPayment`
  calls fall within the first interval and the third and the fourth call are
  made before the timeout has elapsed since the breaker opened, the fourth
  `ProcessPayment` returns a nil payment and the error "all providers failed"
  that wraps the error of the open breaker, and it invokes no provider: the
  environment (the world and the log of invocations) and the service are
  untouched. Each call is made in an environment of its own, so that time may
  pass between the calls. -/
theorem breaker_trip {W : Type} (rt : Runtime W) (cfg : Config) (t0 : Int)
    (hmin : cfg.CircuitBreaker.MinRequests = 3)
    (hratio : cfg.CircuitBreaker.FailureRatio = mkRat 3 5) :
    (∀ (providers : List (PaymentProvider W)) (s0 : PaymentService W),
      NewPaymentService providers cfg t0 = .returned s0 →
      ∀ (σ α : Type) (now : σ → Int)
        (req1 req2 req3 : σ → Option ((Option α × Option GoError) × σ)) (x0 x1 x2 x3 : σ)
        (r1 r2 r3 : Option α) (e1 e2 e3 : GoError),
      req1 x0 = some ((r1, some e1), x1) → req2 x1 = some ((r2, some e2), x2) →
      req3 x2 = some ((r3, some e3), x3) →
      (s0.circuitBreaker.interval = 0 ∨
        (now x0 ≤ t0 + s0.circuitBreaker.interval ∧ now x1 ≤ t0 + s0.circuitBreaker.interval ∧
          now x2 ≤ t0 + s0.circuitBreaker.interval ∧
          now x3 ≤ t0 + s0.circuitBreaker.interval)) →
      ∃ cb1 cb2 cb3,
        s0.circuitBreaker.Execute now req1 x0 = some ((r1, some e1), cb1, x1) ∧
        cb1.Execute now req2 x1 = some ((r2, some e2), cb2, x2) ∧
        cb2.Execute now req3 x2 = some ((r3, some e3), cb3, x3) ∧
        cb3.state = .StateOpen ∧
        ∀ (req4 : σ → Option ((Option α × Option GoError) × σ)) (x4 : σ),
          now x4 ≤ now x3 + s0.circuitBreaker.timeout →
          cb3.Execute now req4 x4 = some ((none, some .ErrOpenState), cb3, x4)) ∧
    (∀ (a b : PaymentProvider W) (s0 : PaymentService W) (r1 r2 r3 r4 : PaymentRequest)
        (env1 env2 env3 env4 : Env W),
      NewPaymentService [a, b] cfg t0 = .returned s0 →
      uint cfg.Retry.Attempts ≠ 0 →
      (∀ r, AlwaysFails (a.ProcessPayment r)) → (∀ r, AlwaysFails (b.ProcessPayment r)) →
      (s0.circuitBreaker.interval = 0 ∨
        (rt.now env1.world ≤ t0 + s0.circuitBreaker.interval ∧
          rt.now (ProcessPayment.loop rt r1 [a] 0 none s0 env1).2.2.world
            ≤ t0 + s0.circuitBreaker.interval ∧
          rt.now (ProcessPayment rt s0 r1 env1).2.2.world ≤ t0 + s0.circuitBreaker.interval ∧
          rt.now env2.world ≤ t0 + s0.circuitBreaker.interval ∧
          rt.now (ProcessPayment.loop rt r2 [a] 0 none (ProcessPayment rt s0 r1 env1).2.1
            env2).2.2.world ≤ t0 + s0.circuitBreaker.interval)) →
      rt.now env3.world
        ≤ rt.now (ProcessPayment.loop rt r2 [a] 0 none (ProcessPayment rt s0 r1 env1).2.1
            env2).2.2.world + s0.circuitBreaker.timeout →
      rt.now env4.world
        ≤ rt.now (ProcessPayment.loop rt r2 [a] 0 none (ProcessPayment rt s0 r1 env1).2.1
            env2).2.2.world + s0.circuitBreaker.timeout →
      ProcessPayment rt
          (ProcessPayment rt (ProcessPayment rt (ProcessPayment rt s0 r1 env1).2.1 r2 env2).2.1
            r3 env3).2.1 r4 env4
        = (.returned (none, some (.wrapError "all providers failed, last error: "
            .ErrOpenState)),
          (ProcessPayment rt (ProcessPayment rt (ProcessPayment rt s0 r1 env1).2.1 r2 env2).2.1
            r3 env3).2.1, env4)) := by
  constructor
  · intro providers s0 hnew σ α now req1 req2 req3 x0 x1 x2 x3 r1 r2 r3 e1 e2 e3 h1 h2 h3 hint
    obtain ⟨_, _, _, hstate, hcounts, hready, _, hexpiry⟩ :=
      NewPaymentService_fresh providers cfg t0 s0 hnew
    obtain ⟨ht1, ht2, ht3⟩ := ReadyToTrip_three cfg hmin hratio
    rw [← hready] at ht1 ht2 ht3
    refine Execute_three_failures s0.circuitBreaker now req1 req2 req3 x0 x1 x2 x3 r1 r2 r3
      e1 e2 e3 hstate hcounts ht1 ht2 ht3 ?_ h1 h2 h3
    by_cases hz : s0.circuitBreaker.interval = 0
    · left; rw [hexpiry, if_pos hz]
    · right
      rcases hint with h | h
      · exact absurd h hz
      · exact ⟨_, by rw [hexpiry, if_neg hz], h⟩
  · intro a b s0 r1 r2 r3 r4 env1 env2 env3 env4 hnew hatt ha hb hint h3 h4
    obtain ⟨hlist, hcfg, _, hstate, hcounts, hready, htimeout, hexpiry⟩ :=
      NewPaymentService_fresh [a, b] cfg t0 s0 hnew
    obtain ⟨ht1, ht2, ht3⟩ := ReadyToTrip_three cfg hmin hratio
    rw [← hready] at ht1 ht2 ht3
    rw [← hcfg] at hatt
    have hs1 := process_two_failures rt a b s0 r1 env1 hlist hstate hcounts ht1 ht2 hatt (ha r1)
      (hb r1)
      (by
        by_cases hz : s0.circuitBreaker.interval = 0
        · left; rw [hexpiry, if_pos hz]
        · right
          rcases hint with h | ⟨p, q, r, _, _⟩
          · exact absurd h hz
          · exact ⟨_, by rw [hexpiry, if_neg hz], p, q, r⟩)
    rw [hs1] at hint h3 h4 ⊢
    obtain ⟨cb, hs2, hopen, hexp2⟩ := process_trips rt a b
      { s0 with circuitBreaker := { s0.circuitBreaker with counts := ⟨2, 0, 2, 0, 2⟩ } } r2 env2
      hlist hstate rfl ht3 (le_of_lt htimeout) hatt (ha r2)
      (by
        by_cases hz : s0.circuitBreaker.interval = 0
        · left; show s0.circuitBreaker.expiry = none; rw [hexpiry, if_pos hz]
        · right
          rcases hint with h | ⟨_, _, _, p, q⟩
          · exact absurd h hz
          · exact ⟨_, by show s0.circuitBreaker.expiry = _; rw [hexpiry, if_neg hz], p, q⟩)
    rw [hs2]
    have hne : ({ s0 with circuitBreaker := cb } : PaymentService W).providers ≠ [] := by
      show s0.providers ≠ []
      rw [hlist]
      simp
    have hs3 := process_open rt { s0 with circuitBreaker := cb } r3 env3 _ hne hopen hexp2 h3
    rw [hs3]
    exact process_open rt { s0 with circuitBreaker := cb } r4 env4 _ hne hopen hexp2 h4

/-- C8 on the test configuration (interval 10 s, timeout 30 s), with a clock
in nanoseconds. Three failing requests of one second each open the breaker,
and a request made at 33 s, 30 s after the third failure, is rejected. With
two upstreams that are down, `ProcessPayment` calls made at 0 s and 5 s open
the breaker about 7 s after the start, and the calls made at 20 s and 30 s
invoke no provider. -/
theorem breaker_trip_witness :
    (∃ cb1 cb2 cb3,
      (sampleService twoDown).circuitBreaker.Execute (fun t : Nat => (t : Int)) failingRequest 0
        = some ((none, some (upstreamError "A")), cb1, 1000000000) ∧
      cb1.Execute (fun t : Nat => (t : Int)) failingRequest 1000000000
        = some ((none, some (upstreamError "A")), cb2, 2000000000) ∧
      cb2.Execute (fun t : Nat => (t : Int)) failingRequest 2000000000
        = some ((none, some (upstreamError "A")), cb3, 3000000000) ∧
      cb3.state = .StateOpen ∧
      ∀ (req4 : Nat → Option ((Option Unit × Option GoError) × Nat)) (x4 : Nat),
        (x4 : Int) ≤ ((3000000000 : Nat) : Int) + (sampleService twoDown).circuitBreaker.timeout →
        cb3.Execute (fun t : Nat => (t : Int)) req4 x4
          = some ((none, some .ErrOpenState), cb3, x4)) ∧
    ProcessPayment clockRuntime
        (ProcessPayment clockRuntime
          (ProcessPayment clockRuntime
            (ProcessPayment clockRuntime (sampleService twoDown) sampleRequest ⟨0, []⟩).2.1
            sampleRequest ⟨5000000000, []⟩).2.1
          sampleRequest ⟨20000000000, []⟩).2.1 sampleRequest ⟨30000000000, []⟩
      = (.returned (none, some (.wrapError "all providers failed, last error: "
          .ErrOpenState)),
        (ProcessPayment clockRuntime
          (ProcessPayment clockRuntime
            (ProcessPayment clockRuntime (sampleService twoDown) sampleRequest ⟨0, []⟩).2.1
            sampleRequest ⟨5000000000, []⟩).2.1
          sampleRequest ⟨20000000000, []⟩).2.1, ⟨30000000000, []⟩) :=
  ⟨(breaker_trip clockRuntime getTestConfig 0 rfl rfl).1 twoDown (sampleService twoDown) rfl
      Nat Unit (fun t : Nat => (t : Int)) failingRequest failingRequest failingRequest
      0 1000000000 2000000000 3000000000 none none none
      (upstreamError "A") (upstreamError "A") (upstreamError "A") rfl rfl rfl
      (Or.inr (by decide)),
    (breaker_trip clockRuntime getTestConfig 0 rfl rfl).2 (downProvider "a" "A")
      (downProvider "b" "B") (sampleService twoDown) sampleRequest sampleRequest sampleRequest
      sampleRequest ⟨0, []⟩ ⟨5000000000, []⟩ ⟨20000000000, []⟩ ⟨30000000000, []⟩ rfl
      (by decide) (fun _ _ => by simp [downProvider]) (fun _ _ => by simp [downProvider])
      (Or.inr (by decide)) (by decide) (by decide)⟩

/-- C9: the retry bound. Let `Retry.Attempts = n` with `1 ≤ n` (and `n` an
`int`), and let the breaker admit a request in the state `(s, env)`.

* When the dispatcher loop of `ProcessPayment` arrives in this state at a
  provider `p` (at position `i`) whose `ProcessPayment` fails on every
  invocation, `p` is invoked exactly `n` times, and the loop goes on with the
  next provider.
* If instead `p` fails `j` times and then succeeds, with `j + 1 ≤ n`, it is
  invoked exactly `j + 1` times and its payment is returned.
* In `RefundPayment` on an AUTHORIZED entry routed to the provider `p`, a `p`
  whose `RefundPayment` fails on every invocation is invoked exactly `n`
  times, and a `p` that fails `j` times and then succeeds, with `j + 1 ≤ n`,
  exactly `j + 1` times. -/
theorem retry_bound {W : Type} (rt : Runtime W) (s : PaymentService W) (env : Env W)
    (hmin : 1 ≤ s.config.Retry.Attempts) (hmax : s.config.Retry.Attempts < 2 ^ 63)
    (hpass : (s.circuitBreaker.beforeRequest (rt.now env.world)).2.2 = none) :
    (∀ (request : PaymentRequest) (p : PaymentProvider W) (rest : List (PaymentProvider W))
        (i : Nat) (lastErr : Option GoError),
      AlwaysFails (p.ProcessPayment request) →
      ∃ e cb env1,
        env1.calls = env.calls
          ++ List.replicate s.config.Retry.Attempts.toNat ⟨i, .ProcessPayment, false⟩ ∧
        ProcessPayment.loop rt request (p :: rest) i lastErr s env
          = ProcessPayment.loop rt request rest (i + 1) (some e)
              { s with circuitBreaker := cb } env1) ∧
    (∀ (request : PaymentRequest) (p : PaymentProvider W) (rest : List (PaymentProvider W))
        (i : Nat) (lastErr : Option GoError) (j : Nat) (payment : Payment),
      j + 1 ≤ s.config.Retry.Attempts.toNat →
      SucceedsAfter rt s.config (p.ProcessPayment request) j env.world (some payment) →
      (ProcessPayment.loop rt request (p :: rest) i lastErr s env).1
        = .returned (some payment, none) ∧
      (ProcessPayment.loop rt request (p :: rest) i lastErr s env).2.2.calls
        = env.calls ++ (List.replicate j ⟨i, .ProcessPayment, false⟩
            ++ [⟨i, .ProcessPayment, true⟩])) ∧
    (∀ (paymentID : String) (request : RefundRequest) (tx : Transaction) (i : Nat)
        (p : PaymentProvider W),
      s.transactions paymentID = some tx → tx.Payment.Status = StatusAuthorized →
      RefundPayment.lookup s.providers tx.ProviderID 0 = some (i, p) →
      AlwaysFails (p.RefundPayment paymentID request) →
      (RefundPayment rt s paymentID request env).2.2.calls
        = env.calls ++ List.replicate s.config.Retry.Attempts.toNat ⟨i, .RefundPayment, false⟩) ∧
    (∀ (paymentID : String) (request : RefundRequest) (tx : Transaction) (i : Nat)
        (p : PaymentProvider W) (j : Nat) (payment : Payment),
      s.transactions paymentID = some tx → tx.Payment.Status = StatusAuthorized →
      RefundPayment.lookup s.providers tx.ProviderID 0 = some (i, p) →
      j + 1 ≤ s.config.Retry.Attempts.toNat →
      SucceedsAfter rt s.config (p.RefundPayment paymentID request) j env.world (some payment) →
      (RefundPayment rt s paymentID request env).2.2.calls
        = env.calls ++ (List.replicate j ⟨i, .RefundPayment, false⟩
            ++ [⟨i, .RefundPayment, true⟩])) := by
  obtain ⟨hn, hatt⟩ := uint_of_attempts _ hmin hmax
  refine ⟨?_, ?_, ?_, ?_⟩
  · intro request p rest i lastErr hfail
    obtain ⟨e, env1, hg, hc⟩ := guarded_fails rt s.config p (p.ProcessPayment request) i
      .ProcessPayment env hfail hatt
    obtain ⟨cb, hE⟩ := exec_admitted rt s.config s.circuitBreaker _ _ _ _ env _ _ hpass hg
    rw [hn] at hc
    exact ⟨e, cb, env1, hc, by simp [ProcessPayment.loop, hE]⟩
  · intro request p rest i lastErr j payment hj hs
    have hg := guarded_succeeds_after rt s.config p (p.ProcessPayment request) i .ProcessPayment
      env (some payment) j (by rw [hn]; exact hj) hs
    obtain ⟨cb, hE⟩ := exec_admitted rt s.config s.circuitBreaker _ _ _ _ env _ _ hpass hg
    constructor <;> simp [ProcessPayment.loop, hE]
  · intro paymentID request tx i p h hs hl hfail
    obtain ⟨e, env1, hg, hc⟩ := guarded_fails rt s.config p (p.RefundPayment paymentID request) i
      .RefundPayment env hfail hatt
    obtain ⟨cb, hE⟩ := exec_admitted rt s.config s.circuitBreaker _ _ _ _ env _ _ hpass hg
    rw [hn] at hc
    simp [RefundPayment, h, hs, hl, hE, hc]
  · intro paymentID request tx i p j payment h hs hl hj hsucc
    have hg := guarded_succeeds_after rt s.config p (p.RefundPayment paymentID request) i
      .RefundPayment env (some payment) j (by rw [hn]; exact hj) hsucc
    obtain ⟨cb, hE⟩ := exec_admitted rt s.config s.circuitBreaker _ _ _ _ env _ _ hpass hg
    simp [RefundPayment, h, hs, hl, hE]

/-- C9 with the three attempts of the test configuration: an upstream that is
down is invoked three times by the dispatcher loop and three times by a
refund; an upstream that recovers after two seconds fails twice and succeeds
on the third invocation. -/
theorem retry_bound_witness :
    (∃ e cb env1,
      env1.calls = [] ++ List.replicate 3 ⟨0, .ProcessPayment, false⟩ ∧
      ProcessPayment.loop clockRuntime sampleRequest
          [downProvider "a" "A", upProvider "b" "B" (samplePayment "p2")] 0 none
          (sampleService [downProvider "a" "A", upProvider "b" "B" (samplePayment "p2")])
          ⟨0, []⟩
        = ProcessPayment.loop clockRuntime sampleRequest
            [upProvider "b" "B" (samplePayment "p2")] 1 (some e)
            { sampleService [downProvider "a" "A", upProvider "b" "B" (samplePayment "p2")] with
              circuitBreaker := cb } env1) ∧
    ((ProcessPayment.loop clockRuntime sampleRequest
          [flakyProvider "a" "A" (samplePayment "p1") 2000000000] 0 none
          (sampleService [flakyProvider "a" "A" (samplePayment "p1") 2000000000]) ⟨0, []⟩).1
        = .returned (some (samplePayment "p1"), none) ∧
      (ProcessPayment.loop clockRuntime sampleRequest
          [flakyProvider "a" "A" (samplePayment "p1") 2000000000] 0 none
          (sampleService [flakyProvider "a" "A" (samplePayment "p1") 2000000000]) ⟨0, []⟩).2.2.calls
        = [] ++ (List.replicate 2 ⟨0, .ProcessPayment, false⟩ ++ [⟨0, .ProcessPayment, true⟩])) ∧
    (RefundPayment clockRuntime (ownedBy (downProvider "a" "A")) "p1" ⟨100⟩ ⟨0, []⟩).2.2.calls
      = [] ++ List.replicate 3 ⟨0, .RefundPayment, false⟩ ∧
    (RefundPayment clockRuntime (ownedBy (flakyProvider "a" "A" (samplePayment "p1") 2000000000))
        "p1" ⟨100⟩ ⟨0, []⟩).2.2.calls
      = [] ++ (List.replicate 2 ⟨0, .RefundPayment, false⟩ ++ [⟨0, .RefundPayment, true⟩]) :=
  ⟨(retry_bound clockRuntime
      (sampleService [downProvider "a" "A", upProvider "b" "B" (samplePayment "p2")]) ⟨0, []⟩
      (by decide) (by decide) rfl).1 sampleRequest (downProvider "a" "A")
      [upProvider "b" "B" (samplePayment "p2")] 0 none (fun _ => by simp [downProvider]),
    (retry_bound clockRuntime
      (sampleService [flakyProvider "a" "A" (samplePayment "p1") 2000000000]) ⟨0, []⟩
      (by decide) (by decide) rfl).2.1 sampleRequest
      (flakyProvider "a" "A" (samplePayment "p1") 2000000000) [] 0 none 2 (samplePayment "p1")
      (by decide)
      ⟨fun k hk => by
        have : k = 0 ∨ k = 1 := by omega
        rcases this with rfl | rfl <;>
          exact fun h => Option.noConfusion (show some (upstreamError "A") = none from h), rfl⟩,
    (retry_bound clockRuntime (ownedBy (downProvider "a" "A")) ⟨0, []⟩
      (by decide) (by decide) rfl).2.2.1 "p1" ⟨100⟩ ⟨samplePayment "p1", "a", "A"⟩ 0
      (downProvider "a" "A") rfl rfl rfl (fun _ => by simp [downProvider]),
    (retry_bound clockRuntime (ownedBy (flakyProvider "a" "A" (samplePayment "p1") 2000000000))
      ⟨0, []⟩ (by decide) (by decide) rfl).2.2.2 "p1" ⟨100⟩ ⟨samplePayment "p1", "a", "A"⟩ 0
      (flakyProvider "a" "A" (samplePayment "p1") 2000000000) 2
      { samplePayment "p1" with Status := "refunded", CurrentAmount := 0 } rfl rfl rfl
      (by decide)
      ⟨fun k hk => by
        have : k = 0 ∨ k = 1 := by omega
        rcases this with rfl | rfl <;>
          exact fun h => Option.noConfusion (show some (upstreamError "A") = none from h), rfl⟩⟩

/-- C10: no double charge and strict order. The providers of the service
write every invocation they receive into a journal; the call returns what it
returns without the journal, with the same ledger and the same world. The invocations one `ProcessPayment` call adds to
the journal are `ProcessPayment` invocations, with the request of the call,
received by providers of the configured list and answered as these answer;
the position of the provider never decreases along the journal, so that all
invocations of a provider precede those of the providers after it; every
invocation but the last is a failure, so that after an invocation that
returns success no provider is invoked, neither the one that succeeded nor one
after it; a payment that is returned is the answer of the last invocation,
and the ledger records it for the provider that received it; and when the
breaker admits the first call, with a positive number of attempts, the first
invocation is received by the first provider. -/
theorem process_payment_order {W : Type} (rt : Runtime W) (s : PaymentService W)
    (request : PaymentRequest) (env : Env (Journaled W)) :
    (ProcessPayment rt.journaled s.journaled request env).1
      = (ProcessPayment rt s request env.plain).1 ∧
    (ProcessPayment rt.journaled s.journaled request env).2.1.transactions
      = (ProcessPayment rt s request env.plain).2.1.transactions ∧
    (ProcessPayment rt.journaled s.journaled request env).2.2.plain
      = (ProcessPayment rt s request env.plain).2.2 ∧
    ∃ new,
      (ProcessPayment rt.journaled s.journaled request env).2.2.world.2 = env.world.2 ++ new ∧
      (∀ r ∈ new, r.asked = .ProcessPayment request ∧
        ∃ p, s.providers[r.provider]? = some p ∧
          ∃ w, r.answer = (p.ProcessPayment request w).1) ∧
      new.Pairwise (fun a b => a.provider ≤ b.provider) ∧
      (∀ r ∈ new.dropLast, r.answer.2 ≠ none) ∧
      (∀ pay, (ProcessPayment rt.journaled s.journaled request env).1
          = .returned (some pay, none) →
        ∃ r p, new.getLast? = some r ∧ r.answer = (some pay, none) ∧
          s.providers[r.provider]? = some p ∧
          (ProcessPayment rt.journaled s.journaled request env).2.1.transactions pay.ID
            = some ⟨pay, p.GetID, p.GetName⟩) ∧
      (s.providers ≠ [] →
        (s.circuitBreaker.beforeRequest (rt.now env.world.1)).2.2 = none →
        uint s.config.Retry.Attempts ≠ 0 → ∃ r, new.head? = some r ∧ r.provider = 0) := by
  obtain ⟨plain1, _, plain3, plain4⟩ := process_plain rt s request env
  refine ⟨plain1, plain3, plain4, ?_⟩
  clear plain1 plain3 plain4
  obtain ⟨new, hj, hall, hpw, hdl, hret, hfirst⟩ :=
    loop_journal rt request s.providers 0 none s.journaled env
  refine ⟨new, hj, fun r hr => ?_, hpw, hdl, fun pay hp => ?_, hfirst⟩
  · obtain ⟨h1, _, p, h2, h3⟩ := hall r hr
    rw [Nat.sub_zero] at h2
    exact ⟨h1, p, h2, h3⟩
  · obtain ⟨r, p, h1, h2, h3, h4⟩ := hret pay hp
    rw [Nat.sub_zero] at h3
    refine ⟨r, p, h1, h2, h3, ?_⟩
    have h5 : (ProcessPayment rt.journaled s.journaled request env).2.1.transactions
        = Function.update s.transactions pay.ID (some ⟨pay, p.GetID, p.GetName⟩) := h4
    rw [h5, Function.update_same]

/-- C10 on a failover: the first provider is down and receives the three
attempts, the second is up and receives one invocation, the last of the
journal. -/
theorem process_payment_order_witness :
    (ProcessPayment clockRuntime.journaled
        (sampleService [downProvider "a" "A", upProvider "b" "B" (samplePayment "p2")]).journaled
        sampleRequest ⟨(0, []), []⟩).2.2.world.2
      = [⟨0, .ProcessPayment sampleRequest, (none, some (upstreamError "A"))⟩,
          ⟨0, .ProcessPayment sampleRequest, (none, some (upstreamError "A"))⟩,
          ⟨0, .ProcessPayment sampleRequest, (none, some (upstreamError "A"))⟩,
          ⟨1, .ProcessPayment sampleRequest, (some (samplePayment "p2"), none)⟩] ∧
    ∃ r, ([⟨0, .ProcessPayment sampleRequest, (none, some (upstreamError "A"))⟩,
          ⟨0, .ProcessPayment sampleRequest, (none, some (upstreamError "A"))⟩,
          ⟨0, .ProcessPayment sampleRequest, (none, some (upstreamError "A"))⟩,
          ⟨1, .ProcessPayment sampleRequest, (some (samplePayment "p2"), none)⟩] :
            List Invocation).head? = some r ∧ r.provider = 0 := by
  obtain ⟨_, _, _, new, hj, _, _, _, _, hfirst⟩ := process_payment_order clockRuntime
    (sampleService [downProvider "a" "A", upProvider "b" "B" (samplePayment "p2")])
    sampleRequest ⟨(0, []), []⟩
  have hrun : (ProcessPayment clockRuntime.journaled
      (sampleService [downProvider "a" "A", upProvider "b" "B" (samplePayment "p2")]).journaled
      sampleRequest ⟨(0, []), []⟩).2.2.world.2
      = [⟨0, .ProcessPayment sampleRequest, (none, some (upstreamError "A"))⟩,
          ⟨0, .ProcessPayment sampleRequest, (none, some (upstreamError "A"))⟩,
          ⟨0, .ProcessPayment sampleRequest, (none, some (upstreamError "A"))⟩,
          ⟨1, .ProcessPayment sampleRequest, (some (samplePayment "p2"), none)⟩] := rfl
  refine ⟨hrun, ?_⟩
  rw [hrun] at hj
  simp only [List.nil_append] at hj
  rw [hj]
  exact hfirst (by simp [sampleService]) rfl (by decide)

/-- C11: status normalization in `StandardResponseTransformer`. For every body
that decodes to a response `resp`, the transformer returns a payment and no
error; the status of the payment is AUTHORIZED if and only if the upstream
status is exactly "authorized" or "paid", REFUNDED if and only if it is
exactly "refunded" or "voided", and FAILED if and only if it is any other
string (the empty string of an absent field, "failed", "Authorized", ...);
and every other field is the one of the response. -/
theorem status_normalization (unmarshal : String → Except GoError providers.MockPaymentResponse)
    (provider : providers.Provider) (data : String) (resp : providers.MockPaymentResponse)
    (h : unmarshal data = .ok resp) :
    ∃ payment : Payment,
      providers.StandardResponseTransformer unmarshal provider data = (some payment, none) ∧
      (payment.Status = StatusAuthorized ↔ resp.Status = "authorized" ∨ resp.Status = "paid") ∧
      (payment.Status = StatusRefunded ↔ resp.Status = "refunded" ∨ resp.Status = "voided") ∧
      (payment.Status = StatusFailed ↔
        ¬ (resp.Status = "authorized" ∨ resp.Status = "paid" ∨ resp.Status = "refunded" ∨
          resp.Status = "voided")) ∧
      payment.ID = resp.ID ∧ payment.CreatedAt = resp.CreatedAt ∧
      payment.OriginalAmount = resp.OriginalAmount ∧
      payment.CurrentAmount = resp.CurrentAmount ∧ payment.Currency = resp.Currency ∧
      payment.Description = resp.Description ∧ payment.PaymentMethod = resp.PaymentMethod ∧
      payment.CardID = resp.CardID := by
  have hne1 : StatusAuthorized ≠ StatusRefunded := by decide
  have hne2 : StatusAuthorized ≠ StatusFailed := by decide
  have hne3 : StatusRefunded ≠ StatusFailed := by decide
  have hd1 : ("refunded" : String) ≠ "authorized" := by decide
  have hd2 : ("refunded" : String) ≠ "paid" := by decide
  have hd3 : ("voided" : String) ≠ "authorized" := by decide
  have hd4 : ("voided" : String) ≠ "paid" := by decide
  simp only [providers.StandardResponseTransformer, h]
  refine ⟨_, rfl, ?_, ?_, ?_, rfl, rfl, rfl, rfl, rfl, rfl, rfl, rfl⟩
  · by_cases h1 : resp.Status = "authorized" ∨ resp.Status = "paid"
    · simp [h1]
    · by_cases h2 : resp.Status = "refunded" ∨ resp.Status = "voided"
      · simp only [h1, h2, if_false, if_true, iff_false]
        exact fun hx => hne1 hx.symm
      · simp only [h1, h2, if_false, iff_false]
        exact fun hx => hne2 hx.symm
  · by_cases h1 : resp.Status = "authorized" ∨ resp.Status = "paid"
    · simp only [h1, if_true]
      constructor
      · exact fun hx => absurd hx hne1
      · intro h2
        rcases h1 with h1 | h1 <;> rcases h2 with h2 | h2 <;> rw [h1] at h2
        · exact absurd h2.symm hd1
        · exact absurd h2.symm hd3
        · exact absurd h2.symm hd2
        · exact absurd h2.symm hd4
    · by_cases h2 : resp.Status = "refunded" ∨ resp.Status = "voided"
      · simp [h1, h2]
      · simp only [h1, h2, if_false, iff_false]
        exact fun hx => hne3 hx.symm
  · by_cases h1 : resp.Status = "authorized" ∨ resp.Status = "paid"
    · simp only [h1, if_true]
      constructor
      · exact fun hx => absurd hx hne2
      · intro h2
        exact absurd (by rcases h1 with h1 | h1 <;> simp [h1]) h2
    · by_cases h2 : resp.Status = "refunded" ∨ resp.Status = "voided"
      · simp only [h1, h2, if_false, if_true]
        constructor
        · exact fun hx => absurd hx hne3
        · intro h3
          exact absurd (by rcases h2 with h2 | h2 <;> simp [h2]) h3
      · simp only [h1, h2, if_false, true_iff]
        tauto

/-- C11 on a body whose status is "Authorized", with a capital letter: the
payment is FAILED. -/
theorem status_normalization_witness :
    ∃ payment : Payment,
      providers.StandardResponseTransformer sampleUnmarshal ⟨"a", "A"⟩ "Authorized"
        = (some payment, none) ∧
      (payment.Status = StatusAuthorized ↔
        (sampleResponse "Authorized").Status = "authorized" ∨
          (sampleResponse "Authorized").Status = "paid") ∧
      (payment.Status = StatusRefunded ↔
        (sampleResponse "Authorized").Status = "refunded" ∨
          (sampleResponse "Authorized").Status = "voided") ∧
      (payment.Status = StatusFailed ↔
        ¬ ((sampleResponse "Authorized").Status = "authorized" ∨
          (sampleResponse "Authorized").Status = "paid" ∨
          (sampleResponse "Authorized").Status = "refunded" ∨
          (sampleResponse "Authorized").Status = "voided")) ∧
      payment.ID = (sampleResponse "Authorized").ID ∧
      payment.CreatedAt = (sampleResponse "Authorized").CreatedAt ∧
      payment.OriginalAmount = (sampleResponse "Authorized").OriginalAmount ∧
      payment.CurrentAmount = (sampleResponse "Authorized").CurrentAmount ∧
      payment.Currency = (sampleResponse "Authorized").Currency ∧
      payment.Description = (sampleResponse "Authorized").Description ∧
      payment.PaymentMethod = (sampleResponse "Authorized").PaymentMethod ∧
      payment.CardID = (sampleResponse "Authorized").CardID :=
  status_normalization sampleUnmarshal ⟨"a", "A"⟩ "Authorized" (sampleResponse "Authorized") rfl

/-- C12: `GetPayment` is a pure ledger lookup. For an id in the ledger it
returns the snapshot stored under the id and no error; for any other id a nil
payment and the error "payment not found: " followed by the id. As a call of
the dispatcher it leaves the service and the environment exactly as they are
(no provider is invoked, the breaker and the ledger are untouched), so a
second lookup returns the same result. And after a `ProcessPayment` that
returned the payment `p` with no error, `GetPayment(p.ID)` returns `p`. -/
theorem get_payment_lookup {W : Type} (rt : Runtime W) (s : PaymentService W)
    (paymentID : String) (env : Env W) :
    (∀ tx, s.transactions paymentID = some tx →
      GetPayment s paymentID = (some tx.Payment, none)) ∧
    (s.transactions paymentID = none →
      ∃ err, GetPayment s paymentID = (none, some err) ∧
        err.Error = "payment not found: " ++ paymentID) ∧
    ((Operation.GetPayment paymentID).apply rt s env = (.returned (GetPayment s paymentID), s, env)) ∧
    (runOperations rt [.GetPayment paymentID, .GetPayment paymentID] s env = (s, env)) ∧
    (∀ (request : PaymentRequest) (p : Payment),
      (ProcessPayment rt s request env).1 = .returned (some p, none) →
      GetPayment (ProcessPayment rt s request env).2.1 p.ID = (some p, none)) := by
  refine ⟨fun tx h => ?_, fun h => ?_, rfl, rfl, fun request p hp => ?_⟩
  · simp [GetPayment, h]
  · exact ⟨.errorString ("payment not found: " ++ paymentID), by simp [GetPayment, h], rfl⟩
  · obtain ⟨_, _, _, hl⟩ := loop_spec rt request s.providers 0 none s env
    rcases hl with ⟨pay, prov, _, hr, ht⟩ | ⟨_, hd | hd | ⟨e, hd⟩⟩
    · have hr1 : (ProcessPayment rt s request env).1 = .returned (some pay, none) := hr
      rw [hr1] at hp
      simp only [Outcome.returned.injEq, Prod.mk.injEq, Option.some.injEq, and_true] at hp
      subst hp
      have ht1 : (ProcessPayment rt s request env).2.1.transactions
          = Function.update s.transactions pay.ID (some ⟨pay, prov.GetID, prov.GetName⟩) := ht
      simp [GetPayment, ht1]
    · have hd1 : (ProcessPayment rt s request env).1 = .diverged := hd
      rw [hd1] at hp
      cases hp
    · have hd1 : (ProcessPayment rt s request env).1 = .panicked nilDereference := hd
      rw [hd1] at hp
      cases hp
    · have hd1 : (ProcessPayment rt s request env).1 = .returned (none, some e) := hd
      rw [hd1] at hp
      simp at hp

/-- C12 on the ledger with the payment "p1": the lookup of "p1", the lookup of
an unknown id, and the lookup after a charge. -/
theorem get_payment_lookup_witness :
    GetPayment authorizedService "p1" = (some (samplePayment "p1"), none) ∧
    (∃ err, GetPayment authorizedService "p9" = (none, some err) ∧
      err.Error = "payment not found: " ++ "p9") ∧
    GetPayment (ProcessPayment clockRuntime singleProviderService sampleRequest ⟨0, []⟩).2.1
      (samplePayment "p1").ID = (some (samplePayment "p1"), none) :=
  ⟨(get_payment_lookup clockRuntime authorizedService "p1" ⟨0, []⟩).1
      ⟨samplePayment "p1", "stripe", "Stripe"⟩ rfl,
    (get_payment_lookup clockRuntime authorizedService "p9" ⟨0, []⟩).2.1 rfl,
    (get_payment_lookup clockRuntime singleProviderService "p1" ⟨0, []⟩).2.2.2.2 sampleRequest
      (samplePayment "p1") rfl⟩

/-- C13 fails on the code. The one provider of a fresh service answers every
charge with the payment "p1" together with an error. `ProcessPayment` ends in
the error "all providers failed", and the ledger holds no entry under "p1":
the failed payment is not recorded. On an error the closure handed to the
breaker returns a nil interface in place of the payment, so that the branch
of `ProcessPayment` that stamps FAILED and writes the entry never runs. -/
theorem failed_authorization_not_recorded :
    (∀ w, ((partialProvider "a" "A" (samplePayment "p1")).ProcessPayment sampleRequest w).1
      = (some (samplePayment "p1"), some (upstreamError "A"))) ∧
    (∃ err, (ProcessPayment clockRuntime
        (sampleService [partialProvider "a" "A" (samplePayment "p1")]) sampleRequest ⟨0, []⟩).1
      = .returned (none, some (.wrapError "all providers failed, last error: " err))) ∧
    (ProcessPayment clockRuntime (sampleService [partialProvider "a" "A" (samplePayment "p1")])
      sampleRequest ⟨0, []⟩).2.1.transactions "p1" = none ∧
    statusOf (ProcessPayment clockRuntime
      (sampleService [partialProvider "a" "A" (samplePayment "p1")])
      sampleRequest ⟨0, []⟩).2.1 "p1" ≠ some StatusFailed :=
  ⟨fun _ => rfl, ⟨_, rfl⟩, rfl, by decide⟩

/-- C14 fails on the code, by the same defect as C13. The ledger holds the
AUTHORIZED payment "p1" of a provider that answers every refund with a payment
object together with an error. `RefundPayment` returns a nil payment and the
error, and the entry under "p1" is the one before the call, still AUTHORIZED:
its snapshot is not replaced and it is not stamped FAILED. -/
theorem failed_refund_not_recorded :
    (∀ w, ((partialProvider "a" "A" (samplePayment "p1")).RefundPayment "p1" ⟨100⟩ w).1
      = (some (samplePayment "p1"), some (upstreamError "A"))) ∧
    (∃ err, (RefundPayment clockRuntime (ownedBy (partialProvider "a" "A" (samplePayment "p1")))
        "p1" ⟨100⟩ ⟨0, []⟩).1 = .returned (none, some err)) ∧
    (RefundPayment clockRuntime (ownedBy (partialProvider "a" "A" (samplePayment "p1")))
      "p1" ⟨100⟩ ⟨0, []⟩).2.1.transactions "p1" = some ⟨samplePayment "p1", "a", "A"⟩ ∧
    statusOf (RefundPayment clockRuntime (ownedBy (partialProvider "a" "A" (samplePayment "p1")))
      "p1" ⟨100⟩ ⟨0, []⟩).2.1 "p1" = some StatusAuthorized :=
  ⟨fun _ => rfl, ⟨_, rfl⟩, by decide, by decide⟩

/-- C15, as stated, fails on the code. A fresh service has the providers "a",
whose upstream is up at time 0 and down afterwards, and "b", which is up; both
upstreams issue the id "p1". The first charge is authorized by "a" and
recorded with ProviderID "a"; for the second charge "a" fails, "b" returns a
payment carrying the same id, and the entry "p1" has ProviderID "b" and
ProviderName "B" afterwards. -/
theorem reparenting_counterexample :
    (runOperations clockRuntime [.ProcessPayment sampleRequest]
      (sampleService [fadingProvider "a" "A" (samplePayment "p1") 1,
        upProvider "b" "B" (samplePayment "p1")]) ⟨0, []⟩).1.transactions "p1"
      = some ⟨samplePayment "p1", "a", "A"⟩ ∧
    (runOperations clockRuntime [.ProcessPayment sampleRequest, .ProcessPayment sampleRequest]
      (sampleService [fadingProvider "a" "A" (samplePayment "p1") 1,
        upProvider "b" "B" (samplePayment "p1")]) ⟨0, []⟩).1.transactions "p1"
      = some ⟨samplePayment "p1", "b", "B"⟩ ∧
    ((runOperations clockRuntime [.ProcessPayment sampleRequest, .ProcessPayment sampleRequest]
      (sampleService [fadingProvider "a" "A" (samplePayment "p1") 1,
        upProvider "b" "B" (samplePayment "p1")]) ⟨0, []⟩).1.transactions "p1").map
        (fun tx => tx.ProviderID) ≠ some "a" := by
  refine ⟨by decide, by decide, by decide⟩

/-- C15, amended: no entry is ever deleted, and an entry keeps its provider
unless another provider returns a payment carrying its id. Once the ledger
holds an entry under an id, it holds an entry under that id after every
sequence of `ProcessPayment`, `RefundPayment` and `GetPayment` calls, whatever
the providers do; and that entry has the same `ProviderID` and `ProviderName`
when every provider of the service that returns, with a nil error, a payment
carrying the id has that `GetID()` and `GetName()`. -/
theorem entry_keeps_provider {W : Type} (rt : Runtime W) (paymentID : String) :
    ∀ (ops : List Operation) (s : PaymentService W) (env : Env W) (tx : Transaction),
      s.transactions paymentID = some tx →
      ∃ tx1, (runOperations rt ops s env).1.transactions paymentID = some tx1 ∧
        (IssuedOnlyBy s.providers paymentID tx.ProviderID tx.ProviderName →
          tx1.ProviderID = tx.ProviderID ∧ tx1.ProviderName = tx.ProviderName) := by
  intro ops
  induction ops with
  | nil => intro s env tx h; exact ⟨tx, h, fun _ => ⟨rfl, rfl⟩⟩
  | cons op ops ih =>
    intro s env tx h
    obtain ⟨hprov, tx0, h0, hkeep0⟩ := apply_keeps_entry rt paymentID op s env tx h
    obtain ⟨tx1, h1, hkeep1⟩ := ih (op.apply rt s env).2.1 (op.apply rt s env).2.2 tx0 h0
    refine ⟨tx1, h1, fun hiss => ?_⟩
    obtain ⟨e1, e2⟩ := hkeep0 hiss
    rw [hprov, e1, e2] at hkeep1
    exact hkeep1 hiss

/-- The amended C15 on the ledger with the payment "p1" of "stripe", whose
other provider is down: a charge that "stripe" answers with the same id, a
refund of "p1" and a further charge leave the entry with "stripe". -/
theorem entry_keeps_provider_witness :
    ∃ tx1, (runOperations clockRuntime
        [.ProcessPayment sampleRequest, .RefundPayment "p1" ⟨100⟩, .ProcessPayment sampleRequest]
        authorizedService ⟨0, []⟩).1.transactions "p1" = some tx1 ∧
      tx1.ProviderID = "stripe" ∧ tx1.ProviderName = "Stripe" := by
  obtain ⟨tx1, h1, hkeep⟩ := entry_keeps_provider clockRuntime "p1"
    [.ProcessPayment sampleRequest, .RefundPayment "p1" ⟨100⟩, .ProcessPayment sampleRequest]
    authorizedService ⟨0, []⟩ ⟨samplePayment "p1", "stripe", "Stripe"⟩ rfl
  refine ⟨tx1, h1, hkeep ?_⟩
  intro prov hp request w pay hw _
  have hmem : prov = upProvider "stripe" "Stripe" (samplePayment "p1") ∨
      prov = downProvider "braintree" "Braintree" := by
    simpa [authorizedService, withEntry, sampleService, stripeAndBraintree] using hp
  rcases hmem with rfl | rfl
  · exact ⟨rfl, rfl⟩
  · simp [downProvider] at hw

/-- C16, as stated, fails on the code. The one provider of a fresh service
answers through `StandardResponseTransformer`, and its upstream answers 200
with a body whose status is "declined": the transformer returns a FAILED
payment and no error, `ProcessPayment` returns that payment with no error, and
the ledger snapshot under its id is FAILED. The same with a body that has no
status. -/
theorem authorized_status_counterexample :
    (ProcessPayment clockRuntime (sampleService [transformingProvider "a" "A" "declined"])
      sampleRequest ⟨0, []⟩).1
      = .returned (some { samplePayment "p1" with Status := StatusFailed }, none) ∧
    statusOf (ProcessPayment clockRuntime
      (sampleService [transformingProvider "a" "A" "declined"]) sampleRequest ⟨0, []⟩).2.1 "p1"
      = some StatusFailed ∧
    (ProcessPayment clockRuntime (sampleService [transformingProvider "a" "A" ""])
      sampleRequest ⟨0, []⟩).1
      = .returned (some { samplePayment "p1" with Status := StatusFailed }, none) ∧
    statusOf (ProcessPayment clockRuntime
      (sampleService [transformingProvider "a" "A" ""]) sampleRequest ⟨0, []⟩).2.1 "p1"
      ≠ some StatusAuthorized :=
  ⟨rfl, by decide, rfl, by decide⟩

/-- C16, amended: `ProcessPayment` returns and records the payment of the
succeeding provider as it is. Whenever `ProcessPayment` returns a payment with
no error, a provider of the service returned exactly that payment with a nil
error, the ledger entry under its id holds that payment for that provider, and
so the snapshot has the status the provider gave; for a provider that answers
through `StandardResponseTransformer`, the status is AUTHORIZED if and only if
the status of the decoded body is "authorized" or "paid". -/
theorem authorized_as_provider_answers {W : Type} (rt : Runtime W) (s : PaymentService W)
    (request : PaymentRequest) (env : Env W) (pay : Payment)
    (h : (ProcessPayment rt s request env).1 = .returned (some pay, none)) :
    ∃ prov w, prov ∈ s.providers ∧ (prov.ProcessPayment request w).1 = (some pay, none) ∧
      (ProcessPayment rt s request env).2.1.transactions pay.ID
        = some ⟨pay, prov.GetID, prov.GetName⟩ ∧
      statusOf (ProcessPayment rt s request env).2.1 pay.ID = some pay.Status ∧
      ∀ (unmarshal : String → Except GoError providers.MockPaymentResponse)
          (provider : providers.Provider) (data : String) (resp : providers.MockPaymentResponse),
        unmarshal data = .ok resp →
        (prov.ProcessPayment request w).1
          = providers.StandardResponseTransformer unmarshal provider data →
        (pay.Status = StatusAuthorized ↔ resp.Status = "authorized" ∨ resp.Status = "paid") := by
  obtain ⟨prov, hmem, ⟨w, hw⟩, ht⟩ := loop_origin rt request pay s.providers 0 none s env h
  have ht1 : (ProcessPayment rt s request env).2.1.transactions
      = Function.update s.transactions pay.ID (some ⟨pay, prov.GetID, prov.GetName⟩) := ht
  refine ⟨prov, w, hmem, hw, by rw [ht1, Function.update_same],
    by simp [statusOf, ht1], fun unmarshal provider data resp hu hx => ?_⟩
  rw [hw] at hx
  simp only [providers.StandardResponseTransformer, hu, Prod.mk.injEq, Option.some.injEq,
    and_true] at hx
  have hne1 : StatusRefunded ≠ StatusAuthorized := by decide
  have hne2 : StatusFailed ≠ StatusAuthorized := by decide
  rw [hx]
  by_cases h1 : resp.Status = "authorized" ∨ resp.Status = "paid"
  · simp [h1]
  · by_cases h2 : resp.Status = "refunded" ∨ resp.Status = "voided"
    · simp only [h1, h2, if_false, if_true, iff_false]
      exact hne1
    · simp only [h1, h2, if_false, iff_false]
      exact hne2

/-- The amended C16 on a provider whose upstream answers "paid": the payment
returned and recorded is the provider's, AUTHORIZED. -/
theorem authorized_as_provider_answers_witness :
    (ProcessPayment clockRuntime (sampleService [transformingProvider "a" "A" "paid"])
      sampleRequest ⟨0, []⟩).1 = .returned (some (samplePayment "p1"), none) ∧
    ∃ prov w, prov ∈ (sampleService [transformingProvider "a" "A" "paid"]).providers ∧
      (prov.ProcessPayment sampleRequest w).1 = (some (samplePayment "p1"), none) ∧
      (ProcessPayment clockRuntime (sampleService [transformingProvider "a" "A" "paid"])
        sampleRequest ⟨0, []⟩).2.1.transactions (samplePayment "p1").ID
        = some ⟨samplePayment "p1", prov.GetID, prov.GetName⟩ ∧
      statusOf (ProcessPayment clockRuntime (sampleService [transformingProvider "a" "A" "paid"])
        sampleRequest ⟨0, []⟩).2.1 (samplePayment "p1").ID = some (samplePayment "p1").Status ∧
      ∀ (unmarshal : String → Except GoError providers.MockPaymentResponse)
          (provider : providers.Provider) (data : String) (resp : providers.MockPaymentResponse),
        unmarshal data = .ok resp →
        (prov.ProcessPayment sampleRequest w).1
          = providers.StandardResponseTransformer unmarshal provider data →
        ((samplePayment "p1").Status = StatusAuthorized ↔
          resp.Status = "authorized" ∨ resp.Status = "paid") :=
  ⟨rfl, authorized_as_provider_answers clockRuntime
    (sampleService [transformingProvider "a" "A" "paid"]) sampleRequest ⟨0, []⟩
    (samplePayment "p1") rfl⟩

/-- C17: a missing provider on refund. For a ledger entry with status
AUTHORIZED whose `ProviderID` is the `GetID()` of no provider in the configured
list, `RefundPayment` returns a nil payment and the error "provider not
found: " followed by that `ProviderID`, and the service (ledger and breaker)
and the environment (no provider invocation) are exactly as before. The
checks come in the order not-found, invalid-state, provider-missing: an entry
that is not AUTHORIZED yields the invalid-state error also when its provider
is missing, and an unknown id yields the not-found error. -/
theorem refund_missing_provider {W : Type} (rt : Runtime W) (s : PaymentService W)
    (paymentID : String) (request : RefundRequest) (env : Env W) :
    (∀ tx, s.transactions paymentID = some tx → tx.Payment.Status = StatusAuthorized →
      (∀ p ∈ s.providers, p.GetID ≠ tx.ProviderID) →
      ∃ err, RefundPayment rt s paymentID request env = (.returned (none, some err), s, env) ∧
        err.Error = "provider not found: " ++ tx.ProviderID) ∧
    (∀ tx, s.transactions paymentID = some tx → tx.Payment.Status ≠ StatusAuthorized →
      (∀ p ∈ s.providers, p.GetID ≠ tx.ProviderID) →
      ∃ err, RefundPayment rt s paymentID request env = (.returned (none, some err), s, env) ∧
        err.Error = "payment cannot be refunded: status is " ++ tx.Payment.Status) ∧
    (s.transactions paymentID = none →
      ∃ err, RefundPayment rt s paymentID request env = (.returned (none, some err), s, env) ∧
        err.Error = "payment not found: " ++ paymentID) := by
  obtain ⟨r1, r2, r3⟩ := refund_rejected rt s paymentID request env
  refine ⟨fun tx h hs hmiss => ?_, fun tx h hs _ => ?_, fun h => ?_⟩
  · exact ⟨_, r3 tx h hs (lookup_none tx.ProviderID s.providers 0 hmiss), rfl⟩
  · exact ⟨_, r2 tx h hs, rfl⟩
  · exact ⟨_, r1 h, rfl⟩

/-- C17 on ledger entries of a provider "paypal" that is not configured: an
AUTHORIZED one, a FAILED one, and an id that is unknown. -/
theorem refund_missing_provider_witness :
    (∃ err, RefundPayment clockRuntime orphanService "p1" ⟨100⟩ ⟨0, []⟩
        = (.returned (none, some err), orphanService, ⟨0, []⟩) ∧
      err.Error = "provider not found: " ++ "paypal") ∧
    (∃ err, RefundPayment clockRuntime orphanService "p2" ⟨100⟩ ⟨0, []⟩
        = (.returned (none, some err), orphanService, ⟨0, []⟩) ∧
      err.Error = "payment cannot be refunded: status is " ++ "failed") ∧
    (∃ err, RefundPayment clockRuntime orphanService "p3" ⟨100⟩ ⟨0, []⟩
        = (.returned (none, some err), orphanService, ⟨0, []⟩) ∧
      err.Error = "payment not found: " ++ "p3") :=
  ⟨(refund_missing_provider clockRuntime orphanService "p1" ⟨100⟩ ⟨0, []⟩).1
      ⟨samplePayment "p1", "paypal", "PayPal"⟩ rfl rfl (by decide),
    (refund_missing_provider clockRuntime orphanService "p2" ⟨100⟩ ⟨0, []⟩).2.1
      ⟨{ samplePayment "p2" with Status := StatusFailed }, "paypal", "PayPal"⟩ rfl
      (by decide) (by decide),
    (refund_missing_provider clockRuntime orphanService "p3" ⟨100⟩ ⟨0, []⟩).2.2 rfl⟩

/-- C18: the HTTP status mapping of the handlers, for every service behind
them and every state `st` of it.

* `ProcessPayment` answers 400 exactly when the body fails to bind;
  `RefundPayment` exactly when the id parameter is empty or the body fails to
  bind; `GetPayment`, which binds no body, exactly when the id parameter is
  empty. In these cases the state of the service is untouched: the service is
  not called.
* Otherwise the handler calls the operation of the service once, in the state
  `st`: when it returns an error, whatever the error, the status is 500; when
  it returns no error, the status is 200 and the body is the payment it
  returned. -/
theorem handler_status_mapping {σ : Type} (h : handlers.PaymentHandler σ) (st : σ) :
    (∀ bind : Except GoError PaymentRequest,
      ((h.ProcessPayment bind st).1.code = 400 ↔ ∃ err, bind = .error err) ∧
      ((∃ err, bind = .error err) → (h.ProcessPayment bind st).2 = st) ∧
      (∀ request, bind = .ok request →
        (h.ProcessPayment bind st).2 = (h.service.ProcessPayment request st).2 ∧
        (∀ p err, (h.service.ProcessPayment request st).1 = (p, some err) →
          (h.ProcessPayment bind st).1.code = 500) ∧
        (∀ p, (h.service.ProcessPayment request st).1 = (p, none) →
          (h.ProcessPayment bind st).1 = ⟨200, .payment p⟩))) ∧
    (∀ (paymentID : String) (bind : Except GoError RefundRequest),
      ((h.RefundPayment paymentID bind st).1.code = 400 ↔
        paymentID = "" ∨ ∃ err, bind = .error err) ∧
      ((paymentID = "" ∨ ∃ err, bind = .error err) →
        (h.RefundPayment paymentID bind st).2 = st) ∧
      (∀ request, paymentID ≠ "" → bind = .ok request →
        (h.RefundPayment paymentID bind st).2
          = (h.service.RefundPayment paymentID request st).2 ∧
        (∀ p err, (h.service.RefundPayment paymentID request st).1 = (p, some err) →
          (h.RefundPayment paymentID bind st).1.code = 500) ∧
        (∀ p, (h.service.RefundPayment paymentID request st).1 = (p, none) →
          (h.RefundPayment paymentID bind st).1 = ⟨200, .payment p⟩))) ∧
    (∀ paymentID : String,
      ((h.GetPayment paymentID st).1.code = 400 ↔ paymentID = "") ∧
      (paymentID = "" → (h.GetPayment paymentID st).2 = st) ∧
      (paymentID ≠ "" →
        (h.GetPayment paymentID st).2 = (h.service.GetPayment paymentID st).2 ∧
        (∀ p err, (h.service.GetPayment paymentID st).1 = (p, some err) →
          (h.GetPayment paymentID st).1.code = 500) ∧
        (∀ p, (h.service.GetPayment paymentID st).1 = (p, none) →
          (h.GetPayment paymentID st).1 = ⟨200, .payment p⟩))) := by
  refine ⟨fun bind => ?_, fun paymentID bind => ?_, fun paymentID => ?_⟩
  · cases bind with
    | error e =>
      simp [handlers.PaymentHandler.ProcessPayment, handlers.StatusBadRequest]
    | ok request =>
      rcases hs : h.service.ProcessPayment request st with ⟨⟨p, _ | e⟩, st1⟩ <;>
        simp [handlers.PaymentHandler.ProcessPayment, hs, handlers.StatusOK,
          handlers.StatusInternalServerError]
  · by_cases hid : paymentID = ""
    · simp [handlers.PaymentHandler.RefundPayment, hid, handlers.StatusBadRequest]
    · cases bind with
      | error e =>
        simp [handlers.PaymentHandler.RefundPayment, hid, handlers.StatusBadRequest]
      | ok request =>
        rcases hs : h.service.RefundPayment paymentID request st with ⟨⟨p, _ | e⟩, st1⟩ <;>
          simp [handlers.PaymentHandler.RefundPayment, hid, hs, handlers.StatusOK,
            handlers.StatusInternalServerError]
  · by_cases hid : paymentID = ""
    · simp [handlers.PaymentHandler.GetPayment, hid, handlers.StatusBadRequest]
    · rcases hs : h.service.GetPayment paymentID st with ⟨⟨p, _ | e⟩, st1⟩ <;>
        simp [handlers.PaymentHandler.GetPayment, hid, hs, handlers.StatusOK,
          handlers.StatusInternalServerError]

/-- C18 on a service that counts its calls: a body that does not bind is
answered 400 without a call; a refund that the service rejects with "payment
not found" is answered 500; a lookup that succeeds is answered 200 with the
payment. -/
theorem handler_status_mapping_witness :
    ((handlers.PaymentHandler.mk (countingService (none, none))).ProcessPayment
        (.error bindError) 0).2 = 0 ∧
    ((handlers.PaymentHandler.mk (countingService
        (none, some (.errorString "payment not found: p1")))).RefundPayment "p1" (.ok ⟨100⟩)
        0).1.code = 500 ∧
    ((handlers.PaymentHandler.mk (countingService
        (some (samplePayment "p1"), none))).GetPayment "p1" 0).1
      = ⟨200, .payment (some (samplePayment "p1"))⟩ :=
  ⟨((handler_status_mapping (handlers.PaymentHandler.mk (countingService (none, none))) 0).1
      (.error bindError)).2.1 ⟨bindError, rfl⟩,
    (((handler_status_mapping (handlers.PaymentHandler.mk (countingService
      (none, some (.errorString "payment not found: p1")))) 0).2.1 "p1" (.ok ⟨100⟩)).2.2
      ⟨100⟩ (by decide) rfl).2.1 none (.errorString "payment not found: p1") rfl,
    (((handler_status_mapping (handlers.PaymentHandler.mk (countingService
      (some (samplePayment "p1"), none))) 0).2.2 "p1").2.2 (by decide)).2.2
      (some (samplePayment "p1")) rfl⟩

/-- C19, as stated, fails on the code: the ratio is not taken exactly. The
configured ratio is the float64 number 1351081914830981 / 2 ^ 51 (the one
written 0.6000009) and the counters show 559734173 failures in 932888889
requests. The exact fraction is below the ratio, its float64 quotient is the
ratio itself, and `ReadyToTrip` is true. -/
theorem exact_ratio_counterexample :
    ReadyToTrip
      { getTestConfig with
        CircuitBreaker := ⟨3, 10, 30, 3, mkRat 1351081914830981 2251799813685248⟩ }
      ⟨932888889, 373154716, 559734173, 0, 1⟩ = true ∧
    float64.ofRat (mkRat 1351081914830981 2251799813685248)
      = mkRat 1351081914830981 2251799813685248 ∧
    float64.ofRat (mkRat 6000009 10000000) = mkRat 1351081914830981 2251799813685248 ∧
    ¬ (mkRat 1351081914830981 2251799813685248 ≤ mkRat 559734173 932888889) ∧
    float64.nearest 559734173 932888889 = mkRat 1351081914830981 2251799813685248 := by
  refine ⟨by decide, by decide, by decide, by decide, by decide⟩

/-- C19, amended: the ratio is the float64 quotient. For all breaker counts
with `Requests ≥ 1` and every configuration, `ReadyToTrip` is true if and only
if `Requests ≥ MinRequests` and the float64 quotient of `TotalFailures` by
`Requests` is at least the float64 `FailureRatio`. The float64 quotient of two
`uint32` counts is within the relative error `2 ^ (-53)` of the exact ratio.
With `FailureRatio = 0.6` the comparison agrees with the exact one for all
`uint32` counts: `ReadyToTrip` is true if and only if `Requests ≥ MinRequests`
and `TotalFailures / Requests ≥ 3/5`. With `MinRequests = 3` and
`FailureRatio = 0.6` it is true for the pairs (3, 3) and (5, 3) of requests
and failures and false for (2, 2) and (5, 2). With `Requests = 0` (and so no
failures) it is false. -/
theorem trip_predicate (cfg : Config) (counts : Counts) :
    (counts.Requests ≠ 0 →
      (ReadyToTrip cfg counts = true ↔
        counts.Requests ≥ cfg.CircuitBreaker.MinRequests ∧
          float64.ofRat cfg.CircuitBreaker.FailureRatio
            ≤ float64.nearest counts.TotalFailures counts.Requests)) ∧
    (counts.Requests ≠ 0 → counts.Requests < 2 ^ 32 → counts.TotalFailures < 2 ^ 32 →
      |float64.nearest counts.TotalFailures counts.Requests
          - (counts.TotalFailures : ℚ) / (counts.Requests : ℚ)|
        ≤ (counts.TotalFailures : ℚ) / (counts.Requests : ℚ) / 2 ^ 53) ∧
    (cfg.CircuitBreaker.FailureRatio = mkRat 3 5 → counts.Requests ≠ 0 →
      counts.Requests < 2 ^ 32 → counts.TotalFailures < 2 ^ 32 →
      (ReadyToTrip cfg counts = true ↔
        counts.Requests ≥ cfg.CircuitBreaker.MinRequests ∧
          (3 : ℚ) / 5 ≤ (counts.TotalFailures : ℚ) / (counts.Requests : ℚ))) ∧
    (cfg.CircuitBreaker.MinRequests = 3 → cfg.CircuitBreaker.FailureRatio = mkRat 3 5 →
      ∀ a b c,
        ReadyToTrip cfg ⟨3, a, 3, b, c⟩ = true ∧ ReadyToTrip cfg ⟨5, a, 3, b, c⟩ = true ∧
        ReadyToTrip cfg ⟨2, a, 2, b, c⟩ = false ∧ ReadyToTrip cfg ⟨5, a, 2, b, c⟩ = false) ∧
    (counts.Requests = 0 → counts.TotalFailures ≤ counts.Requests →
      ReadyToTrip cfg counts = false) := by
  have hsix : float64.ofRat (mkRat 3 5) = mkRat 5404319552844595 (2 ^ 53) := by decide
  refine ⟨fun hne => ?_, fun hne hr hf => ?_, fun hratio hne hr hf => ?_,
    fun hmin hratio a b c => ?_, fun h0 hf => ?_⟩
  · simp only [ReadyToTrip, hne, if_false, Bool.and_eq_true, decide_eq_true_eq, ge_iff_le]
  · by_cases hz : counts.TotalFailures = 0
    · rw [hz, float64.nearest_zero]
      simp
    · exact float64.nearest_accuracy _ _ hz hne
        (by have := float64.exponent_lt _ 32 hz hf; omega)
  · have hpos : (0 : ℚ) < (counts.Requests : ℚ) := by
      exact_mod_cast Nat.pos_of_ne_zero hne
    have hexact : (3 : ℚ) / 5 ≤ (counts.TotalFailures : ℚ) / (counts.Requests : ℚ) ↔
        3 * counts.Requests ≤ 5 * counts.TotalFailures := by
      rw [div_le_div_iff₀ (by norm_num) hpos]
      constructor
      · intro h
        have h' : ((3 * counts.Requests : Nat) : ℚ) ≤ ((5 * counts.TotalFailures : Nat) : ℚ) := by
          push_cast; linarith
        exact_mod_cast h'
      · intro h
        have h' : ((3 * counts.Requests : Nat) : ℚ) ≤ ((5 * counts.TotalFailures : Nat) : ℚ) := by
          exact_mod_cast h
        push_cast at h'; linarith
    simp only [ReadyToTrip, hne, if_false, Bool.and_eq_true, decide_eq_true_eq, ge_iff_le,
      hratio, hsix, hexact, float64.nearest_ge_six_tenths _ _ hne hf hr]
  · have h1 : float64.ofRat (mkRat 3 5) ≤ float64.nearest 3 3 := by decide
    have h2 : float64.ofRat (mkRat 3 5) ≤ float64.nearest 3 5 := by decide
    have h3 : ¬ (float64.ofRat (mkRat 3 5) ≤ float64.nearest 2 5) := by decide
    refine ⟨?_, ?_, ?_, ?_⟩
    · simp [ReadyToTrip, hmin, hratio, h1]
    · simp [ReadyToTrip, hmin, hratio, h2]
    · simp [ReadyToTrip, hmin]
    · simp [ReadyToTrip, hmin, hratio, h3]
  · have hf0 : counts.TotalFailures = 0 := by omega
    simp [ReadyToTrip, h0, hf0]

/-- The amended C19 on the test configuration and the counters of five
requests, three of them failed. -/
theorem trip_predicate_witness :
    (ReadyToTrip getTestConfig ⟨5, 2, 3, 0, 1⟩ = true ↔
      5 ≥ getTestConfig.CircuitBreaker.MinRequests ∧
        float64.ofRat getTestConfig.CircuitBreaker.FailureRatio ≤ float64.nearest 3 5) ∧
    (|float64.nearest 3 5 - ((3 : Nat) : ℚ) / ((5 : Nat) : ℚ)|
      ≤ ((3 : Nat) : ℚ) / ((5 : Nat) : ℚ) / 2 ^ 53) ∧
    (ReadyToTrip getTestConfig ⟨5, 2, 3, 0, 1⟩ = true ↔
      5 ≥ getTestConfig.CircuitBreaker.MinRequests ∧
        (3 : ℚ) / 5 ≤ ((3 : Nat) : ℚ) / ((5 : Nat) : ℚ)) ∧
    (ReadyToTrip getTestConfig ⟨3, 0, 3, 0, 3⟩ = true ∧
      ReadyToTrip getTestConfig ⟨5, 0, 3, 0, 3⟩ = true ∧
      ReadyToTrip getTestConfig ⟨2, 0, 2, 0, 3⟩ = false ∧
      ReadyToTrip getTestConfig ⟨5, 0, 2, 0, 3⟩ = false) ∧
    ReadyToTrip getTestConfig ⟨0, 0, 0, 0, 0⟩ = false :=
  ⟨(trip_predicate getTestConfig ⟨5, 2, 3, 0, 1⟩).1 (by decide),
    (trip_predicate getTestConfig ⟨5, 2, 3, 0, 1⟩).2.1 (by decide) (by decide) (by decide),
    (trip_predicate getTestConfig ⟨5, 2, 3, 0, 1⟩).2.2.1 rfl (by decide) (by decide) (by decide),
    (trip_predicate getTestConfig ⟨5, 2, 3, 0, 1⟩).2.2.2.1 rfl rfl 0 0 3,
    (trip_predicate getTestConfig ⟨0, 0, 0, 0, 0⟩).2.2.2.2 rfl (by decide)⟩

/-- C20: atomicity on error. For every service state, every input and every
behaviour of the providers, a `ProcessPayment` or a `RefundPayment` that
returns a non-nil error returns a nil payment and leaves the ledger as it was
before the call (the same function from ids to entries). In particular an
AUTHORIZED entry whose refund failed is the same entry afterwards, and a later
refund of it that the breaker admits and whose retried provider call ends with
a payment returns that payment, REFUNDED. -/
theorem atomicity_on_error {W : Type} (rt : Runtime W) (s : PaymentService W) (env : Env W) :
    (∀ (request : PaymentRequest) (payment : Option Payment) (err : GoError),
      (ProcessPayment rt s request env).1 = .returned (payment, some err) →
      payment = none ∧ (ProcessPayment rt s request env).2.1.transactions = s.transactions) ∧
    (∀ (paymentID : String) (request : RefundRequest) (payment : Option Payment) (err : GoError),
      (RefundPayment rt s paymentID request env).1 = .returned (payment, some err) →
      payment = none ∧
        (RefundPayment rt s paymentID request env).2.1.transactions = s.transactions) ∧
    (∀ (paymentID : String) (request : RefundRequest) (payment : Option Payment) (err : GoError)
        (tx : Transaction),
      s.transactions paymentID = some tx → tx.Payment.Status = StatusAuthorized →
      (RefundPayment rt s paymentID request env).1 = .returned (payment, some err) →
      (RefundPayment rt s paymentID request env).2.1.transactions paymentID = some tx ∧
      statusOf (RefundPayment rt s paymentID request env).2.1 paymentID = some StatusAuthorized ∧
      ∀ (again : RefundRequest) (env2 env3 : Env W) (i : Nat) (prov : PaymentProvider W)
          (p : Payment),
        RefundPayment.lookup s.providers tx.ProviderID 0 = some (i, prov) →
        ((RefundPayment rt s paymentID request env).2.1.circuitBreaker.beforeRequest
          (rt.now env2.world)).2.2 = none →
        guarded rt s.config prov (prov.RefundPayment paymentID again) i .RefundPayment env2
          = some ((some (some p), none), env3) →
        (RefundPayment rt (RefundPayment rt s paymentID request env).2.1 paymentID again env2).1
          = .returned (some { p with Status := StatusRefunded }, none)) := by
  refine ⟨fun request payment err hp => ?_, fun paymentID request payment err hp => ?_,
    fun paymentID request payment err tx h hs hp => ?_⟩
  · obtain ⟨_, _, _, hl⟩ := loop_spec rt request s.providers 0 none s env
    rcases hl with ⟨pay, prov, _, hr, _⟩ | ⟨ht, hd | hd | ⟨e, hd⟩⟩
    · have hr1 : (ProcessPayment rt s request env).1 = .returned (some pay, none) := hr
      rw [hr1] at hp
      simp at hp
    · have hd1 : (ProcessPayment rt s request env).1 = .diverged := hd
      rw [hd1] at hp
      cases hp
    · have hd1 : (ProcessPayment rt s request env).1 = .panicked nilDereference := hd
      rw [hd1] at hp
      cases hp
    · have hd1 : (ProcessPayment rt s request env).1 = .returned (none, some e) := hd
      rw [hd1] at hp
      simp only [Outcome.returned.injEq, Prod.mk.injEq] at hp
      exact ⟨hp.1.symm, ht⟩
  · exact (refund_error rt s paymentID request env).2.2 payment err hp
  · obtain ⟨hprov, hcfg, herr⟩ := refund_error rt s paymentID request env
    obtain ⟨_, ht⟩ := herr payment err hp
    have h1 : (RefundPayment rt s paymentID request env).2.1.transactions paymentID = some tx := by
      rw [ht]; exact h
    refine ⟨h1, by simp [statusOf, h1, hs], fun again env2 env3 i prov p hl hpass hg => ?_⟩
    refine refund_succeeds rt _ paymentID again env2 env3 tx i prov p h1 hs ?_ hpass ?_
    · rw [hprov]; exact hl
    · rw [hcfg]; exact hg

/-- C20 on two services. The one provider of the first answers every charge
with a payment object together with an error: `ProcessPayment` fails with a nil
payment and an untouched ledger. The ledger of the second holds the AUTHORIZED
payment "p1" of an upstream that is down for the first 2.5 seconds: the refund
at time 0 fails with a nil payment, the entry is the same, and the refund
issued after it returns the payment, REFUNDED. -/
theorem atomicity_on_error_witness :
    ((none : Option Payment) = none ∧
      (ProcessPayment clockRuntime (ownedBy (partialProvider "a" "A" (samplePayment "p2")))
        sampleRequest ⟨0, []⟩).2.1.transactions
        = (ownedBy (partialProvider "a" "A" (samplePayment "p2"))).transactions) ∧
    ((none : Option Payment) = none ∧
      (RefundPayment clockRuntime (ownedBy (partialProvider "a" "A" (samplePayment "p2")))
        "p1" ⟨100⟩ ⟨0, []⟩).2.1.transactions
        = (ownedBy (partialProvider "a" "A" (samplePayment "p2"))).transactions) ∧
    (RefundPayment clockRuntime (ownedBy (flakyProvider "a" "A" (samplePayment "p1") 2500000000))
        "p1" ⟨100⟩ ⟨0, []⟩).2.1.transactions "p1" = some ⟨samplePayment "p1", "a", "A"⟩ ∧
    (RefundPayment clockRuntime
        (RefundPayment clockRuntime
          (ownedBy (flakyProvider "a" "A" (samplePayment "p1") 2500000000))
          "p1" ⟨100⟩ ⟨0, []⟩).2.1
        "p1" ⟨100⟩
        (RefundPayment clockRuntime
          (ownedBy (flakyProvider "a" "A" (samplePayment "p1") 2500000000))
          "p1" ⟨100⟩ ⟨0, []⟩).2.2).1
      = .returned
          (some { samplePayment "p1" with Status := StatusRefunded, CurrentAmount := 0 }, none) :=
  ⟨(atomicity_on_error clockRuntime (ownedBy (partialProvider "a" "A" (samplePayment "p2")))
      ⟨0, []⟩).1 sampleRequest none _ rfl,
    (atomicity_on_error clockRuntime (ownedBy (partialProvider "a" "A" (samplePayment "p2")))
      ⟨0, []⟩).2.1 "p1" ⟨100⟩ none _ rfl,
    ((atomicity_on_error clockRuntime
      (ownedBy (flakyProvider "a" "A" (samplePayment "p1") 2500000000)) ⟨0, []⟩).2.2
      "p1" ⟨100⟩ none _ ⟨samplePayment "p1", "a", "A"⟩ rfl rfl rfl).1,
    ((atomicity_on_error clockRuntime
      (ownedBy (flakyProvider "a" "A" (samplePayment "p1") 2500000000)) ⟨0, []⟩).2.2
      "p1" ⟨100⟩ none _ ⟨samplePayment "p1", "a", "A"⟩ rfl rfl rfl).2.2
      ⟨100⟩ _ _ 0 (flakyProvider "a" "A" (samplePayment "p1") 2500000000)
      { samplePayment "p1" with Status := "refunded", CurrentAmount := 0 } rfl rfl rfl⟩

end PaymentGateway
